import Mathlib

/-!
# Scaling engine of the application autoscaler

A shallow embedding of `src/autoscaler/scalingengine/scalingengine.go`:
the adjustment arithmetic (`ComputeNewInstances`) and the three decision entry
points (`Scale`, `SetActiveSchedule`, `RemoveActiveSchedule`).

Conventions of the embedding.

* Go `int` is the 64-bit two's complement integer; values are carried as `Int`
  and `wrapInt64` is applied where the source adds machine integers.
* Go `float64`/`float32` finite values are carried as exact rationals; every
  floating-point operation is the exact operation followed by IEEE-754
  round-to-nearest-even (`roundNearestEven`), one operation at a time (no fused
  multiply-add).  Signed zeros are not tracked: the only expression evaluated
  adds `0.5` before converting to `int`, so the sign of a zero never reaches
  the result.
* `strconv.ParseInt` and `strconv.ParseFloat` belong to the Go library; they
  are embedded from the library source: the digit loop of `ParseUint`,
  `special`, and `readFloat` with its decimal and hexadecimal mantissa loop,
  its exponent loop and `underscoreOK`.  The digits read are kept exactly, and
  the conversion to `float32` follows the documented contract that a
  well-formed literal is rounded to the nearest `float32`, ties to even.  The
  exponent loop stops accumulating at 10000 as in the library; theorems about
  the value a literal denotes are stated for texts of at most 800 bytes, the
  number of digits the library's decimal conversion keeps.
* A nil `*models.Trigger` or `*models.ActiveSchedule` argument is outside the
  embedding: triggers and schedules are values.
* Collaborators (platform client, policy store, scaling-engine database, clock)
  are a record of outcomes, the active-schedule table is explicit state, and
  every collaborator call is appended to a trace.
* Deferred calls run when the function returns and also when it panics.
* Logging is left out: a log call changes no result, no state and no other
  collaborator.  The errors of `SaveScalingHistory` and
  `UpdateScalingCooldownExpireTime` are only logged by the source, so the
  embedding records these calls and never reads their outcome.
-/

namespace Autoscaler

/-! ## Errors -/

/-- The two failure kinds of `strconv` (`ErrSyntax`, `ErrRange`). -/
inductive NumErrKind where
  | errSyntax
  | errRange
deriving DecidableEq, Repr

/-- Go `error` values that reach the scaling engine. `numError` is
`*strconv.NumError`, `activeScheduleNotFound` is `*ActiveScheduleNotFoundError`
and `collaborator` is any error handed back by an injected collaborator. -/
inductive GoError where
  | numError (func : String) (num : String) (kind : NumErrKind)
  | activeScheduleNotFound
  | collaborator (msg : String)
deriving DecidableEq, Repr

/-- How a Go function call ends: it returns a value or it panics. -/
inductive Completion (α : Type) where
  | returned (a : α)
  | panicked (why : String)
deriving DecidableEq, Repr

/-! ## Machine integers -/

/-- Smallest Go `int` (64-bit platform). -/
def minInt64 : Int := -9223372036854775808

/-- Largest Go `int` (64-bit platform). -/
def maxInt64 : Int := 9223372036854775807

/-- Two's complement wrap-around of a mathematical integer into Go `int`. -/
def wrapInt64 (x : Int) : Int := (x + 9223372036854775808) % 18446744073709551616 - 9223372036854775808

/-- The value is representable as a Go `int`. -/
def isInt64 (x : Int) : Prop := minInt64 ≤ x ∧ x ≤ maxInt64

instance (x : Int) : Decidable (isInt64 x) := by unfold isInt64; exact inferInstance

/-! ## `strconv.ParseInt(s, 10, 32)` -/

/-- The byte is an ASCII decimal digit. -/
def isDigit (c : Char) : Bool := decide (48 ≤ c.toNat) && decide (c.toNat ≤ 57)

/-- Numeric value of an ASCII digit (`c - '0'`). -/
def digitVal (c : Char) : Nat := c.toNat - 48

/-- The digit loop of `strconv.ParseUint` for base 10 and `bitSize` 32:
`n` is the accumulator; a byte that is no digit is a syntax error, and an
accumulator leaving `[0, 2^32 - 1]` is a range error. -/
def parseUintLoop : List Char → Nat → Except NumErrKind Nat
  | [], n => .ok n
  | c :: cs, n =>
    if isDigit c then
      if n ≥ 1844674407370955162 then .error .errRange
      else
        let n1 := n * 10 + digitVal c
        if n1 > 4294967295 then .error .errRange
        else parseUintLoop cs n1
    else .error .errSyntax

/-- `strconv.ParseUint(s, 10, 32)`. -/
def ParseUint (s : List Char) : Except NumErrKind Nat :=
  match s with
  | [] => .error .errSyntax
  | _ => parseUintLoop s 0

/-- `strconv.ParseInt(s, 10, 32)`: an optional sign, then `ParseUint`, then
the check against the signed 32-bit range. -/
def ParseInt (s : List Char) : Except NumErrKind Int :=
  match s with
  | [] => .error .errSyntax
  | c :: rest =>
    let neg := decide (c = '-')
    let body := if c = '+' ∨ c = '-' then rest else s
    match ParseUint body with
    | .error .errSyntax => .error .errSyntax
    | .error .errRange => .error .errRange
    | .ok un =>
      if ¬ neg ∧ un ≥ 2147483648 then .error .errRange
      else if neg ∧ un > 2147483648 then .error .errRange
      else .ok (if neg then -(un : Int) else (un : Int))

/-! ## IEEE-754 rounding and `strconv.ParseFloat(s, 32)` -/

/-- Power of two with an integer exponent, as a rational. -/
def pow2 (e : Int) : ℚ :=
  if 0 ≤ e then ((2 ^ e.toNat : Nat) : ℚ) else 1 / ((2 ^ (-e).toNat : Nat) : ℚ)

/-- Halving loop behind `log2Nat`; `fuel` bounds the number of halvings. -/
def log2Loop : Nat → Nat → Nat
  | 0, _ => 0
  | fuel + 1, n => if n < 2 then 0 else log2Loop fuel (n / 2) + 1

/-- Integer part of the binary logarithm of a positive natural number. -/
def log2Nat (n : Nat) : Nat := log2Loop n n

/-- Integer part of the binary logarithm of a positive rational. -/
def floorLog2 (a : ℚ) : Int :=
  let e0 : Int := (log2Nat a.num.natAbs : Int) - (log2Nat a.den : Int)
  if pow2 e0 ≤ a then e0 else e0 - 1

/-- Nearest integer to a non-negative rational, ties to the even neighbour. -/
def roundHalfEven (m : ℚ) : Int :=
  let f := Rat.floor m
  let r := m - (f : ℚ)
  if r < 1 / 2 then f
  else if 1 / 2 < r then f + 1
  else if f % 2 = 0 then f else f + 1

/-- IEEE-754 round-to-nearest-even of an exact value to the format with `prec`
significand bits whose smallest subnormal is `2 ^ qmin`. Overflow is detected by
the callers. -/
def roundNearestEven (prec : Nat) (qmin : Int) (x : ℚ) : ℚ :=
  if x = 0 then 0
  else
    let a := |x|
    let q := max (floorLog2 a - (prec : Int) + 1) qmin
    let r := (roundHalfEven (a / pow2 q) : ℚ) * pow2 q
    if x < 0 then -r else r

/-- Rounding to `float32` (24-bit significand, smallest subnormal `2^-149`). -/
def roundFloat32 (x : ℚ) : ℚ := roundNearestEven 24 (-149) x

/-- Rounding to `float64` (53-bit significand, smallest subnormal `2^-1074`). -/
def roundFloat64 (x : ℚ) : ℚ := roundNearestEven 53 (-1074) x

/-- Go floating-point values: a finite value or one of the specials. -/
inductive GoFloat where
  | finite (q : ℚ)
  | inf (neg : Bool)
  | nan
deriving DecidableEq

/-- ASCII lower-casing of a byte (`strconv` compares the special spellings
case-insensitively). -/
def lowerAscii (c : Char) : Char :=
  if 65 ≤ c.toNat ∧ c.toNat ≤ 90 then Char.ofNat (c.toNat + 32) else c

/-- `strconv.special`: the spellings of the infinities and of NaN. -/
def special (s : List Char) : Option GoFloat :=
  let l := s.map lowerAscii
  match s with
  | [] => none
  | c :: _ =>
    if c = '+' then
      if l = "+inf".data ∨ l = "+infinity".data then some (.inf false) else none
    else if c = '-' then
      if l = "-inf".data ∨ l = "-infinity".data then some (.inf true) else none
    else if c = 'n' ∨ c = 'N' then
      if l = "nan".data then some .nan else none
    else if c = 'i' ∨ c = 'I' then
      if l = "inf".data ∨ l = "infinity".data then some (.inf false) else none
    else none

/-- Power of ten with an integer exponent, as a rational. -/
def pow10 (e : Int) : ℚ :=
  if 0 ≤ e then ((10 ^ e.toNat : Nat) : ℚ) else 1 / ((10 ^ (-e).toNat : Nat) : ℚ)

/-- The byte is one of the hexadecimal letter digits `a`..`f`, `A`..`F`
(`'a' <= lower(c) && lower(c) <= 'f'`). -/
def isHexLetter (c : Char) : Bool :=
  (decide (97 ≤ c.toNat) && decide (c.toNat ≤ 102))
    || (decide (65 ≤ c.toNat) && decide (c.toNat ≤ 70))

/-- Numeric value of a hexadecimal letter digit (`lower(c) - 'a' + 10`). -/
def hexLetterVal (c : Char) : Nat :=
  if 97 ≤ c.toNat then c.toNat - 87 else c.toNat - 55

/-- The byte opens the exponent: `e`, `E` for a decimal mantissa and `p`, `P`
for a hexadecimal one (`lower(s[i]) == expChar`). -/
def isExpChar (hex : Bool) (c : Char) : Bool :=
  if hex then decide (c = 'p' ∨ c = 'P') else decide (c = 'e' ∨ c = 'E')

/-- State of the mantissa loop of `strconv.readFloat`: the digits read so far
as a number (`mant`), how many of them are significant (`nd`), the position of
the point (`dp`) and the two flags. -/
structure MantState where
  mant : Nat
  nd : Int
  dp : Int
  sawdot : Bool
  sawdigits : Bool

/-- The mantissa loop of `strconv.readFloat` for base 10 (`hex = false`) or
base 16. An underscore is skipped, the first `.` sets the point, a digit is
added to the mantissa (leading zeros only move the point); the loop stops at
the first other byte, or at a second `.`, and hands back the unread bytes. All
digits are kept, so the value read is exact. -/
def readMantissa (hex : Bool) : List Char → MantState → MantState × List Char
  | [], st => (st, [])
  | c :: cs, st =>
    if c = '_' then readMantissa hex cs st
    else if c = '.' then
      if st.sawdot then (st, c :: cs)
      else readMantissa hex cs { st with sawdot := true, dp := st.nd }
    else if isDigit c then
      if c = '0' ∧ st.nd = 0 then
        readMantissa hex cs { st with sawdigits := true, dp := st.dp - 1 }
      else
        readMantissa hex cs
          { st with sawdigits := true, nd := st.nd + 1,
                    mant := st.mant * (if hex then 16 else 10) + digitVal c }
    else if hex ∧ isHexLetter c then
      readMantissa hex cs
        { st with sawdigits := true, nd := st.nd + 1, mant := st.mant * 16 + hexLetterVal c }
    else (st, c :: cs)

/-- The state of the mantissa loop after one more digit. -/
def digitStep (hex : Bool) (st : MantState) (c : Char) : MantState :=
  if isDigit c then
    if c = '0' ∧ st.nd = 0 then { st with sawdigits := true, dp := st.dp - 1 }
    else
      { st with sawdigits := true, nd := st.nd + 1,
                mant := st.mant * (if hex then 16 else 10) + digitVal c }
  else { st with sawdigits := true, nd := st.nd + 1, mant := st.mant * 16 + hexLetterVal c }

/-- The exponent digit loop of `strconv.readFloat`: underscores are skipped and
the accumulator stops growing once it has reached 10000. Unread bytes are
handed back. -/
def readExpDigits : List Char → Nat → Nat × List Char
  | [], e => (e, [])
  | c :: cs, e =>
    if c = '_' then readExpDigits cs e
    else if isDigit c then readExpDigits cs (if e < 10000 then e * 10 + digitVal c else e)
    else (e, c :: cs)

/-- The exponent part of `strconv.readFloat`: the amount by which the point
moves and the unread bytes, or `none` on a syntax error. A decimal mantissa may
come without exponent, a hexadecimal one must have it. -/
def readExponent (hex : Bool) (s : List Char) : Option (Int × List Char) :=
  match s with
  | [] => if hex then none else some (0, [])
  | c :: cs =>
    if isExpChar hex c then
      match cs with
      | [] => none
      | d :: ds =>
        let esign : Int := if d = '-' then -1 else 1
        let body := if d = '+' ∨ d = '-' then ds else cs
        match body with
        | [] => none
        | b :: _ =>
          if isDigit b then
            let r := readExpDigits body 0
            some ((r.1 : Int) * esign, r.2)
          else none
    else if hex then none else some (0, s)

/-- What `underscoreOK` remembers of the byte before: nothing yet (`^`), a digit
or the base prefix (`0`), an underscore (`_`), anything else (`!`). -/
inductive Saw where
  | start
  | digit
  | underscore
  | other
deriving DecidableEq

/-- The loop of `strconv.underscoreOK`: an underscore must follow a digit (or
the base prefix) and must be followed by a digit. -/
def underscoreLoop (hex : Bool) : List Char → Saw → Bool
  | [], saw => decide (saw ≠ .underscore)
  | c :: cs, saw =>
    if isDigit c ∨ (hex ∧ isHexLetter c) then underscoreLoop hex cs .digit
    else if c = '_' then
      if saw ≠ .digit then false else underscoreLoop hex cs .underscore
    else if saw = .underscore then false
    else underscoreLoop hex cs .other

/-- The text after an optional leading sign. -/
def dropSign (s : List Char) : List Char :=
  match s with
  | [] => []
  | c :: rest => if c = '+' ∨ c = '-' then rest else s

/-- `strconv.underscoreOK` after the optional sign: skip an optional base prefix
(`0b`, `0o`, `0x` in either case), which counts as a digit, then run the
loop. -/
def underscoreBody (unsigned : List Char) : Bool :=
  match unsigned with
  | c0 :: c1 :: rest =>
    if c0 = '0' ∧ (c1 = 'b' ∨ c1 = 'B' ∨ c1 = 'o' ∨ c1 = 'O' ∨ c1 = 'x' ∨ c1 = 'X') then
      underscoreLoop (decide (c1 = 'x' ∨ c1 = 'X')) rest .digit
    else underscoreLoop false (c0 :: c1 :: rest) .start
  | short => underscoreLoop false short .start

/-- `strconv.underscoreOK`: whether the underscores of the text are allowed. -/
def underscoreOK (s : List Char) : Bool := underscoreBody (dropSign s)

/-- The exponent part read to the end of the text: `ParseFloat` rejects a text
of which `readFloat` leaves bytes unread. -/
def readExponentToEnd (hex : Bool) (s : List Char) : Option Int :=
  match readExponent hex s with
  | none => none
  | some (e, rest) =>
    match rest with
    | [] => some e
    | _ :: _ => none

/-- The steps of `strconv.readFloat` after the sign and the base prefix: the
mantissa loop, the check that a digit was seen, the exponent, and no byte left
over. Yields the exact value `mantissa * 10 ^ exp`, for base 16
`mantissa * 2 ^ exp`. -/
def scanNumber (hex : Bool) (digits : List Char) : Option ℚ :=
  let r := readMantissa hex digits ⟨0, 0, 0, false, false⟩
  if ¬ r.1.sawdigits then none
  else
    match readExponentToEnd hex r.2 with
    | none => none
    | some e =>
      let dp := if r.1.sawdot then r.1.dp else r.1.nd
      some (if hex then (r.1.mant : ℚ) * pow2 (4 * dp + e - 4 * r.1.nd)
        else (r.1.mant : ℚ) * pow10 (dp + e - r.1.nd))

/-- The text starts with the hexadecimal base prefix `0x` or `0X`
(`s[i] == '0' && lower(s[i+1]) == 'x'`). -/
def hasHexPrefix (u : List Char) : Bool :=
  match u with
  | c0 :: c1 :: _ => decide (c0 = '0' ∧ (c1 = 'x' ∨ c1 = 'X'))
  | _ => false

/-- `strconv.readFloat` on the whole text: the sign and the exact magnitude of
a well-formed literal, `none` on a syntax error. The base is 16 when the text
after the sign starts with `0x` or `0X` and at least one more byte follows
(`i+2 < len(s)`). -/
def readFloat (s : List Char) : Option (Bool × ℚ) :=
  match s with
  | [] => none
  | c :: _ =>
    let neg := decide (c = '-')
    let body := dropSign s
    let hex := hasHexPrefix body && decide (2 < body.length)
    match scanNumber hex (if hex then body.drop 2 else body) with
    | none => none
    | some v => if '_' ∈ s ∧ ¬ underscoreOK s then none else some (neg, v)

/-- Least magnitude that `float32` rounding sends to infinity:
`2^128 - 2^103`, half an ulp above the largest finite `float32`. -/
def float32Overflow : ℚ := 340282356779733661637539395458142568448

/-- `strconv.ParseFloat(s, 32)`: the special spellings, else a decimal or
hexadecimal literal rounded to the nearest `float32`; a literal that rounds
beyond the largest finite `float32` is a range error. -/
def ParseFloat (s : List Char) : Except NumErrKind GoFloat :=
  match special s with
  | some f => .ok f
  | none =>
    match readFloat s with
    | none => .error .errSyntax
    | some (neg, v) =>
      if float32Overflow ≤ v then .error .errRange
      else .ok (.finite (if neg then -(roundFloat32 v) else roundFloat32 v))

/-! ## Adjustment arithmetic -/

/-- Result of converting a `float64` that no `int` can hold (infinite, NaN or
out of range). Go leaves it implementation-dependent; this is the amd64 value. -/
def intIndefinite : Int := minInt64

/-- Go conversion `int(x)` of a finite `float64`: truncation toward zero. -/
def float64ToInt (x : ℚ) : Int :=
  let t : Int := if 0 ≤ x then Rat.floor x else -(Rat.floor (-x))
  if minInt64 ≤ t ∧ t ≤ maxInt64 then t else intIndefinite

/-- The percentage branch of `ComputeNewInstances`:
`int(float64(currentInstances)*(1+percentage/100) + 0.5)`, each operation
rounded to `float64`. A non-finite percentage keeps every intermediate value
non-finite, so the conversion yields `intIndefinite`. -/
def percentNewInstances (currentInstances : Int) (percentage : GoFloat) : Int :=
  match percentage with
  | .finite p =>
    let ratio := roundFloat64 (1 + roundFloat64 (p / 100))
    let scaled := roundFloat64 (roundFloat64 (currentInstances : ℚ) * ratio)
    float64ToInt (roundFloat64 (scaled + 1 / 2))
  | _ => intIndefinite

/-- `strings.HasSuffix(adjustment, "%")`. -/
def hasPercentSuffix (adjustment : String) : Bool :=
  adjustment.data.getLast? = some '%'

/-- `scalingEngine.ComputeNewInstances`. -/
def ComputeNewInstances (currentInstances : Int) (adjustment : String) : Int × Option GoError :=
  if hasPercentSuffix adjustment then
    let num := adjustment.data.dropLast
    match ParseFloat num with
    | .error k => (-1, some (.numError "ParseFloat" (String.mk num) k))
    | .ok percentage => (percentNewInstances currentInstances percentage, none)
  else
    match ParseInt adjustment.data with
    | .error k => (-1, some (.numError "ParseInt" adjustment k))
    | .ok step => (wrapInt64 (step + currentInstances), none)

/-! ## Data model (`autoscaler/models`) -/

/-- `models.ScalingType`. -/
inductive ScalingKind where
  | dynamic
  | schedule
deriving DecidableEq, Repr

/-- `models.ScalingStatus`. -/
inductive ScalingStatus where
  | succeeded
  | failed
  | ignored
deriving DecidableEq, Repr

/-- `models.Trigger`, the fields the engine reads. `cooldown` is the duration
returned by `trigger.CoolDown()`, in nanoseconds. -/
structure Trigger where
  AppId : String
  MetricType : String
  Operator : String
  Threshold : Int
  BreachDurationSeconds : Int
  Adjustment : String
  cooldown : Int
deriving DecidableEq, Repr

/-- Modelled from the spec: `models.Trigger.CoolDown` is declared outside the
sources at hand; the spec gives a trigger a cooldown duration, which is added to
the clock reading when the cooldown expiry is updated. -/
def Trigger.CoolDown (trigger : Trigger) : Int := trigger.cooldown

/-- `models.ActiveSchedule`. -/
structure ActiveSchedule where
  ScheduleId : String
  InstanceMin : Int
  InstanceMax : Int
  InstanceMinInitial : Int
deriving DecidableEq, Repr

/-- `models.ScalingPolicy`, the two bounds the engine reads. -/
structure ScalingPolicy where
  InstanceMin : Int
  InstanceMax : Int
deriving DecidableEq, Repr

/-- `models.AppScalingHistory`. `Status` is `none` while the field still
holds the value it was created with, that is, while no statement of the
decision has assigned it. -/
structure AppScalingHistory where
  AppId : String
  Timestamp : Int
  ScalingType : ScalingKind
  OldInstances : Int
  NewInstances : Int
  Reason : String
  Status : Option ScalingStatus
  Error : String
  Message : String
deriving DecidableEq, Repr

/-! ## Collaborators -/

/-- One call to a collaborator, with its arguments. -/
inductive Call where
  | lock (appId : String)
  | unlock (appId : String)
  | clockNow
  | getAppInstances (appId : String)
  | setAppInstances (appId : String) (instances : Int)
  | getAppPolicy (appId : String)
  | canScaleApp (appId : String)
  | getActiveSchedule (appId : String)
  | setActiveSchedule (appId : String) (schedule : ActiveSchedule)
  | removeActiveSchedule (appId : String)
  | updateScalingCooldownExpireTime (appId : String) (expireAt : Int)
  | saveScalingHistory (history : AppScalingHistory)
deriving DecidableEq, Repr

/-- What the injected collaborators answer during one invocation of an entry
point: `cf.CfClient` (`getAppInstances`, `setAppInstances`), `db.PolicyDB`
(`getAppPolicy`, where `none` is a nil policy), `db.ScalingEngineDB` and the
clock (`now`, in Unix nanoseconds). For the three active-schedule operations of
the database the record only says whether the operation fails; their data lives
in the `ScheduleStore`. -/
structure Collaborators where
  getAppInstances : String → Except GoError Int
  setAppInstances : String → Int → Option GoError
  getAppPolicy : String → Except GoError (Option ScalingPolicy)
  canScaleApp : String → Except GoError Bool
  updateScalingCooldownExpireTime : String → Int → Option GoError
  saveScalingHistory : AppScalingHistory → Option GoError
  getActiveScheduleErr : String → Option GoError
  setActiveScheduleErr : String → ActiveSchedule → Option GoError
  removeActiveScheduleErr : String → Option GoError
  now : Int

/-- The active-schedule table of the scaling-engine database: at most one
schedule per application. -/
abbrev ScheduleStore := String → Option ActiveSchedule

/-- `ScalingEngineDB.GetActiveSchedule`. -/
def dbGetActiveSchedule (c : Collaborators) (store : ScheduleStore) (appId : String) :
    Except GoError (Option ActiveSchedule) :=
  match c.getActiveScheduleErr appId with
  | some err => .error err
  | none => .ok (store appId)

/-- `ScalingEngineDB.SetActiveSchedule`: a failing write leaves the table as it was. -/
def dbSetActiveSchedule (c : Collaborators) (store : ScheduleStore) (appId : String)
    (schedule : ActiveSchedule) : Option GoError × ScheduleStore :=
  match c.setActiveScheduleErr appId schedule with
  | some err => (some err, store)
  | none => (none, fun a => if a = appId then some schedule else store a)

/-- `ScalingEngineDB.RemoveActiveSchedule`: a failing removal leaves the table as it was. -/
def dbRemoveActiveSchedule (c : Collaborators) (store : ScheduleStore) (appId : String) :
    Option GoError × ScheduleStore :=
  match c.removeActiveScheduleErr appId with
  | some err => (some err, store)
  | none => (none, fun a => if a = appId then none else store a)

/-- What one invocation of an entry point leaves behind: how it ended, the
active-schedule table afterwards and the collaborator calls it made, in order. -/
structure DecisionRun (α : Type) where
  result : Completion α
  store : ScheduleStore
  trace : List Call

/-- The history entries written by a run, in order. -/
def savedHistories (trace : List Call) : List AppScalingHistory :=
  trace.filterMap fun call =>
    match call with
    | .saveScalingHistory h => some h
    | _ => none

/-- The instance counts handed to the platform client by a run, in order. -/
def platformSets (trace : List Call) : List Int :=
  trace.filterMap fun call =>
    match call with
    | .setAppInstances _ n => some n
    | _ => none

/-! ## Reason formatter -/

/-- `getDynamicScalingReason`. -/
def getDynamicScalingReason (trigger : Trigger) : String :=
  trigger.Adjustment ++ " instance(s) because " ++ trigger.MetricType ++ " " ++ trigger.Operator
    ++ " " ++ toString trigger.Threshold ++ " for " ++ toString trigger.BreachDurationSeconds
    ++ " seconds"

/-- `getScheduledScalingReason`. -/
def getScheduledScalingReason (schedule : ActiveSchedule) : String :=
  "schedule starts with instance min " ++ toString schedule.InstanceMin ++ ", instance max "
    ++ toString schedule.InstanceMax ++ " and instance min initial "
    ++ toString schedule.InstanceMinInitial

/-! ## Decision engine -/

/-- Lines 126-155 of `Scale`: clamp the proposed count to the bounds, record
it, skip an unchanged count, else apply it and update the cooldown expiry.
`calls` are the collaborator calls made so far. The expiry
`now.Add(trigger.CoolDown()).UnixNano()` is an `int64`: the sum of the clock
reading and the cooldown, both in nanoseconds, wrapped into 64 bits. -/
def scaleApply (c : Collaborators) (appId : String) (trigger : Trigger) (now : Int)
    (history : AppScalingHistory) (instances newInstances instanceMin instanceMax : Int)
    (calls : List Call) : AppScalingHistory × Completion (Int × Option GoError) × List Call :=
  let clamped : Int × AppScalingHistory :=
    if newInstances < instanceMin then
      (instanceMin, { history with Message := "limited by min instances " ++ toString instanceMin })
    else if newInstances > instanceMax then
      (instanceMax, { history with Message := "limited by max instances " ++ toString instanceMax })
    else (newInstances, history)
  let newInstances := clamped.1
  let history := { clamped.2 with NewInstances := newInstances }
  if newInstances = instances then
    ({ history with Status := some .ignored }, .returned (newInstances, none), calls)
  else
    match c.setAppInstances appId newInstances with
    | some err =>
      ({ history with Status := some .failed, Error := "failed to set app instances" },
        .returned (-1, some err), calls ++ [.setAppInstances appId newInstances])
    | none =>
      ({ history with Status := some .succeeded }, .returned (newInstances, none),
        calls ++ [.setAppInstances appId newInstances,
          .updateScalingCooldownExpireTime appId (wrapInt64 (now + trigger.CoolDown))])

/-- Lines 68-124 of `Scale`, followed by `scaleApply`: the statements between
the deferred history write and the return. Yields the history record as the
deferred write will see it, how the function ends, and the calls made. A nil
policy is dereferenced at line 121, which panics. -/
def scaleBody (c : Collaborators) (store : ScheduleStore) (appId : String) (trigger : Trigger)
    (now : Int) (history : AppScalingHistory) :
    AppScalingHistory × Completion (Int × Option GoError) × List Call :=
  match c.getAppInstances appId with
  | .error err =>
    ({ history with Status := some .failed, Error := "failed to get app instances" },
      .returned (-1, some err), [.getAppInstances appId])
  | .ok instances =>
    let history := { history with OldInstances := instances }
    match c.canScaleApp appId with
    | .error err =>
      ({ history with Status := some .failed, Error := "failed to check app cooldown setting" },
        .returned (-1, some err), [.getAppInstances appId, .canScaleApp appId])
    | .ok false =>
      ({ history with Status := some .ignored, NewInstances := instances,
                      Message := "app in cooldown period" },
        .returned (instances, none), [.getAppInstances appId, .canScaleApp appId])
    | .ok true =>
      match ComputeNewInstances instances trigger.Adjustment with
      | (_, some err) =>
        ({ history with Status := some .failed, Error := "failed to compute new app instances" },
          .returned (-1, some err), [.getAppInstances appId, .canScaleApp appId])
      | (newInstances, none) =>
        match dbGetActiveSchedule c store appId with
        | .error err =>
          ({ history with Status := some .failed, Error := "failed to get active schedule" },
            .returned (-1, some err),
            [.getAppInstances appId, .canScaleApp appId, .getActiveSchedule appId])
        | .ok (some schedule) =>
          scaleApply c appId trigger now history instances newInstances
            schedule.InstanceMin schedule.InstanceMax
            [.getAppInstances appId, .canScaleApp appId, .getActiveSchedule appId]
        | .ok none =>
          match c.getAppPolicy appId with
          | .error err =>
            ({ history with Status := some .failed, Error := "failed to get scaling policy" },
              .returned (-1, some err),
              [.getAppInstances appId, .canScaleApp appId, .getActiveSchedule appId,
                .getAppPolicy appId])
          | .ok none =>
            (history, .panicked "invalid memory address or nil pointer dereference",
              [.getAppInstances appId, .canScaleApp appId, .getActiveSchedule appId,
                .getAppPolicy appId])
          | .ok (some policy) =>
            scaleApply c appId trigger now history instances newInstances
              policy.InstanceMin policy.InstanceMax
              [.getAppInstances appId, .canScaleApp appId, .getActiveSchedule appId,
                .getAppPolicy appId]

/-- `scalingEngine.Scale`: take the lock, read the clock, create the history
record, run the body; the two deferred calls (history write, then unlock) run
last, whether the body returned or panicked. -/
def Scale (c : Collaborators) (store : ScheduleStore) (appId : String) (trigger : Trigger) :
    DecisionRun (Int × Option GoError) :=
  let now := c.now
  let history : AppScalingHistory :=
    { AppId := appId, Timestamp := now, ScalingType := .dynamic, OldInstances := -1,
      NewInstances := -1, Reason := getDynamicScalingReason trigger, Status := none,
      Error := "", Message := "" }
  let body := scaleBody c store appId trigger now history
  { result := body.2.1
    store := store
    trace := [.lock appId, .clockNow] ++ body.2.2 ++ [.saveScalingHistory body.1, .unlock appId] }

/-- Lines 217-255 of `SetActiveSchedule`: the statements between the deferred
history write and the return. -/
def setActiveScheduleBody (c : Collaborators) (appId : String) (schedule : ActiveSchedule)
    (history : AppScalingHistory) : AppScalingHistory × Option GoError × List Call :=
  match c.getAppInstances appId with
  | .error err =>
    ({ history with Status := some .failed, Error := "failed to get app instances" },
      some err, [.getAppInstances appId])
  | .ok instances =>
    let history := { history with OldInstances := instances }
    let instanceMin :=
      if schedule.InstanceMin > schedule.InstanceMinInitial then schedule.InstanceMin
      else schedule.InstanceMinInitial
    let clamped : Int × AppScalingHistory :=
      if instances < instanceMin then
        (instanceMin, { history with Message := "limited by min instances " ++ toString instanceMin })
      else if instances > schedule.InstanceMax then
        (schedule.InstanceMax,
          { history with Message := "limited by max instances " ++ toString instanceMin })
      else (instances, history)
    let newInstances := clamped.1
    let history := { clamped.2 with NewInstances := newInstances }
    if newInstances = instances then
      ({ history with Status := some .ignored }, none, [.getAppInstances appId])
    else
      match c.setAppInstances appId newInstances with
      | some err =>
        ({ history with Status := some .failed, Error := "failed to set app instances" },
          some err, [.getAppInstances appId, .setAppInstances appId newInstances])
      | none =>
        ({ history with Status := some .succeeded }, none,
          [.getAppInstances appId, .setAppInstances appId newInstances])

/-- `scalingEngine.SetActiveSchedule`. -/
def SetActiveSchedule (c : Collaborators) (store : ScheduleStore) (appId : String)
    (schedule : ActiveSchedule) : DecisionRun (Option GoError) :=
  match dbGetActiveSchedule c store appId with
  | .error err =>
    { result := .returned (some err), store := store,
      trace := [.lock appId, .getActiveSchedule appId, .unlock appId] }
  | .ok currentSchedule =>
    if currentSchedule.any (fun cur => schedule.ScheduleId = cur.ScheduleId) then
      { result := .returned none, store := store,
        trace := [.lock appId, .getActiveSchedule appId, .unlock appId] }
    else
      match dbSetActiveSchedule c store appId schedule with
      | (some err, store1) =>
        { result := .returned (some err), store := store1,
          trace := [.lock appId, .getActiveSchedule appId, .setActiveSchedule appId schedule,
            .unlock appId] }
      | (none, store1) =>
        let now := c.now
        let history : AppScalingHistory :=
          { AppId := appId, Timestamp := now, ScalingType := .schedule, OldInstances := -1,
            NewInstances := -1, Reason := getScheduledScalingReason schedule, Status := none,
            Error := "", Message := "" }
        let body := setActiveScheduleBody c appId schedule history
        { result := .returned body.2.1
          store := store1
          trace := [.lock appId, .getActiveSchedule appId, .setActiveSchedule appId schedule,
              .clockNow] ++ body.2.2 ++ [.saveScalingHistory body.1, .unlock appId] }

/-- Lines 293-339 of `RemoveActiveSchedule`: the statements between the
deferred history write and the return. -/
def removeActiveScheduleBody (c : Collaborators) (appId : String)
    (history : AppScalingHistory) : AppScalingHistory × Option GoError × List Call :=
  match c.getAppInstances appId with
  | .error err =>
    ({ history with Status := some .failed, Error := "failed to get app instances" },
      some err, [.getAppInstances appId])
  | .ok instances =>
    let history := { history with OldInstances := instances }
    match c.getAppPolicy appId with
    | .error err =>
      ({ history with Status := some .failed, Error := "failed to get app policy" },
        some err, [.getAppInstances appId, .getAppPolicy appId])
    | .ok none =>
      ({ history with Status := some .ignored }, none,
        [.getAppInstances appId, .getAppPolicy appId])
    | .ok (some policy) =>
      let clamped : Int × AppScalingHistory :=
        if instances < policy.InstanceMin then
          (policy.InstanceMin,
            { history with Message := "limited by min instances " ++ toString policy.InstanceMin })
        else if instances > policy.InstanceMax then
          (policy.InstanceMax,
            { history with Message := "limited by max instances " ++ toString policy.InstanceMax })
        else (instances, history)
      let newInstances := clamped.1
      let history := { clamped.2 with NewInstances := newInstances }
      if newInstances = instances then
        ({ history with Status := some .ignored }, none,
          [.getAppInstances appId, .getAppPolicy appId])
      else
        match c.setAppInstances appId newInstances with
        | some err =>
          ({ history with Status := some .failed, Error := "failed to set app instances" },
            some err,
            [.getAppInstances appId, .getAppPolicy appId, .setAppInstances appId newInstances])
        | none =>
          ({ history with Status := some .succeeded }, none,
            [.getAppInstances appId, .getAppPolicy appId, .setAppInstances appId newInstances])

/-- `scalingEngine.RemoveActiveSchedule`. -/
def RemoveActiveSchedule (c : Collaborators) (store : ScheduleStore) (appId : String)
    (scheduleId : String) : DecisionRun (Option GoError) :=
  match dbGetActiveSchedule c store appId with
  | .error err =>
    { result := .returned (some err), store := store,
      trace := [.lock appId, .getActiveSchedule appId, .unlock appId] }
  | .ok currentSchedule =>
    if currentSchedule.all (fun cur => decide (cur.ScheduleId ≠ scheduleId)) then
      { result := .returned (some .activeScheduleNotFound), store := store,
        trace := [.lock appId, .getActiveSchedule appId, .unlock appId] }
    else
      match dbRemoveActiveSchedule c store appId with
      | (some err, store1) =>
        { result := .returned (some err), store := store1,
          trace := [.lock appId, .getActiveSchedule appId, .removeActiveSchedule appId,
            .unlock appId] }
      | (none, store1) =>
        let now := c.now
        let history : AppScalingHistory :=
          { AppId := appId, Timestamp := now, ScalingType := .schedule, OldInstances := -1,
            NewInstances := -1, Reason := "schedule ends", Status := none,
            Error := "", Message := "" }
        let body := removeActiveScheduleBody c appId history
        { result := .returned body.2.1
          store := store1
          trace := [.lock appId, .getActiveSchedule appId, .removeActiveSchedule appId,
              .clockNow] ++ body.2.2 ++ [.saveScalingHistory body.1, .unlock appId] }

/-! ## Specification-side notions and sample inputs -/

/-- The effective bounds of a dynamic decision as the specification words
them: those of the active schedule when one is stored for the application,
those of the policy otherwise. -/
def effectiveBounds (c : Collaborators) (store : ScheduleStore) (appId : String) :
    Option (Int × Int) :=
  match store appId with
  | some schedule => some (schedule.InstanceMin, schedule.InstanceMax)
  | none =>
    match c.getAppPolicy appId with
    | .ok (some policy) => some (policy.InstanceMin, policy.InstanceMax)
    | _ => none

/-- Collaborators that never fail: the platform reports `instances`, the
cooldown check answers `canScale`, the policy store holds `policy`. -/
def fixedCollaborators (instances : Int) (canScale : Bool) (policy : Option ScalingPolicy) :
    Collaborators where
  getAppInstances := fun _ => .ok instances
  setAppInstances := fun _ _ => none
  getAppPolicy := fun _ => .ok policy
  canScaleApp := fun _ => .ok canScale
  updateScalingCooldownExpireTime := fun _ _ => none
  saveScalingHistory := fun _ => none
  getActiveScheduleErr := fun _ => none
  setActiveScheduleErr := fun _ _ => none
  removeActiveScheduleErr := fun _ => none
  now := 1000

/-- Collaborators whose platform client and policy store fail on every call,
while the scaling-engine database works. -/
def failingPlatform : Collaborators where
  getAppInstances := fun _ => .error (.collaborator "platform unavailable")
  setAppInstances := fun _ _ => some (.collaborator "platform unavailable")
  getAppPolicy := fun _ => .error (.collaborator "policy store unavailable")
  canScaleApp := fun _ => .ok true
  updateScalingCooldownExpireTime := fun _ _ => none
  saveScalingHistory := fun _ => none
  getActiveScheduleErr := fun _ => none
  setActiveScheduleErr := fun _ _ => none
  removeActiveScheduleErr := fun _ => none
  now := 1000

/-- The table with no active schedule at all. -/
def emptyStore : ScheduleStore := fun _ => none

/-- The table holding `schedule` for application `"app"` and nothing else. -/
def singleStore (schedule : ActiveSchedule) : ScheduleStore :=
  fun a => if a = "app" then some schedule else none

/-- A dynamic trigger of application `"app"` with the given adjustment. -/
def sampleTrigger (adjustment : String) : Trigger :=
  { AppId := "app", MetricType := "memoryused", Operator := ">", Threshold := 80,
    BreachDurationSeconds := 60, Adjustment := adjustment, cooldown := 300000000000 }

/-- Value of a string of decimal digits, most significant digit first. -/
def digitsValue (ds : List Char) : Nat := ds.foldl (fun n c => n * 10 + digitVal c) 0

/-- The integer a decimal signed integer literal denotes, as the
specification words it: an optional `+` or `-`, then one or more decimal
digits. `none` for any other text. -/
def decimalSignedInt (s : List Char) : Option Int :=
  match s with
  | [] => none
  | c :: rest =>
    let digits := if c = '+' ∨ c = '-' then rest else s
    if digits ≠ [] ∧ digits.all isDigit = true then
      some (if c = '-' then -(digitsValue digits : Int) else (digitsValue digits : Int))
    else none

/-- The value lies in the 32-bit signed range. -/
def inInt32 (v : Int) : Prop := -2147483648 ≤ v ∧ v ≤ 2147483647

instance (v : Int) : Decidable (inInt32 v) := by unfold inInt32; exact inferInstance

/-- The percentage result as the specification words it: the exact product
`current * (1 + p/100)` rounded half up, `floor(x + 0.5)`. -/
def exactPercentResult (current : Int) (p : ℚ) : Int :=
  Int.floor ((current : ℚ) * (1 + p / 100) + 1 / 2)

/-- The text without its underscores. -/
def removeUnderscores (s : List Char) : List Char := s.filter (fun c => decide (c ≠ '_'))

/-- A digit of a literal: a decimal digit, in a hexadecimal literal also one of
the letters `a`..`f`, `A`..`F`. -/
def isLiteralDigit (hex : Bool) (c : Char) : Bool := isDigit c || (hex && isHexLetter c)

/-- Value of a digit of a literal. -/
def literalDigitVal (c : Char) : Nat := if isDigit c then digitVal c else hexLetterVal c

/-- Value of a string of digits in the given base, most significant first. -/
def numeral (base : Nat) (ds : List Char) : Nat :=
  ds.foldl (fun n c => n * base + literalDigitVal c) 0

/-- Underscores as the Go specification allows them in a number: "an
underscore may appear after a base prefix or between successive digits".
`afterDigit` says whether the text follows a digit or the base prefix. -/
def underscoresSeparateDigits (hex : Bool) : Bool → List Char → Bool
  | _, [] => true
  | afterDigit, c :: rest =>
    if c = '_' then
      afterDigit
        && (match rest with
            | d :: _ => isLiteralDigit hex d
            | [] => false)
        && underscoresSeparateDigits hex false rest
    else underscoresSeparateDigits hex (isLiteralDigit hex c) rest

/-- The digits a number without sign, base prefix and underscores starts
with: its integer part. -/
def integerPart (hex : Bool) (t : List Char) : List Char := t.takeWhile (isLiteralDigit hex)

/-- The digits after the point, when a point follows the integer part. -/
def fractionPart (hex : Bool) (t : List Char) : List Char :=
  match t.dropWhile (isLiteralDigit hex) with
  | [] => []
  | c :: rest => if c = '.' then rest.takeWhile (isLiteralDigit hex) else []

/-- What follows the integer part and, if there is a point, the point and the
digits after it. -/
def exponentPart (hex : Bool) (t : List Char) : List Char :=
  match t.dropWhile (isLiteralDigit hex) with
  | [] => []
  | c :: rest => if c = '.' then rest.dropWhile (isLiteralDigit hex) else c :: rest

/-- A well-formed exponent part: an exponent letter, an optional sign and one
or more decimal digits. A decimal number may come without exponent part, a
hexadecimal one has it. -/
def isExponentPart (hex : Bool) (t : List Char) : Bool :=
  match t with
  | [] => !hex
  | c :: ds => isExpChar hex c && decide (dropSign ds ≠ []) && (dropSign ds).all isDigit

/-- A number without sign, base prefix and underscores, as the Go
specification words a floating-point literal (an integer is admitted as
well): digits with an optional point, at least one digit in all, then the
exponent part, and nothing else. -/
def isPlainNumber (hex : Bool) (t : List Char) : Bool :=
  decide (integerPart hex t ++ fractionPart hex t ≠ []) && isExponentPart hex (exponentPart hex t)

/-- A floating-point literal in Go syntax with an optional sign: decimal, or
hexadecimal after the prefix `0x`; underscores only after the base prefix or
between successive digits. -/
def isFloatLiteral (s : List Char) : Bool :=
  if hasHexPrefix (dropSign s) then
    underscoresSeparateDigits true true ((dropSign s).drop 2)
      && isPlainNumber true (removeUnderscores ((dropSign s).drop 2))
  else
    underscoresSeparateDigits false false (dropSign s)
      && isPlainNumber false (removeUnderscores (dropSign s))

/-- The exponent an exponent part denotes (0 when there is none). -/
def exponentValue (t : List Char) : Int :=
  match t with
  | [] => 0
  | _ :: ds =>
    if ds.head? = some '-' then -(numeral 10 (dropSign ds) : Int)
    else (numeral 10 (dropSign ds) : Int)

/-- The digits `n` of a mantissa, of which `places` stand after the point,
scaled by the exponent `e`: `n * 10 ^ (e - places)`, for a hexadecimal mantissa
`n * 2 ^ (e - 4 * places)`. -/
def scaledDigits (hex : Bool) (n : Nat) (places : Nat) (e : Int) : ℚ :=
  if hex then (n : ℚ) * pow2 (e - 4 * places) else (n : ℚ) * pow10 (e - places)

/-- The magnitude a number without sign, base prefix and underscores denotes:
its digits read in base 10 (16), scaled by ten (two) to the exponent, the
digits after the point counting one (four) places each. -/
def plainValue (hex : Bool) (t : List Char) : ℚ :=
  scaledDigits hex (numeral (if hex then 16 else 10) (integerPart hex t ++ fractionPart hex t))
    (fractionPart hex t).length (exponentValue (exponentPart hex t))

/-- How the exponent loop of `readFloat` reads an exponent `denoted`: as it is,
or, once the accumulator has reached 10000, as some exponent of the same sign
that is at least 10000 in magnitude and no larger than the denoted one. -/
def readsExponentAs (denoted read : Int) : Prop :=
  read = denoted ∨ (10000 ≤ read ∧ read ≤ denoted) ∨ (read ≤ -10000 ∧ denoted ≤ read)

/-- Whether a literal is hexadecimal. -/
def literalHex (s : List Char) : Bool := hasHexPrefix (dropSign s)

/-- The number of a literal: the text without sign, base prefix and
underscores. -/
def literalBody (s : List Char) : List Char :=
  if literalHex s then removeUnderscores ((dropSign s).drop 2)
  else removeUnderscores (dropSign s)

/-- The magnitude a floating-point literal denotes; underscores do not change
the value. -/
def literalMagnitude (s : List Char) : ℚ := plainValue (literalHex s) (literalBody s)

/-- The value a floating-point literal denotes. -/
def literalValue (s : List Char) : ℚ :=
  if s.head? = some '-' then -(literalMagnitude s) else literalMagnitude s

/-- The percentage arithmetic as the code evaluates it on the number `p` the
text denotes: `p` rounded to `float32`, then
`float64(current) * (1 + p/100) + 0.5` with every operation rounded to
`float64`. -/
def percentFloatValue (current : Int) (p : ℚ) : ℚ :=
  roundFloat64 (roundFloat64 (roundFloat64 (current : ℚ)
    * roundFloat64 (1 + roundFloat64 (roundFloat32 p / 100))) + 1 / 2)

/-- Bound on the rounding error that `percentFloatValue` accumulates: the
relative error `2^-24` of rounding `p` to `float32`, scaled by `current / 100`,
and the five `float64` roundings. -/
def percentMargin (current : Int) (p : ℚ) : ℚ :=
  (current : ℚ) * |p| / 100 / 2 ^ 24 + ((current : ℚ) + 1) * (|p| / 100 + 1) / 2 ^ 50

/-- The spellings `strconv` reads as an infinity or as NaN, as a yes/no
answer on the text: `inf`, `infinity` (optionally signed) or `nan`, in any
letter case. -/
def isSpecialSpelling (s : List Char) : Bool :=
  decide (s.map lowerAscii ∈
    [['i', 'n', 'f'], ['+', 'i', 'n', 'f'], ['-', 'i', 'n', 'f'],
     ['i', 'n', 'f', 'i', 'n', 'i', 't', 'y'], ['+', 'i', 'n', 'f', 'i', 'n', 'i', 't', 'y'],
     ['-', 'i', 'n', 'f', 'i', 'n', 'i', 't', 'y'], ['n', 'a', 'n']])

/-- The finite values of the IEEE-754 `binary32` format (Go `float32`):
`m * 2^e` with a 24-bit significand `m` and `-149 ≤ e ≤ 104`. -/
def isFloat32Value (x : ℚ) : Prop :=
  ∃ m e : Int, |m| < 2 ^ 24 ∧ -149 ≤ e ∧ e ≤ 104 ∧ x = (m : ℚ) * (2 : ℚ) ^ e

/-- The finite values of the IEEE-754 `binary64` format (Go `float64`):
`m * 2^e` with a 53-bit significand `m` and `-1074 ≤ e ≤ 971`. -/
def isFloat64Value (x : ℚ) : Prop :=
  ∃ m e : Int, |m| < 2 ^ 53 ∧ -1074 ≤ e ∧ e ≤ 971 ∧ x = (m : ℚ) * (2 : ℚ) ^ e

/-- The clamp of a count to `[lo, hi]` as the specification words it: `lo` when
the count is below `lo`, else `hi` when it is above `hi`, else the count. -/
def clampCount (lo hi n : Int) : Int :=
  if n < lo then lo else if n > hi then hi else n

/-- The message the specification attaches to a clamp to `[lo, hi]`: it names
the bound that limited the count, and is empty when none did. -/
def clampMessage (lo hi n : Int) : String :=
  if n < lo then "limited by min instances " ++ toString lo
  else if n > hi then "limited by max instances " ++ toString hi
  else ""

/-- The history record `Scale` starts from. -/
def dynamicHistory (c : Collaborators) (appId : String) (trigger : Trigger) : AppScalingHistory :=
  { AppId := appId, Timestamp := c.now, ScalingType := .dynamic, OldInstances := -1,
    NewInstances := -1, Reason := getDynamicScalingReason trigger, Status := none,
    Error := "", Message := "" }

/-- The calls of `Scale` up to and including the fetch of the bounds: the
policy store is asked only when no schedule is stored. -/
def boundsFetches (store : ScheduleStore) (appId : String) : List Call :=
  [.lock appId, .clockNow, .getAppInstances appId, .canScaleApp appId, .getActiveSchedule appId]
    ++ (if (store appId).isSome then [] else [.getAppPolicy appId])

/-- The cooldown expiry times written by a run, in order. -/
def cooldownUpdates (trace : List Call) : List Int :=
  trace.filterMap fun call =>
    match call with
    | .updateScalingCooldownExpireTime _ t => some t
    | _ => none

/-- The history record `SetActiveSchedule` starts from. -/
def scheduleStartHistory (c : Collaborators) (appId : String) (schedule : ActiveSchedule) :
    AppScalingHistory :=
  { AppId := appId, Timestamp := c.now, ScalingType := .schedule, OldInstances := -1,
    NewInstances := -1, Reason := getScheduledScalingReason schedule, Status := none,
    Error := "", Message := "" }

/-- The history record `RemoveActiveSchedule` starts from. -/
def scheduleEndHistory (c : Collaborators) (appId : String) : AppScalingHistory :=
  { AppId := appId, Timestamp := c.now, ScalingType := .schedule, OldInstances := -1,
    NewInstances := -1, Reason := "schedule ends", Status := none, Error := "", Message := "" }

/-- The floor a starting schedule applies: the larger of its initial minimum
and its minimum. -/
def scheduleStartMin (schedule : ActiveSchedule) : Int :=
  max schedule.InstanceMinInitial schedule.InstanceMin

/-- The message `SetActiveSchedule` records at its clamp step; both variants
embed the floor `scheduleStartMin`. -/
def scheduleStartMessage (schedule : ActiveSchedule) (current : Int) : String :=
  if current < scheduleStartMin schedule then
    "limited by min instances " ++ toString (scheduleStartMin schedule)
  else if current > schedule.InstanceMax then
    "limited by max instances " ++ toString (scheduleStartMin schedule)
  else ""

/-- The table after `schedule` has been stored for `appId`. -/
def storeWith (store : ScheduleStore) (appId : String) (schedule : ActiveSchedule) :
    ScheduleStore :=
  fun a => if a = appId then some schedule else store a

/-- The table after the schedule of `appId` has been removed. -/
def storeWithout (store : ScheduleStore) (appId : String) : ScheduleStore :=
  fun a => if a = appId then none else store a

/-- The six steps of `Scale` that can hand back an error. -/
inductive ScaleStep where
  | getInstances
  | checkCooldown
  | computeNewInstances
  | getActiveSchedule
  | getPolicy
  | setInstances
deriving DecidableEq, Repr

/-- The error text the history entry carries for a failing step. -/
def ScaleStep.message : ScaleStep → String
  | .getInstances => "failed to get app instances"
  | .checkCooldown => "failed to check app cooldown setting"
  | .computeNewInstances => "failed to compute new app instances"
  | .getActiveSchedule => "failed to get active schedule"
  | .getPolicy => "failed to get scaling policy"
  | .setInstances => "failed to set app instances"

/-- The step `step` of `Scale` is executed and returns the error `err`: every
earlier step succeeded with the outcome that leads on to `step`. -/
def stepFails (c : Collaborators) (store : ScheduleStore) (appId : String) (trigger : Trigger)
    (step : ScaleStep) (err : GoError) : Prop :=
  match step with
  | .getInstances => c.getAppInstances appId = .error err
  | .checkCooldown =>
    ∃ current, c.getAppInstances appId = .ok current ∧ c.canScaleApp appId = .error err
  | .computeNewInstances =>
    ∃ current n, c.getAppInstances appId = .ok current ∧ c.canScaleApp appId = .ok true
      ∧ ComputeNewInstances current trigger.Adjustment = (n, some err)
  | .getActiveSchedule =>
    ∃ current proposed, c.getAppInstances appId = .ok current ∧ c.canScaleApp appId = .ok true
      ∧ ComputeNewInstances current trigger.Adjustment = (proposed, none)
      ∧ c.getActiveScheduleErr appId = some err
  | .getPolicy =>
    ∃ current proposed, c.getAppInstances appId = .ok current ∧ c.canScaleApp appId = .ok true
      ∧ ComputeNewInstances current trigger.Adjustment = (proposed, none)
      ∧ c.getActiveScheduleErr appId = none ∧ store appId = none
      ∧ c.getAppPolicy appId = .error err
  | .setInstances =>
    ∃ current proposed lo hi, c.getAppInstances appId = .ok current
      ∧ c.canScaleApp appId = .ok true
      ∧ ComputeNewInstances current trigger.Adjustment = (proposed, none)
      ∧ c.getActiveScheduleErr appId = none
      ∧ effectiveBounds c store appId = some (lo, hi)
      ∧ clampCount lo hi proposed ≠ current
      ∧ c.setAppInstances appId (clampCount lo hi proposed) = some err

/-! ## Event-generator configuration (`eventgenerator/config/config.go`) -/

/-- `LoggingConfig`. -/
structure LoggingConfig where
  Level : String

/-- `DBConfig`. -/
structure DBConfig where
  PolicyDBUrl : String
  AppMetricDBUrl : String

/-- `AggregatorConfig`; a `time.Duration` is its count of nanoseconds. -/
structure AggregatorConfig where
  MetricPollerCount : Int
  AppMonitorChannelSize : Int
  AggregatorExecuteInterval : Int
  PolicyPollerInterval : Int

/-- `EvaluatorConfig`. -/
structure EvaluatorConfig where
  EvaluatorCount : Int
  TriggerArrayChannelSize : Int
  EvaluationManagerInterval : Int

/-- `ScalingEngineConfig`; the type `models.TLSCerts` is declared outside the
two source files and is taken as the parameter `TLSCerts`. -/
structure ScalingEngineConfig (TLSCerts : Type) where
  ScalingEngineUrl : String
  TLSClientCerts : TLSCerts

/-- `MetricCollectorConfig`. -/
structure MetricCollectorConfig (TLSCerts : Type) where
  MetricCollectorUrl : String
  TLSClientCerts : TLSCerts

/-- `LockConfig`. -/
structure LockConfig where
  LockTTL : Int
  LockRetryInterval : Int
  ConsulClusterConfig : String

/-- `Config`. -/
structure Config (TLSCerts : Type) where
  Logging : LoggingConfig
  DB : DBConfig
  Aggregator : AggregatorConfig
  Evaluator : EvaluatorConfig
  ScalingEngine : ScalingEngineConfig TLSCerts
  MetricCollector : MetricCollectorConfig TLSCerts
  Lock : LockConfig

/-- `Config.Validate`, a method on `*Config`: yields the configuration as the
call leaves it and the returned error, `none` for nil and otherwise the text
given to `fmt.Errorf` (no text holds a formatting verb). -/
def Config.Validate {TLSCerts : Type} (c : Config TLSCerts) : Config TLSCerts × Option String :=
  if c.DB.PolicyDBUrl = "" then
    (c, some "Configuration error: Policy DB url is empty")
  else if c.DB.AppMetricDBUrl = "" then
    (c, some "Configuration error: AppMetric DB url is empty")
  else if c.ScalingEngine.ScalingEngineUrl = "" then
    (c, some "Configuration error: Scaling engine url is empty")
  else if c.MetricCollector.MetricCollectorUrl = "" then
    (c, some "Configuration error: Metric collector url is empty")
  else if c.Lock.ConsulClusterConfig = "" then
    (c, some "Configuration error: Consul Cluster Config is empty")
  else if c.Aggregator.AggregatorExecuteInterval ≤ 0 then
    (c, some "Configuration error: aggregator execute interval is less-equal than 0")
  else if c.Aggregator.PolicyPollerInterval ≤ 0 then
    (c, some "Configuration error: policy poller interval is less-equal than 0")
  else if c.Aggregator.MetricPollerCount ≤ 0 then
    (c, some "Configuration error: metric poller count is less-equal than 0")
  else if c.Aggregator.AppMonitorChannelSize ≤ 0 then
    (c, some "Configuration error: appMonitor channel size is less-equal than 0")
  else if c.Evaluator.EvaluationManagerInterval ≤ 0 then
    (c, some "Configuration error: evalution manager execeute interval is less-equal than 0")
  else if c.Evaluator.EvaluatorCount ≤ 0 then
    (c, some "Configuration error: evaluator count is less-equal than 0")
  else if c.Evaluator.TriggerArrayChannelSize ≤ 0 then
    (c, some "Configuration error: trigger-array channel size is less-equal than 0")
  else if c.Lock.LockRetryInterval ≤ 0 then
    (c, some "Configuration error: lock retry interval is less than or equal to 0")
  else if c.Lock.LockTTL ≤ 0 then
    (c, some "Configuration error: lock ttl is less than or equal to 0")
  else (c, none)

/-- The fourteen checks in the order the specification lists them, five
strings then nine numbers: whether the setting violates its check, and the
error that check returns. -/
def orderedChecks {TLSCerts : Type} (c : Config TLSCerts) : List (Bool × String) :=
  [(decide (c.DB.PolicyDBUrl = ""), "Configuration error: Policy DB url is empty"),
   (decide (c.DB.AppMetricDBUrl = ""), "Configuration error: AppMetric DB url is empty"),
   (decide (c.ScalingEngine.ScalingEngineUrl = ""),
     "Configuration error: Scaling engine url is empty"),
   (decide (c.MetricCollector.MetricCollectorUrl = ""),
     "Configuration error: Metric collector url is empty"),
   (decide (c.Lock.ConsulClusterConfig = ""),
     "Configuration error: Consul Cluster Config is empty"),
   (decide (¬ c.Aggregator.AggregatorExecuteInterval > 0),
     "Configuration error: aggregator execute interval is less-equal than 0"),
   (decide (¬ c.Aggregator.PolicyPollerInterval > 0),
     "Configuration error: policy poller interval is less-equal than 0"),
   (decide (¬ c.Aggregator.MetricPollerCount > 0),
     "Configuration error: metric poller count is less-equal than 0"),
   (decide (¬ c.Aggregator.AppMonitorChannelSize > 0),
     "Configuration error: appMonitor channel size is less-equal than 0"),
   (decide (¬ c.Evaluator.EvaluationManagerInterval > 0),
     "Configuration error: evalution manager execeute interval is less-equal than 0"),
   (decide (¬ c.Evaluator.EvaluatorCount > 0),
     "Configuration error: evaluator count is less-equal than 0"),
   (decide (¬ c.Evaluator.TriggerArrayChannelSize > 0),
     "Configuration error: trigger-array channel size is less-equal than 0"),
   (decide (¬ c.Lock.LockRetryInterval > 0),
     "Configuration error: lock retry interval is less than or equal to 0"),
   (decide (¬ c.Lock.LockTTL > 0),
     "Configuration error: lock ttl is less than or equal to 0")]

/-- The error of the first violated check of a list, if any check is violated. -/
def firstViolated (checks : List (Bool × String)) : Option String :=
  match checks with
  | [] => none
  | (violated, err) :: rest => if violated then some err else firstViolated rest

/-- A configuration that passes every check: the defaults of `LoadConfig` for
the aggregator and the evaluator (40 s, 20 and 200), positive lock times, and
the five strings set. -/
def sampleConfig : Config Unit where
  Logging := { Level := "info" }
  DB := { PolicyDBUrl := "postgres://policy", AppMetricDBUrl := "postgres://metrics" }
  Aggregator :=
    { MetricPollerCount := 20, AppMonitorChannelSize := 200,
      AggregatorExecuteInterval := 40000000000, PolicyPollerInterval := 40000000000 }
  Evaluator :=
    { EvaluatorCount := 20, TriggerArrayChannelSize := 200,
      EvaluationManagerInterval := 40000000000 }
  ScalingEngine := { ScalingEngineUrl := "https://engine", TLSClientCerts := () }
  MetricCollector := { MetricCollectorUrl := "https://collector", TLSClientCerts := () }
  Lock :=
    { LockTTL := 15000000000, LockRetryInterval := 5000000000,
      ConsulClusterConfig := "http://consul" }

/-- The sample configuration with two settings spoiled: the metric collector
url is empty and the evaluator count is 0. -/
def spoiledConfig : Config Unit :=
  { sampleConfig with
    MetricCollector := { MetricCollectorUrl := "", TLSClientCerts := () }
    Evaluator :=
      { EvaluatorCount := 0, TriggerArrayChannelSize := 200,
        EvaluationManagerInterval := 40000000000 } }

/-! ## Concurrent invocations on one stripe -/

/-- Whether the call takes or releases a stripe lock. -/
def isLocking (call : Call) : Bool :=
  match call with
  | .lock _ => true
  | .unlock _ => true
  | _ => false

/-- Modelled from the spec: `StripedLock` (`NewStripedLock`, `GetLock`) and the
mutex it hands out are declared outside the sources at hand. The specification
(4.1) gives each key one mutex: two calls with the same key serialize, there is
no timeout and waiters block, and the guard is released by the caller that
acquired it. An event is a call tagged with the invocation that makes it
(`false` or `true`); `holder` is the invocation holding the mutex of `appId`, if
any. The step yields the holder after the event, or `none` when the mutex does
not let the event happen at this point: a lock while the mutex is held, or an
unlock by an invocation that does not hold it. -/
def mutexStep (appId : String) (holder : Option Bool) (event : Bool × Call) :
    Option (Option Bool) :=
  match event.2 with
  | .lock a =>
    if a = appId then (if holder = none then some (some event.1) else none) else some holder
  | .unlock a =>
    if a = appId then (if holder = some event.1 then some none else none) else some holder
  | _ => some holder

/-- Whether a schedule, the calls of two concurrent invocations in the order in
which they happen, respects the mutex of `appId` from the given holder on. -/
def mutexAllows (appId : String) : Option Bool → List (Bool × Call) → Bool
  | _, [] => true
  | holder, event :: rest =>
    match mutexStep appId holder event with
    | none => false
    | some next => mutexAllows appId next rest

/-- The calls one invocation makes in a schedule, in order. -/
def callsOf (who : Bool) (schedule : List (Bool × Call)) : List Call :=
  schedule.filterMap fun event => if event.1 = who then some event.2 else none

/-- The trace of one invocation as a schedule of its own. -/
def tagged (who : Bool) (trace : List Call) : List (Bool × Call) :=
  trace.map fun call => (who, call)

/-- An invocation of one of the three entry points, with its payload. -/
inductive Decision where
  | scale (trigger : Trigger)
  | setActiveSchedule (schedule : ActiveSchedule)
  | removeActiveSchedule (scheduleId : String)

/-- The calls an invocation makes, given what the collaborators answer during
it and the active-schedule table it finds. -/
def Decision.trace (decision : Decision) (c : Collaborators) (store : ScheduleStore)
    (appId : String) : List Call :=
  match decision with
  | .scale trigger => (Scale c store appId trigger).trace
  | .setActiveSchedule schedule => (SetActiveSchedule c store appId schedule).trace
  | .removeActiveSchedule scheduleId => (RemoveActiveSchedule c store appId scheduleId).trace

/-! # Theorems -/

/-! ## History writes of `Scale` -/

theorem savedHistories_append (xs ys : List Call) :
    savedHistories (xs ++ ys) = savedHistories xs ++ savedHistories ys := by
  simp [savedHistories, List.filterMap_append]

theorem scaleApply_saved (c : Collaborators) (appId : String) (trigger : Trigger) (now : Int)
    (history : AppScalingHistory) (instances newInstances lo hi : Int) (calls : List Call) :
    savedHistories (scaleApply c appId trigger now history instances newInstances lo hi calls).2.2
      = savedHistories calls := by
  unfold scaleApply
  dsimp only
  split_ifs <;> (try split) <;> simp [savedHistories, List.filterMap_append]

theorem scaleBody_saved (c : Collaborators) (store : ScheduleStore) (appId : String)
    (trigger : Trigger) (now : Int) (history : AppScalingHistory) :
    savedHistories (scaleBody c store appId trigger now history).2.2 = [] := by
  unfold scaleBody
  repeat' split
  all_goals first
    | (rw [scaleApply_saved]; simp [savedHistories])
    | simp [savedHistories]

/-- The one history entry `Scale` writes is the record its body leaves behind. -/
theorem Scale_saved (c : Collaborators) (store : ScheduleStore) (appId : String)
    (trigger : Trigger) :
    savedHistories (Scale c store appId trigger).trace
      = [(scaleBody c store appId trigger c.now
          { AppId := appId, Timestamp := c.now, ScalingType := .dynamic, OldInstances := -1,
            NewInstances := -1, Reason := getDynamicScalingReason trigger, Status := none,
            Error := "", Message := "" }).1] := by
  unfold Scale
  simp only [savedHistories_append, scaleBody_saved]
  simp [savedHistories]

/-! ## C1: a succeeded `Scale` and the effective bounds -/

theorem scaleApply_succeeded (c : Collaborators) (appId : String) (trigger : Trigger) (now : Int)
    (history : AppScalingHistory) (instances newInstances lo hi : Int) (calls : List Call)
    (n : Int) (e : Option GoError)
    (hret : (scaleApply c appId trigger now history instances newInstances lo hi calls).2.1
      = .returned (n, e))
    (hst : (scaleApply c appId trigger now history instances newInstances lo hi calls).1.Status
      = some .succeeded) :
    (lo ≤ hi → lo ≤ n ∧ n ≤ hi) ∧ n ≠ instances ∧ e = none
      ∧ (scaleApply c appId trigger now history instances newInstances lo hi calls).1.NewInstances = n
      ∧ (scaleApply c appId trigger now history instances newInstances lo hi calls).1.OldInstances
          = history.OldInstances := by
  revert hret hst
  unfold scaleApply
  dsimp only
  split_ifs with h1 h2 h3 h4 h5 <;> (try split) <;> intro hret hst <;> simp_all

/-- C1 as stated fails: with an active schedule whose bounds are out of order
(`instanceMin = 5`, `instanceMax = 3`), one running instance and adjustment
`"+1"`, `Scale` records `succeeded` and returns 5, which is above the effective
maximum 3. -/
theorem Scale_bounds_counterexample :
    ∃ h, (Scale (fixedCollaborators 1 true none) (singleStore ⟨"s", 5, 3, 0⟩) "app"
          (sampleTrigger "+1")).result = .returned (5, none)
      ∧ savedHistories (Scale (fixedCollaborators 1 true none) (singleStore ⟨"s", 5, 3, 0⟩) "app"
          (sampleTrigger "+1")).trace = [h]
      ∧ h.Status = some .succeeded
      ∧ effectiveBounds (fixedCollaborators 1 true none) (singleStore ⟨"s", 5, 3, 0⟩) "app"
          = some (5, 3)
      ∧ ¬ ((5 : Int) ≤ 5 ∧ (5 : Int) ≤ 3) :=
  ⟨_, rfl, rfl, rfl, rfl, by decide⟩

/-- C1 (amended): if `Scale` returns `n` and the history entry it wrote has
status succeeded, then the effective bounds `[lo, hi]` exist (the stored
schedule's, else the policy's), `oldInstances` is the count the platform
reported, `n` differs from it, and `lo ≤ n ≤ hi` provided the bounds are in
order (`lo ≤ hi`). -/
theorem Scale_succeeded_within_bounds (c : Collaborators) (store : ScheduleStore)
    (appId : String) (trigger : Trigger) (n : Int) (e : Option GoError) (h : AppScalingHistory)
    (hret : (Scale c store appId trigger).result = .returned (n, e))
    (hsaved : h ∈ savedHistories (Scale c store appId trigger).trace)
    (hstatus : h.Status = some .succeeded) :
    ∃ lo hi old, effectiveBounds c store appId = some (lo, hi)
      ∧ c.getAppInstances appId = .ok old ∧ h.OldInstances = old ∧ h.NewInstances = n
      ∧ (lo ≤ hi → lo ≤ n ∧ n ≤ hi) ∧ n ≠ old := by
  rw [Scale_saved, List.mem_singleton] at hsaved
  subst hsaved
  revert hret hstatus
  unfold Scale
  dsimp only
  unfold scaleBody effectiveBounds dbGetActiveSchedule
  cases hgi : c.getAppInstances appId with
  | error err => simp
  | ok instances =>
    dsimp only
    cases hcs : c.canScaleApp appId with
    | error err => simp
    | ok ok =>
      cases ok with
      | false => simp
      | true =>
        dsimp only
        generalize hcn : ComputeNewInstances instances trigger.Adjustment = r
        rcases r with ⟨k, _ | err⟩
        · dsimp only
          cases hge : c.getActiveScheduleErr appId with
          | some err => simp
          | none =>
            dsimp only
            cases hst : store appId with
            | some schedule =>
              dsimp only
              intro hret hstatus
              have := scaleApply_succeeded _ _ _ _ _ _ _ _ _ _ _ _ hret hstatus
              refine ⟨_, _, _, rfl, rfl, ?_, this.2.2.2.1, this.1, this.2.1⟩
              rw [this.2.2.2.2]
            | none =>
              dsimp only
              cases hgp : c.getAppPolicy appId with
              | error err => simp
              | ok policy =>
                cases policy with
                | none => simp
                | some policy =>
                  dsimp only
                  intro hret hstatus
                  have := scaleApply_succeeded _ _ _ _ _ _ _ _ _ _ _ _ hret hstatus
                  refine ⟨_, _, _, rfl, rfl, ?_, this.2.2.2.1, this.1, this.2.1⟩
                  rw [this.2.2.2.2]
        · simp

/-- C1 witness: four instances, adjustment `"+2"`, policy `[1, 10]`, no
schedule: `Scale` returns 6 with status succeeded, and the theorem applies. -/
theorem Scale_succeeded_within_bounds_witness :
    (Scale (fixedCollaborators 4 true (some ⟨1, 10⟩)) emptyStore "app"
        (sampleTrigger "+2")).result = .returned (6, none)
      ∧ ∃ lo hi old, effectiveBounds (fixedCollaborators 4 true (some ⟨1, 10⟩)) emptyStore "app"
            = some (lo, hi)
          ∧ (fixedCollaborators 4 true (some ⟨1, 10⟩)).getAppInstances "app" = .ok old
          ∧ (4 : Int) = old ∧ (6 : Int) = 6 ∧ (lo ≤ hi → lo ≤ 6 ∧ 6 ≤ hi) ∧ (6 : Int) ≠ old :=
  ⟨rfl, Scale_succeeded_within_bounds (fixedCollaborators 4 true (some ⟨1, 10⟩)) emptyStore "app"
    (sampleTrigger "+2") 6 none
    { AppId := "app", Timestamp := 1000, ScalingType := .dynamic, OldInstances := 4,
      NewInstances := 6, Reason := getDynamicScalingReason (sampleTrigger "+2"),
      Status := some .succeeded, Error := "", Message := "" }
    rfl (by rw [Scale_saved]; exact List.mem_singleton.mpr rfl) rfl⟩

/-! ## `ParseInt` against the decimal reading of a literal -/

theorem foldl_digits_ge (ds : List Char) (n : Nat) :
    n ≤ ds.foldl (fun n c => n * 10 + digitVal c) n := by
  induction ds generalizing n with
  | nil => simp
  | cons c cs ih =>
    simp only [List.foldl_cons]
    exact le_trans (by omega) (ih (n * 10 + digitVal c))

/-- The digit loop succeeds exactly on digit strings whose value, continued
from the accumulator, still fits 32 bits; it then returns that value. -/
theorem parseUintLoop_ok_iff (ds : List Char) (n v : Nat) (hn : n ≤ 4294967295) :
    parseUintLoop ds n = .ok v ↔
      ds.all isDigit = true ∧ ds.foldl (fun n c => n * 10 + digitVal c) n = v
        ∧ v ≤ 4294967295 := by
  induction ds generalizing n with
  | nil =>
    simp only [parseUintLoop, List.all_nil, List.foldl_nil, true_and]
    constructor
    · intro h
      cases h
      exact ⟨rfl, hn⟩
    · rintro ⟨rfl, _⟩
      rfl
  | cons c cs ih =>
    simp only [parseUintLoop, List.all_cons, List.foldl_cons, Bool.and_eq_true]
    by_cases hc : isDigit c = true
    · simp only [hc, if_true, true_and]
      have hcut : ¬ n ≥ 1844674407370955162 := by omega
      simp only [hcut, if_false]
      by_cases hbig : n * 10 + digitVal c > 4294967295
      · simp only [hbig, if_true]
        constructor
        · intro h
          cases h
        · rintro ⟨_, hv, hle⟩
          have := foldl_digits_ge cs (n * 10 + digitVal c)
          omega
      · simp only [hbig, if_false]
        exact ih (n * 10 + digitVal c) (by omega)
    · simp [hc]

theorem ParseUint_ok_iff (ds : List Char) (v : Nat) :
    ParseUint ds = .ok v ↔
      ds ≠ [] ∧ ds.all isDigit = true ∧ digitsValue ds = v ∧ v ≤ 4294967295 := by
  cases ds with
  | nil => simp [ParseUint]
  | cons c cs =>
    simp only [ParseUint, ne_eq, reduceCtorEq, not_false_eq_true, true_and, digitsValue]
    exact parseUintLoop_ok_iff (c :: cs) 0 v (by omega)

/-- `ParseInt` accepts exactly the decimal signed integer literals whose value
lies in the 32-bit signed range, and returns that value. -/
theorem ParseInt_ok_iff (s : List Char) (v : Int) :
    ParseInt s = .ok v ↔ decimalSignedInt s = some v ∧ inInt32 v := by
  cases s with
  | nil => simp [ParseInt, decimalSignedInt]
  | cons c rest =>
    unfold ParseInt decimalSignedInt inInt32
    dsimp only
    generalize hbody : (if c = '+' ∨ c = '-' then rest else c :: rest) = body
    cases hpu : ParseUint body with
    | error k =>
      have hno : ¬ (body ≠ [] ∧ body.all isDigit = true ∧ digitsValue body ≤ 4294967295) := by
        intro ⟨h1, h2, h3⟩
        have := (ParseUint_ok_iff body (digitsValue body)).mpr ⟨h1, h2, rfl, h3⟩
        rw [hpu] at this
        cases this
      cases k <;> dsimp only <;>
      · constructor
        · intro h
          cases h
        · rintro ⟨hdec, hlo, hhi⟩
          exfalso
          split_ifs at hdec with hd hneg
          · simp only [Option.some.injEq] at hdec
            exact hno ⟨hd.1, hd.2, by omega⟩
          · simp only [Option.some.injEq] at hdec
            exact hno ⟨hd.1, hd.2, by omega⟩
    | ok un =>
      obtain ⟨h1, h2, h3, h4⟩ := (ParseUint_ok_iff body un).mp hpu
      dsimp only
      have hd : body ≠ [] ∧ body.all isDigit = true := ⟨h1, h2⟩
      simp only [hd, and_self, if_true, h3, ne_eq, not_false_eq_true, decide_eq_true_eq,
        Option.some.injEq]
      by_cases hneg : c = '-'
      · simp only [hneg, not_true_eq_false, false_and, if_false, true_and, if_true]
        split_ifs with hbig
        · constructor
          · intro h
            cases h
          · rintro ⟨rfl, hlo, hhi⟩
            omega
        · constructor
          · intro h
            cases h
            exact ⟨rfl, by omega, by omega⟩
          · rintro ⟨rfl, _, _⟩
            rfl
      · simp only [hneg, not_false_eq_true, true_and, false_and, if_false]
        split_ifs with hbig
        · constructor
          · intro h
            cases h
          · rintro ⟨rfl, hlo, hhi⟩
            omega
        · constructor
          · intro h
            cases h
            exact ⟨rfl, by omega, by omega⟩
          · rintro ⟨rfl, _, _⟩
            rfl

/-! ## C2: step adjustments -/

theorem wrapInt64_of_isInt64 (x : Int) (h : isInt64 x) : wrapInt64 x = x := by
  unfold isInt64 minInt64 maxInt64 at h
  unfold wrapInt64
  omega

/-- C2 as stated fails: with the largest `int` as current count and adjustment
`"+1"` (a decimal signed integer in the 32-bit range, no `%`), the machine
addition wraps around and the result is the smallest `int`, not current + 1. -/
theorem ComputeNewInstances_step_counterexample :
    hasPercentSuffix "+1" = false
      ∧ decimalSignedInt "+1".data = some 1 ∧ inInt32 1
      ∧ isInt64 9223372036854775807
      ∧ ComputeNewInstances 9223372036854775807 "+1" = (-9223372036854775808, none)
      ∧ (-9223372036854775808 : Int) ≠ 9223372036854775807 + 1 := by
  decide

/-- C2 (amended): for an adjustment without `%` suffix that is a decimal signed
integer `s` in the 32-bit signed range, `ComputeNewInstances` returns no error
and the machine sum of `s` and the current count: that is `current + s` reduced
into the 64-bit `int` range, hence `current + s` itself whenever this sum is
representable. No bound other than the `int` range is applied. -/
theorem ComputeNewInstances_step (current : Int) (adjustment : String) (s : Int)
    (hsuffix : hasPercentSuffix adjustment = false)
    (hdecimal : decimalSignedInt adjustment.data = some s)
    (hrange : inInt32 s) :
    ComputeNewInstances current adjustment = (wrapInt64 (current + s), none)
      ∧ (isInt64 (current + s) → ComputeNewInstances current adjustment = (current + s, none)) := by
  have hparse : ParseInt adjustment.data = .ok s := (ParseInt_ok_iff _ _).mpr ⟨hdecimal, hrange⟩
  have hval : ComputeNewInstances current adjustment = (wrapInt64 (current + s), none) := by
    unfold ComputeNewInstances
    rw [hsuffix, hparse]
    simp [add_comm]
  exact ⟨hval, fun hfit => by rw [hval, wrapInt64_of_isInt64 _ hfit]⟩

/-- C2 witness: the two examples of the claim, `(3, "-5")` giving -2 and
`(4, "+2")` giving 6. -/
theorem ComputeNewInstances_step_witness :
    (ComputeNewInstances 3 "-5" = (wrapInt64 (3 + -5), none)
        ∧ (isInt64 (3 + -5) → ComputeNewInstances 3 "-5" = (3 + -5, none)))
      ∧ (ComputeNewInstances 4 "+2" = (wrapInt64 (4 + 2), none)
        ∧ (isInt64 (4 + 2) → ComputeNewInstances 4 "+2" = (4 + 2, none)))
      ∧ ComputeNewInstances 3 "-5" = (-2, none) ∧ ComputeNewInstances 4 "+2" = (6, none) :=
  ⟨ComputeNewInstances_step 3 "-5" (-5) (by decide) (by decide) (by decide),
    ComputeNewInstances_step 4 "+2" 2 (by decide) (by decide) (by decide),
    by decide, by decide⟩

/-! ## `underscoreOK` against the placement rule for underscores -/

theorem isLiteralDigit_iff (hex : Bool) (c : Char) :
    (isDigit c = true ∨ (hex = true ∧ isHexLetter c = true)) ↔ isLiteralDigit hex c = true := by
  unfold isLiteralDigit
  simp

theorem isLiteralDigit_underscore (hex : Bool) : isLiteralDigit hex '_' = false := by
  cases hex <;> decide

theorem underscoreLoop_eq (hex : Bool) (l : List Char) :
    ∀ saw : Saw, underscoreLoop hex l saw =
      if saw = .underscore then
        (match l with
          | d :: _ => isLiteralDigit hex d
          | [] => false) && underscoresSeparateDigits hex false l
      else underscoresSeparateDigits hex (decide (saw = .digit)) l := by
  induction l with
  | nil =>
    intro saw
    cases saw <;> simp [underscoreLoop, underscoresSeparateDigits]
  | cons c cs ih =>
    intro saw
    by_cases hd : isLiteralDigit hex c = true
    · have hc : c ≠ '_' := by
        rintro rfl
        rw [isLiteralDigit_underscore] at hd
        cases hd
      have hd2 := (isLiteralDigit_iff hex c).mpr hd
      rw [underscoreLoop, if_pos hd2, ih]
      cases saw <;> simp [underscoresSeparateDigits, hc, hd]
    · have hd2 : ¬ (isDigit c = true ∨ (hex = true ∧ isHexLetter c = true)) :=
        fun h => hd ((isLiteralDigit_iff hex c).mp h)
      rw [underscoreLoop, if_neg hd2]
      by_cases hc : c = '_'
      · subst hc
        rw [if_pos rfl, ih]
        cases saw <;> simp [underscoresSeparateDigits, hd]
      · rw [if_neg hc, ih]
        cases saw <;> simp [underscoresSeparateDigits, hc, hd]

theorem underscoresSeparateDigits_of_none (hex : Bool) (l : List Char) (h : '_' ∉ l) :
    ∀ afterDigit, underscoresSeparateDigits hex afterDigit l = true := by
  induction l with
  | nil =>
    intro afterDigit
    rfl
  | cons c cs ih =>
    intro afterDigit
    have hc : c ≠ '_' := fun e => h (by simp [e])
    have hcs : '_' ∉ cs := fun e => h (by simp [e])
    unfold underscoresSeparateDigits
    rw [if_neg hc]
    exact ih hcs _

/-! ## Underscores do not change what the scanner reads -/

theorem removeUnderscores_cons_of_ne (c : Char) (cs : List Char) (h : c ≠ '_') :
    removeUnderscores (c :: cs) = c :: removeUnderscores cs := by
  simp [removeUnderscores, h]

theorem removeUnderscores_cons_underscore (cs : List Char) :
    removeUnderscores ('_' :: cs) = removeUnderscores cs := by
  simp [removeUnderscores]

theorem readMantissa_removeUnderscores (hex : Bool) (s : List Char) :
    ∀ st : MantState, readMantissa hex (removeUnderscores s) st
      = ((readMantissa hex s st).1, removeUnderscores (readMantissa hex s st).2) := by
  induction s with
  | nil =>
    intro st
    rfl
  | cons c cs ih =>
    intro st
    by_cases hc : c = '_'
    · subst hc
      rw [removeUnderscores_cons_underscore, ih]
      simp [readMantissa]
    · rw [removeUnderscores_cons_of_ne c cs hc]
      rw [readMantissa, readMantissa]
      simp only [if_neg hc]
      split_ifs
      all_goals first
        | exact ih _
        | rw [removeUnderscores_cons_of_ne c cs hc]

theorem readMantissa_rest_head (hex : Bool) (s : List Char) :
    ∀ (st : MantState) (c : Char) (cs : List Char),
      (readMantissa hex s st).2 = c :: cs → c ≠ '_' := by
  induction s with
  | nil =>
    intro st c cs h
    simp [readMantissa] at h
  | cons d ds ih =>
    intro st c cs
    rw [readMantissa]
    split_ifs with h1
    all_goals first
      | exact ih _ c cs
      | (intro h
         have hcd : d = c := (List.cons.inj h).1
         subst hcd
         exact h1)

theorem readMantissa_suffix (hex : Bool) (s : List Char) :
    ∀ st : MantState, ∃ a, s = a ++ (readMantissa hex s st).2 := by
  induction s with
  | nil =>
    intro st
    exact ⟨[], rfl⟩
  | cons d ds ih =>
    intro st
    rw [readMantissa]
    split_ifs
    all_goals first
      | exact ⟨[], rfl⟩
      | exact Exists.elim (ih _) (fun a ha => ⟨d :: a, congrArg (List.cons d) ha⟩)

theorem underscoresSeparateDigits_suffix (hex : Bool) (a r : List Char) :
    ∀ afterDigit, underscoresSeparateDigits hex afterDigit (a ++ r) = true →
      ∃ after1, underscoresSeparateDigits hex after1 r = true := by
  induction a with
  | nil =>
    intro afterDigit h
    exact ⟨afterDigit, h⟩
  | cons c cs ih =>
    intro afterDigit h
    rw [List.cons_append] at h
    unfold underscoresSeparateDigits at h
    split_ifs at h with hc
    · simp only [Bool.and_eq_true] at h
      exact ih false h.2
    · exact ih _ h

theorem readExpDigits_removeUnderscores (l : List Char) :
    ∀ e : Nat, readExpDigits (removeUnderscores l) e
      = ((readExpDigits l e).1, removeUnderscores (readExpDigits l e).2) := by
  induction l with
  | nil =>
    intro e
    rfl
  | cons c cs ih =>
    intro e
    by_cases hc : c = '_'
    · subst hc
      rw [removeUnderscores_cons_underscore, ih]
      simp [readExpDigits]
    · rw [removeUnderscores_cons_of_ne c cs hc]
      rw [readExpDigits, readExpDigits]
      simp only [if_neg hc]
      split_ifs
      all_goals first
        | exact ih _
        | rw [removeUnderscores_cons_of_ne c cs hc]

theorem readExpDigits_rest_head (l : List Char) :
    ∀ (e : Nat) (c : Char) (cs : List Char), (readExpDigits l e).2 = c :: cs → c ≠ '_' := by
  induction l with
  | nil =>
    intro e c cs h
    simp [readExpDigits] at h
  | cons d ds ih =>
    intro e c cs
    rw [readExpDigits]
    split_ifs with h1
    all_goals first
      | exact ih _ c cs
      | (intro h
         have hcd : d = c := (List.cons.inj h).1
         subst hcd
         exact h1)

theorem removeUnderscores_eq_nil_of_head (l : List Char)
    (h : ∀ c cs, l = c :: cs → c ≠ '_') : removeUnderscores l = [] ↔ l = [] := by
  cases l with
  | nil => simp [removeUnderscores]
  | cons c cs =>
    have hc := h c cs rfl
    simp [removeUnderscores_cons_of_ne c cs hc]

theorem isExpChar_not_literalDigit (hex : Bool) (c : Char) (h : isExpChar hex c = true) :
    isLiteralDigit hex c = false ∧ c ≠ '_' ∧ c ≠ '+' ∧ c ≠ '-' := by
  cases hex <;> simp only [isExpChar, if_true, if_false, Bool.false_eq_true,
    decide_eq_true_eq] at h <;> rcases h with rfl | rfl <;> decide

/-- The exponent part reads the same with and without underscores, when the
underscores of the text are well placed. -/
theorem readExponent_removeUnderscores (hex : Bool) (r : List Char)
    (hhead : ∀ c cs, r = c :: cs → c ≠ '_')
    (hwell : ∃ after1, underscoresSeparateDigits hex after1 r = true) :
    readExponent hex (removeUnderscores r)
      = (readExponent hex r).map (fun p => (p.1, removeUnderscores p.2)) := by
  cases r with
  | nil =>
    cases hex <;> rfl
  | cons c cs =>
    have hc := hhead c cs rfl
    rw [removeUnderscores_cons_of_ne c cs hc]
    by_cases hexp : isExpChar hex c = true
    swap
    · unfold readExponent
      simp only [hexp, Bool.false_eq_true, if_false]
      cases hex <;> simp [removeUnderscores_cons_of_ne c cs hc]
    obtain ⟨hnd, _, _, _⟩ := isExpChar_not_literalDigit hex c hexp
    obtain ⟨after1, hw⟩ := hwell
    have hw1 : underscoresSeparateDigits hex false cs = true := by
      unfold underscoresSeparateDigits at hw
      rw [if_neg hc, hnd] at hw
      exact hw
    cases cs with
    | nil =>
      unfold readExponent
      simp [hexp, removeUnderscores]
    | cons d ds =>
      have hd : d ≠ '_' := by
        rintro rfl
        unfold underscoresSeparateDigits at hw1
        simp at hw1
      rw [removeUnderscores_cons_of_ne d ds hd]
      have hw2 : underscoresSeparateDigits hex (isLiteralDigit hex d) ds = true := by
        unfold underscoresSeparateDigits at hw1
        rw [if_neg hd] at hw1
        exact hw1
      unfold readExponent
      simp only [hexp, if_true]
      by_cases hsign : d = '+' ∨ d = '-'
      · simp only [if_pos hsign]
        have hdl : isLiteralDigit hex d = false := by
          rcases hsign with rfl | rfl <;> cases hex <;> decide
        rw [hdl] at hw2
        cases ds with
        | nil => simp [removeUnderscores]
        | cons b bs =>
          have hb : b ≠ '_' := by
            rintro rfl
            unfold underscoresSeparateDigits at hw2
            simp at hw2
          rw [removeUnderscores_cons_of_ne b bs hb]
          by_cases hbd : isDigit b = true
          · simp only [hbd, if_true, Option.map_some']
            rw [← removeUnderscores_cons_of_ne b bs hb, readExpDigits_removeUnderscores]
          · simp [hbd]
      · simp only [if_neg hsign]
        by_cases hbd : isDigit d = true
        · simp only [hbd, if_true, Option.map_some']
          rw [← removeUnderscores_cons_of_ne d ds hd, readExpDigits_removeUnderscores]
        · simp [hbd]

theorem readExponent_rest_head (hex : Bool) (r : List Char)
    (hhead : ∀ c cs, r = c :: cs → c ≠ '_') :
    ∀ (e : Int) (rest2 : List Char) (c : Char) (cs : List Char),
      readExponent hex r = some (e, rest2) → rest2 = c :: cs → c ≠ '_' := by
  intro e rest2 c cs h hrest
  cases r with
  | nil =>
    cases hex
    · simp only [readExponent, Bool.false_eq_true, if_false, Option.some.injEq,
        Prod.mk.injEq] at h
      rw [← h.2] at hrest
      cases hrest
    · simp [readExponent] at h
  | cons d ds =>
    by_cases hexp : isExpChar hex d = true
    swap
    · cases hex
      · simp only [readExponent, hexp, Bool.false_eq_true, if_false, Option.some.injEq,
          Prod.mk.injEq] at h
        rw [← h.2] at hrest
        exact hhead c cs hrest
      · simp [readExponent, hexp] at h
    cases ds with
    | nil => simp [readExponent, hexp] at h
    | cons x xs =>
      simp only [readExponent, hexp, if_true] at h
      generalize hbody : (if x = '+' ∨ x = '-' then xs else x :: xs) = body at h
      cases body with
      | nil => simp at h
      | cons b bs =>
        dsimp only at h
        by_cases hbd : isDigit b = true
        · simp only [hbd, if_true, Option.some.injEq, Prod.mk.injEq] at h
          rw [← h.2] at hrest
          exact readExpDigits_rest_head _ _ c cs hrest
        · simp [hbd] at h

theorem readExponentToEnd_removeUnderscores (hex : Bool) (r : List Char)
    (hhead : ∀ c cs, r = c :: cs → c ≠ '_')
    (hwell : ∃ after1, underscoresSeparateDigits hex after1 r = true) :
    readExponentToEnd hex (removeUnderscores r) = readExponentToEnd hex r := by
  unfold readExponentToEnd
  rw [readExponent_removeUnderscores hex r hhead hwell]
  cases hre : readExponent hex r with
  | none => rfl
  | some p =>
    obtain ⟨e, rest2⟩ := p
    have hh := readExponent_rest_head hex r hhead e rest2
    simp only [Option.map_some']
    cases rest2 with
    | nil => rfl
    | cons c cs =>
      have hc := hh c cs hre rfl
      rw [removeUnderscores_cons_of_ne c cs hc]

/-- The scanner reads a text whose underscores are well placed as it reads
the text without them. -/
theorem scanNumber_removeUnderscores (hex : Bool) (m : List Char) (afterDigit : Bool)
    (hwell : underscoresSeparateDigits hex afterDigit m = true) :
    scanNumber hex (removeUnderscores m) = scanNumber hex m := by
  obtain ⟨a, ha⟩ := readMantissa_suffix hex m ⟨0, 0, 0, false, false⟩
  have hhead := readMantissa_rest_head hex m ⟨0, 0, 0, false, false⟩
  have hw : ∃ after1, underscoresSeparateDigits hex after1
      (readMantissa hex m ⟨0, 0, 0, false, false⟩).2 = true := by
    rw [ha] at hwell
    exact underscoresSeparateDigits_suffix hex a _ afterDigit hwell
  unfold scanNumber
  rw [readMantissa_removeUnderscores]
  dsimp only
  rw [readExponentToEnd_removeUnderscores hex _ hhead hw]

/-! ## The scanner on a text without underscores -/

theorem isLiteralDigit_ne (hex : Bool) (c : Char) (h : isLiteralDigit hex c = true) :
    c ≠ '_' ∧ c ≠ '.' := by
  constructor <;> (rintro rfl; cases hex <;> simp [isLiteralDigit, isDigit, isHexLetter] at h)

theorem readMantissa_digit (hex : Bool) (c : Char) (cs : List Char) (st : MantState)
    (h : isLiteralDigit hex c = true) :
    readMantissa hex (c :: cs) st = readMantissa hex cs (digitStep hex st c) := by
  obtain ⟨h1, h2⟩ := isLiteralDigit_ne hex c h
  rw [readMantissa, if_neg h1, if_neg h2]
  unfold digitStep
  by_cases hd : isDigit c = true
  · simp only [hd, if_true]
    split_ifs <;> rfl
  · have hx : hex = true ∧ isHexLetter c = true := by
      simpa [isLiteralDigit, hd] using h
    simp only [hd, Bool.false_eq_true, if_false, hx, and_self, if_true]

theorem readMantissa_digits (hex : Bool) (ds rest : List Char) :
    ∀ st : MantState, ds.all (isLiteralDigit hex) = true →
      readMantissa hex (ds ++ rest) st = readMantissa hex rest (ds.foldl (digitStep hex) st) := by
  induction ds with
  | nil =>
    intro st _
    rfl
  | cons c cs ih =>
    intro st h
    simp only [List.all_cons, Bool.and_eq_true] at h
    rw [List.cons_append, readMantissa_digit hex c _ st h.1, ih _ h.2]
    rfl

theorem readMantissa_stop (hex : Bool) (rest : List Char) (st : MantState)
    (h : ∀ c cs, rest = c :: cs →
      c ≠ '_' ∧ isLiteralDigit hex c = false ∧ (c = '.' → st.sawdot = true)) :
    readMantissa hex rest st = (st, rest) := by
  cases rest with
  | nil => rfl
  | cons c cs =>
    obtain ⟨h1, h2, h3⟩ := h c cs rfl
    have hd : isDigit c = false := by
      cases hc : isDigit c
      · rfl
      · simp [isLiteralDigit, hc] at h2
    have hx : ¬ (hex = true ∧ isHexLetter c = true) := by
      rintro ⟨hh, hl⟩
      simp [isLiteralDigit, hh, hl] at h2
    rw [readMantissa, if_neg h1]
    by_cases hdot : c = '.'
    · rw [if_pos hdot, if_pos (h3 hdot)]
    · rw [if_neg hdot, hd, if_neg (by simp), if_neg hx]

/-- What the digits of a run leave in the state of the mantissa loop. -/
theorem foldl_digitStep (hex : Bool) (ds : List Char) :
    ∀ st : MantState, ds.all (isLiteralDigit hex) = true → 0 ≤ st.nd →
      (st.nd = 0 → st.mant = 0) →
      (ds.foldl (digitStep hex) st).sawdot = st.sawdot
        ∧ (ds.foldl (digitStep hex) st).sawdigits = (st.sawdigits || decide (ds ≠ []))
        ∧ (ds.foldl (digitStep hex) st).mant
            = ds.foldl (fun n c => n * (if hex then 16 else 10) + literalDigitVal c) st.mant
        ∧ (ds.foldl (digitStep hex) st).dp - (ds.foldl (digitStep hex) st).nd
            = st.dp - st.nd - ds.length
        ∧ 0 ≤ (ds.foldl (digitStep hex) st).nd
        ∧ ((ds.foldl (digitStep hex) st).nd = 0 → (ds.foldl (digitStep hex) st).mant = 0) := by
  induction ds with
  | nil =>
    intro st _ h0 hm
    exact ⟨rfl, by simp, rfl, by simp, h0, hm⟩
  | cons c cs ih =>
    intro st h h0 hm
    simp only [List.all_cons, Bool.and_eq_true] at h
    have hstep : (digitStep hex st c).sawdot = st.sawdot
        ∧ (digitStep hex st c).sawdigits = true
        ∧ (digitStep hex st c).mant = st.mant * (if hex then 16 else 10) + literalDigitVal c
        ∧ (digitStep hex st c).dp - (digitStep hex st c).nd = st.dp - st.nd - 1
        ∧ 0 ≤ (digitStep hex st c).nd
        ∧ ((digitStep hex st c).nd = 0 → (digitStep hex st c).mant = 0) := by
      unfold digitStep literalDigitVal
      by_cases hd : isDigit c = true
      · simp only [hd, if_true]
        by_cases hz : c = '0' ∧ st.nd = 0
        · simp only [hz, and_self, if_true]
          refine ⟨trivial, trivial, ?_, by omega, by omega, fun _ => hm hz.2⟩
          rw [hm hz.2]
          simp [digitVal]
        · simp only [hz, if_false]
          refine ⟨trivial, trivial, trivial, by omega, by omega, fun h1 => by omega⟩
      · have hx : hex = true := by
          have : hex = true ∧ isHexLetter c = true := by
            simpa [isLiteralDigit, hd] using h.1
          exact this.1
        simp only [hd, Bool.false_eq_true, if_false, hx, if_true]
        refine ⟨trivial, trivial, trivial, by omega, by omega, fun h1 => by omega⟩
    obtain ⟨s1, s2, s3, s4, s5, s6⟩ := hstep
    obtain ⟨r1, r2, r3, r4, r5, r6⟩ := ih (digitStep hex st c) h.2 s5 s6
    simp only [List.foldl_cons]
    refine ⟨r1.trans s1, ?_, ?_, ?_, r5, r6⟩
    · rw [r2, s2]
      simp
    · rw [r3, s3]
    · rw [r4, s4]
      simp only [List.length_cons]
      push_cast
      ring

theorem head_dropWhile_not_digit (hex : Bool) (t : List Char) (c : Char) (cs : List Char)
    (h : t.dropWhile (isLiteralDigit hex) = c :: cs) : isLiteralDigit hex c = false := by
  induction t with
  | nil => simp at h
  | cons d ds ih =>
    rw [List.dropWhile_cons] at h
    split_ifs at h with hd
    · exact ih h
    · simp only [List.cons.injEq] at h
      rw [← h.1]
      simpa using hd

/-- The mantissa loop on a text without underscores: the integer part, the
point and the digits after it are read, the exponent part is left. -/
theorem readMantissa_plain (hex : Bool) (t : List Char) (hnone : '_' ∉ t) :
    ∃ st : MantState,
      readMantissa hex t ⟨0, 0, 0, false, false⟩ = (st, exponentPart hex t)
        ∧ st.sawdigits = decide (integerPart hex t ++ fractionPart hex t ≠ [])
        ∧ st.mant = numeral (if hex then 16 else 10) (integerPart hex t ++ fractionPart hex t)
        ∧ (if st.sawdot then st.dp else st.nd) - st.nd = -((fractionPart hex t).length : Int) := by
  have hsplit : t = integerPart hex t ++ t.dropWhile (isLiteralDigit hex) :=
    (List.takeWhile_append_dropWhile _ t).symm
  have hint : (integerPart hex t).all (isLiteralDigit hex) = true := by
    unfold integerPart
    rw [List.all_eq_true]
    intro c hc
    exact List.mem_takeWhile_imp hc
  obtain ⟨i1, i2, i3, i4, i5, i6⟩ := foldl_digitStep hex (integerPart hex t)
    ⟨0, 0, 0, false, false⟩ hint (le_refl _) (fun _ => rfl)
  have hrun : readMantissa hex t ⟨0, 0, 0, false, false⟩
      = readMantissa hex (t.dropWhile (isLiteralDigit hex))
          ((integerPart hex t).foldl (digitStep hex) ⟨0, 0, 0, false, false⟩) := by
    conv_lhs => rw [hsplit]
    exact readMantissa_digits hex _ _ _ hint
  have hmem : ∀ c, c ∈ t.dropWhile (isLiteralDigit hex) → c ≠ '_' := by
    intro c hc heq
    exact hnone (heq ▸ (List.dropWhile_sublist _).subset hc)
  generalize hS : (integerPart hex t).foldl (digitStep hex) ⟨0, 0, 0, false, false⟩ = S
    at hrun i1 i2 i3 i4 i5 i6
  dsimp only at i1 i2 i3 i4
  cases hrest : t.dropWhile (isLiteralDigit hex) with
  | nil =>
    have hf : fractionPart hex t = [] := by
      unfold fractionPart
      rw [hrest]
    have he : exponentPart hex t = [] := by
      unfold exponentPart
      rw [hrest]
    refine ⟨S, ?_, ?_, ?_, ?_⟩
    · rw [hrun, hrest, he]
      rfl
    · simp [hf, i2]
    · simp [hf, i3, numeral]
    · simp [hf, i1]
  | cons c cs =>
    have hcnd := head_dropWhile_not_digit hex t c cs hrest
    have hcu : c ≠ '_' := hmem c (by rw [hrest]; simp)
    by_cases hdot : c = '.'
    swap
    · have he : exponentPart hex t = c :: cs := by
        unfold exponentPart
        rw [hrest]
        simp only [if_neg hdot]
      have hf : fractionPart hex t = [] := by
        unfold fractionPart
        rw [hrest]
        simp only [if_neg hdot]
      refine ⟨S, ?_, ?_, ?_, ?_⟩
      · rw [hrun, hrest, he]
        exact readMantissa_stop hex _ S (by
          intro c1 cs1 h1
          simp only [List.cons.injEq] at h1
          obtain ⟨rfl, _⟩ := h1
          exact ⟨hcu, hcnd, fun h => absurd h hdot⟩)
      · simp [hf, i2]
      · simp [hf, i3, numeral]
      · simp [hf, i1]
    · subst hdot
      have hf : fractionPart hex t = cs.takeWhile (isLiteralDigit hex) := by
        unfold fractionPart
        rw [hrest]
        simp only [if_true]
      have he : exponentPart hex t = cs.dropWhile (isLiteralDigit hex) := by
        unfold exponentPart
        rw [hrest]
        simp only [if_true]
      have hfrac : (cs.takeWhile (isLiteralDigit hex)).all (isLiteralDigit hex) = true := by
        rw [List.all_eq_true]
        intro c hc
        exact List.mem_takeWhile_imp hc
      have hsd : S.sawdot = false := i1
      obtain ⟨f1, f2, f3, f4, f5, f6⟩ := foldl_digitStep hex (cs.takeWhile (isLiteralDigit hex))
        { S with sawdot := true, dp := S.nd } hfrac i5 i6
      dsimp only at f1 f2 f3 f4
      refine ⟨(cs.takeWhile (isLiteralDigit hex)).foldl (digitStep hex)
        { S with sawdot := true, dp := S.nd }, ?_, ?_, ?_, ?_⟩
      · rw [hrun, hrest, readMantissa, if_neg (by decide), if_pos rfl, hsd, if_neg (by simp),
          he]
        conv_lhs => rw [← List.takeWhile_append_dropWhile (isLiteralDigit hex) cs]
        rw [readMantissa_digits hex _ _ _ hfrac]
        apply readMantissa_stop
        intro c1 cs1 h1
        refine ⟨?_, head_dropWhile_not_digit hex cs c1 cs1 h1, fun _ => ?_⟩
        · apply hmem
          rw [hrest]
          have : c1 ∈ cs.dropWhile (isLiteralDigit hex) := by
            rw [h1]
            simp
          exact List.mem_cons_of_mem _ ((List.dropWhile_sublist _).subset this)
        · rw [f1]
      · rw [f2, hf, i2]
        cases hi : integerPart hex t <;> cases hfr : cs.takeWhile (isLiteralDigit hex) <;> simp
      · rw [f3, hf, i3]
        simp only [numeral, List.foldl_append]
      · rw [f1, hf]
        simp only [if_true]
        rw [f4]
        simp

/-! ## The exponent part and the whole number, without underscores -/

theorem literalDigitVal_of_isDigit (c : Char) (h : isDigit c = true) :
    literalDigitVal c = digitVal c := by
  simp [literalDigitVal, h]

theorem readExpDigits_digits (l : List Char) :
    ∀ (read denoted : Nat), l.all isDigit = true →
      (read = denoted ∨ (10000 ≤ read ∧ read ≤ denoted)) →
      (readExpDigits l read).2 = []
        ∧ ((readExpDigits l read).1 = l.foldl (fun n c => n * 10 + literalDigitVal c) denoted
          ∨ (10000 ≤ (readExpDigits l read).1
            ∧ (readExpDigits l read).1
                ≤ l.foldl (fun n c => n * 10 + literalDigitVal c) denoted)) := by
  induction l with
  | nil =>
    intro read denoted _ h
    exact ⟨rfl, h⟩
  | cons c cs ih =>
    intro read denoted hall h
    simp only [List.all_cons, Bool.and_eq_true] at hall
    have hc : c ≠ '_' := by
      rintro rfl
      simp [isDigit] at hall
    rw [readExpDigits, if_neg hc, if_pos hall.1, List.foldl_cons,
      literalDigitVal_of_isDigit c hall.1]
    apply ih _ _ hall.2
    by_cases hlt : read < 10000
    · rw [if_pos hlt]
      rcases h with h | h
      · left
        rw [h]
      · omega
    · rw [if_neg hlt]
      right
      rcases h with h | h <;> constructor <;> nlinarith

theorem readExpDigits_not_all (l : List Char) (hnone : '_' ∉ l) :
    ∀ e : Nat, l.all isDigit = false → (readExpDigits l e).2 ≠ [] := by
  induction l with
  | nil =>
    intro e h
    simp at h
  | cons c cs ih =>
    intro e h
    have hc : c ≠ '_' := fun heq => hnone (by simp [heq])
    have hcs : '_' ∉ cs := fun hm => hnone (List.mem_cons_of_mem _ hm)
    rw [readExpDigits, if_neg hc]
    by_cases hd : isDigit c = true
    · rw [if_pos hd]
      apply ih hcs
      simpa [hd] using h
    · rw [if_neg hd]
      simp

/-- The exponent part of a text without underscores is read to the end exactly
when it is well formed, and then as the exponent it denotes, up to the cap of
the exponent loop. -/
theorem readExponentToEnd_plain (hex : Bool) (r : List Char) (hnone : '_' ∉ r) :
    (isExponentPart hex r = true →
        ∃ e, readExponentToEnd hex r = some e ∧ readsExponentAs (exponentValue r) e)
      ∧ (isExponentPart hex r = false → readExponentToEnd hex r = none) := by
  cases r with
  | nil =>
    cases hex
    · refine ⟨fun _ => ⟨0, rfl, Or.inl rfl⟩, fun h => ?_⟩
      simp [isExponentPart] at h
    · refine ⟨fun h => ?_, fun _ => rfl⟩
      simp [isExponentPart] at h
  | cons c cs =>
    by_cases hexp : isExpChar hex c = true
    swap
    · refine ⟨fun h => ?_, fun _ => ?_⟩
      · simp [isExponentPart, hexp] at h
      · cases hex <;> simp [readExponentToEnd, readExponent, hexp]
    have hcs : '_' ∉ cs := fun hm => hnone (List.mem_cons_of_mem _ hm)
    cases cs with
    | nil =>
      refine ⟨fun h => ?_, fun _ => ?_⟩
      · simp [isExponentPart, dropSign] at h
      · simp [readExponentToEnd, readExponent, hexp]
    | cons d ds =>
      have hbody : (if d = '+' ∨ d = '-' then ds else d :: ds) = dropSign (d :: ds) := rfl
      have hbnone : '_' ∉ dropSign (d :: ds) := by
        rw [← hbody]
        split_ifs
        · exact fun hm => hcs (List.mem_cons_of_mem _ hm)
        · exact hcs
      have hval : exponentValue (c :: d :: ds)
          = (if d = '-' then -(numeral 10 (dropSign (d :: ds)) : Int)
              else (numeral 10 (dropSign (d :: ds)) : Int)) := by
        simp [exponentValue]
      simp only [isExponentPart, hexp, Bool.true_and, readExponentToEnd, readExponent, if_true,
        hbody, hval]
      generalize dropSign (d :: ds) = body at hbnone
      cases body with
      | nil => simp
      | cons b bs =>
        by_cases hall : (b :: bs).all isDigit = true
        · have hb : isDigit b = true := by
            simp only [List.all_cons, Bool.and_eq_true] at hall
            exact hall.1
          obtain ⟨h1, h2⟩ := readExpDigits_digits (b :: bs) 0 0 hall (Or.inl rfl)
          simp only [hb, if_true, h1, hall]
          refine ⟨fun _ => ⟨_, rfl, ?_⟩, fun h => by simp at h⟩
          unfold readsExponentAs numeral
          by_cases hneg : d = '-'
          · simp only [hneg, if_true]
            rcases h2 with h2 | h2
            · left
              rw [h2]
              ring
            · right
              right
              constructor <;> omega
          · simp only [hneg, if_false]
            rcases h2 with h2 | h2
            · left
              rw [h2]
              ring
            · right
              left
              constructor <;> omega
        · have hall2 : (b :: bs).all isDigit = false := by simpa using hall
          refine ⟨fun h => ?_, fun _ => ?_⟩
          · simp [hall2] at h
          · by_cases hb : isDigit b = true
            · have hne := readExpDigits_not_all (b :: bs) hbnone 0 hall2
              simp only [hb, if_true]
              cases hr : (readExpDigits (b :: bs) 0).2 with
              | nil => exact absurd hr hne
              | cons x xs => rfl
            · simp [hb]

/-- The scanner on a text without underscores: it accepts exactly the plain
numbers, and reads the value the number denotes with the exponent as the
exponent loop reads it. -/
theorem scanNumber_plain (hex : Bool) (t : List Char) (hnone : '_' ∉ t) :
    (isPlainNumber hex t = true →
        ∃ e, readsExponentAs (exponentValue (exponentPart hex t)) e
          ∧ scanNumber hex t
            = some (scaledDigits hex
                (numeral (if hex then 16 else 10) (integerPart hex t ++ fractionPart hex t))
                (fractionPart hex t).length e))
      ∧ (isPlainNumber hex t = false → scanNumber hex t = none) := by
  obtain ⟨st, hrun, hsd, hmant, hdp⟩ := readMantissa_plain hex t hnone
  have henone : '_' ∉ exponentPart hex t := by
    intro hm
    apply hnone
    unfold exponentPart at hm
    split at hm
    · simp at hm
    · rename_i c rest heq
      have hsub : ∀ x, x ∈ c :: rest → x ∈ t := fun x hx =>
        (List.dropWhile_sublist _).subset (heq ▸ hx)
      split_ifs at hm
      · exact hsub _ (List.mem_cons_of_mem _ ((List.dropWhile_sublist _).subset hm))
      · exact hsub _ hm
  obtain ⟨hok, hbad⟩ := readExponentToEnd_plain hex (exponentPart hex t) henone
  unfold isPlainNumber scanNumber
  rw [hrun]
  dsimp only
  rw [hsd]
  generalize decide (integerPart hex t ++ fractionPart hex t ≠ []) = seen
  cases seen
  · refine ⟨fun h => ?_, fun _ => ?_⟩
    · simp at h
    · simp
  · simp only [Bool.true_and, not_true_eq_false, if_false]
    refine ⟨fun h => ?_, fun h => ?_⟩
    · obtain ⟨e, he1, he2⟩ := hok h
      refine ⟨e, he2, ?_⟩
      rw [he1]
      dsimp only
      rw [hmant]
      unfold scaledDigits
      generalize (if st.sawdot = true then st.dp else st.nd) = point at hdp ⊢
      cases hex
      · simp only [Bool.false_eq_true, if_false]
        rw [show point + e - st.nd = e - ((fractionPart false t).length : Int) from by omega]
      · simp only [if_true]
        rw [show 4 * point + e - 4 * st.nd = e - 4 * ((fractionPart true t).length : Int)
          from by omega]
    · rw [hbad h]

/-! ## `readFloat` against the literals of the Go syntax -/

theorem not_mem_removeUnderscores (l : List Char) : '_' ∉ removeUnderscores l := by
  simp [removeUnderscores]

theorem mem_of_not_separate (hex : Bool) (l : List Char) (afterDigit : Bool)
    (h : underscoresSeparateDigits hex afterDigit l = false) : '_' ∈ l := by
  by_contra hn
  rw [underscoresSeparateDigits_of_none hex l hn afterDigit] at h
  cases h

/-- The last steps of `readFloat`, on the digits `m` of the text `s`: the scan
and the underscore check. -/
theorem readFloat_finish (hex : Bool) (m s : List Char) (neg afterDigit : Bool)
    (hsub : ∀ x, x ∈ m → x ∈ s)
    (hu : underscoreOK s = underscoresSeparateDigits hex afterDigit m) :
    ((underscoresSeparateDigits hex afterDigit m && isPlainNumber hex (removeUnderscores m))
          = true →
        ∃ e, readsExponentAs (exponentValue (exponentPart hex (removeUnderscores m))) e
          ∧ (match scanNumber hex m with
              | none => none
              | some v => if '_' ∈ s ∧ ¬ underscoreOK s then none else some (neg, v))
            = some (neg, scaledDigits hex
                (numeral (if hex then 16 else 10)
                  (integerPart hex (removeUnderscores m)
                    ++ fractionPart hex (removeUnderscores m)))
                (fractionPart hex (removeUnderscores m)).length e))
      ∧ ((underscoresSeparateDigits hex afterDigit m && isPlainNumber hex (removeUnderscores m))
          = false →
        (match scanNumber hex m with
          | none => none
          | some v => if '_' ∈ s ∧ ¬ underscoreOK s then none else some (neg, v)) = none) := by
  obtain ⟨hok, hbad⟩ := scanNumber_plain hex (removeUnderscores m) (not_mem_removeUnderscores m)
  cases hw : underscoresSeparateDigits hex afterDigit m with
  | false =>
    have hmem : '_' ∈ s := hsub _ (mem_of_not_separate hex m afterDigit hw)
    refine ⟨fun h => by simp at h, fun _ => ?_⟩
    rw [hu, hw]
    cases scanNumber hex m with
    | none => rfl
    | some v => simp [hmem]
  | true =>
    rw [← scanNumber_removeUnderscores hex m afterDigit hw, hu, hw]
    simp only [Bool.true_and, not_true_eq_false, and_false, if_false]
    refine ⟨fun h => ?_, fun h => ?_⟩
    · obtain ⟨e, he1, he2⟩ := hok h
      exact ⟨e, he1, by rw [he2]⟩
    · rw [hbad h]

theorem underscoreOK_decimal (s : List Char)
    (h : ∀ c1 rest, dropSign s = '0' :: c1 :: rest →
      ¬ (c1 = 'b' ∨ c1 = 'B' ∨ c1 = 'o' ∨ c1 = 'O' ∨ c1 = 'x' ∨ c1 = 'X')) :
    underscoreOK s = underscoresSeparateDigits false false (dropSign s) := by
  have hloop : underscoreLoop false (dropSign s) .start
      = underscoresSeparateDigits false false (dropSign s) := by
    rw [underscoreLoop_eq]
    simp
  unfold underscoreOK
  generalize dropSign s = u at h hloop
  unfold underscoreBody
  split
  · rename_i c0 c1 rest
    by_cases h0 : c0 = '0'
    · subst h0
      have := h c1 rest rfl
      rw [if_neg (by simp [this])]
      exact hloop
    · rw [if_neg (by simp [h0])]
      exact hloop
  · exact hloop

theorem underscoreOK_hex (s : List Char) (x : Char) (m : List Char)
    (h : dropSign s = '0' :: x :: m) (hx : x = 'x' ∨ x = 'X') :
    underscoreOK s = underscoresSeparateDigits true true m := by
  unfold underscoreOK
  rw [h]
  unfold underscoreBody
  dsimp only
  rw [if_pos ⟨rfl, by rcases hx with rfl | rfl <;> simp⟩]
  have hd : decide (x = 'x' ∨ x = 'X') = true := by simpa using hx
  rw [hd, underscoreLoop_eq]
  simp

theorem scanNumber_base_marker (c1 : Char) (rest : List Char)
    (h : c1 = 'b' ∨ c1 = 'B' ∨ c1 = 'o' ∨ c1 = 'O' ∨ c1 = 'x' ∨ c1 = 'X') :
    scanNumber false ('0' :: c1 :: rest) = none
      ∧ isPlainNumber false (removeUnderscores ('0' :: c1 :: rest)) = false := by
  have h1 : c1 ≠ '_' ∧ c1 ≠ '.' ∧ isDigit c1 = false ∧ isExpChar false c1 = false := by
    rcases h with rfl | rfl | rfl | rfl | rfl | rfl <;> decide
  obtain ⟨a1, a2, a3, a4⟩ := h1
  constructor
  · have hrun : readMantissa false ('0' :: c1 :: rest) ⟨0, 0, 0, false, false⟩
        = (digitStep false ⟨0, 0, 0, false, false⟩ '0', c1 :: rest) := by
      rw [readMantissa_digit false '0' _ _ (by decide)]
      apply readMantissa_stop
      intro c cs hc
      simp only [List.cons.injEq] at hc
      obtain ⟨rfl, _⟩ := hc
      exact ⟨a1, by simp [isLiteralDigit, a3], fun hd => absurd hd a2⟩
    have hexp : readExponentToEnd false (c1 :: rest) = none := by
      simp [readExponentToEnd, readExponent, a4]
    unfold scanNumber
    rw [hrun]
    dsimp only
    rw [hexp]
    simp
  · have hr : removeUnderscores ('0' :: c1 :: rest) = '0' :: c1 :: removeUnderscores rest := by
      simp [removeUnderscores, a1]
    have hl0 : isLiteralDigit false '0' = true := by decide
    have hl1 : isLiteralDigit false c1 = false := by simp [isLiteralDigit, a3]
    rw [hr]
    simp [isPlainNumber, integerPart, fractionPart, exponentPart, isExponentPart,
      List.takeWhile_cons, List.dropWhile_cons, hl0, hl1, a2, a4]

/-- `readFloat` accepts exactly the floating-point literals of the Go syntax
(with an optional sign), and reads the sign and the magnitude the literal
denotes, its exponent as the exponent loop reads it. -/
theorem readFloat_literal (s : List Char) :
    (isFloatLiteral s = true →
        ∃ e, readsExponentAs (exponentValue (exponentPart (literalHex s) (literalBody s))) e
          ∧ readFloat s = some (decide (s.head? = some '-'),
              scaledDigits (literalHex s)
                (numeral (if literalHex s then 16 else 10)
                  (integerPart (literalHex s) (literalBody s)
                    ++ fractionPart (literalHex s) (literalBody s)))
                (fractionPart (literalHex s) (literalBody s)).length e))
      ∧ (isFloatLiteral s = false → readFloat s = none) := by
  cases s with
  | nil =>
    refine ⟨fun h => ?_, fun _ => rfl⟩
    simp [isFloatLiteral, dropSign, hasHexPrefix, isPlainNumber, integerPart, fractionPart,
      removeUnderscores] at h
  | cons c rest =>
    have hneg : decide (c = '-') = decide ((c :: rest).head? = some '-') := by simp
    have hsub : ∀ k x, x ∈ (dropSign (c :: rest)).drop k → x ∈ c :: rest := by
      intro k x hx
      have h1 : x ∈ dropSign (c :: rest) := List.mem_of_mem_drop hx
      have hds : dropSign (c :: rest) = if c = '+' ∨ c = '-' then rest else c :: rest := rfl
      rw [hds] at h1
      split_ifs at h1
      · exact List.mem_cons_of_mem _ h1
      · exact h1
    unfold readFloat
    dsimp only
    rw [hneg]
    unfold isFloatLiteral literalBody literalHex
    generalize hu : dropSign (c :: rest) = u at hsub
    by_cases hp : hasHexPrefix u = true
    · -- the text after the sign starts with `0x`
      obtain ⟨x, m, hum, hx⟩ : ∃ x m, u = '0' :: x :: m ∧ (x = 'x' ∨ x = 'X') := by
        cases u with
        | nil => simp [hasHexPrefix] at hp
        | cons c0 t =>
          cases t with
          | nil => simp [hasHexPrefix] at hp
          | cons c1 m =>
            simp only [hasHexPrefix, decide_eq_true_eq] at hp
            exact ⟨c1, m, by rw [hp.1], hp.2⟩
      subst hum
      rw [hp]
      simp only [if_true, List.drop_succ_cons, List.drop_zero, Bool.true_and]
      cases m with
      | nil =>
        have hscan := (scanNumber_base_marker x [] (by tauto)).1
        have hlen : decide (2 < ['0', x].length) = false := by simp
        rw [hlen]
        simp only [Bool.false_eq_true, if_false, hscan]
        refine ⟨fun h => ?_, fun _ => trivial⟩
        simp [isPlainNumber, integerPart, fractionPart, removeUnderscores] at h
      | cons y m1 =>
        have hlen : decide (2 < ('0' :: x :: y :: m1).length) = true := by simp
        rw [hlen]
        simp only [if_true]
        exact readFloat_finish true (y :: m1) (c :: rest) _ true
          (fun z hz => hsub 2 z (by simpa using hz))
          (underscoreOK_hex (c :: rest) x (y :: m1) hu hx)
    · -- decimal
      have hp2 : hasHexPrefix u = false := by simpa using hp
      rw [hp2]
      simp only [Bool.false_and, Bool.false_eq_true, if_false]
      by_cases hbase : ∃ c1 t, u = '0' :: c1 :: t
          ∧ (c1 = 'b' ∨ c1 = 'B' ∨ c1 = 'o' ∨ c1 = 'O' ∨ c1 = 'x' ∨ c1 = 'X')
      · obtain ⟨c1, t, hut, hc1⟩ := hbase
        obtain ⟨hscan, hplain⟩ := scanNumber_base_marker c1 t hc1
        rw [hut, hscan, hplain]
        simp
      · exact readFloat_finish false u (c :: rest) _ false
          (fun z hz => hsub 0 z (by simpa using hz))
          (by
            rw [← hu]
            apply underscoreOK_decimal
            intro c1 t ht hc1
            rw [hu] at ht
            exact hbase ⟨c1, t, ht, hc1⟩)

/-! ## `special` against the list of special spellings -/

theorem lowerAscii_eq_cases (c d : Char) (h : lowerAscii c = d) :
    c = d ∨ (97 ≤ d.toNat ∧ d.toNat ≤ 122 ∧ c = Char.ofNat (d.toNat - 32)) := by
  unfold lowerAscii at h
  split_ifs at h with hr
  · right
    obtain ⟨h1, h2⟩ := hr
    have hc : c = Char.ofNat c.toNat := (Char.ofNat_toNat c).symm
    generalize c.toNat = n at h h1 h2 hc
    subst hc
    subst h
    interval_cases n <;> decide
  · left
    exact h

theorem special_isSome (s : List Char) : (special s).isSome = isSpecialSpelling s := by
  cases s with
  | nil => rfl
  | cons c cs =>
    have hdata : "+inf".data = ['+', 'i', 'n', 'f'] ∧ "-inf".data = ['-', 'i', 'n', 'f']
        ∧ "inf".data = ['i', 'n', 'f'] ∧ "nan".data = ['n', 'a', 'n']
        ∧ "+infinity".data = ['+', 'i', 'n', 'f', 'i', 'n', 'i', 't', 'y']
        ∧ "-infinity".data = ['-', 'i', 'n', 'f', 'i', 'n', 'i', 't', 'y']
        ∧ "infinity".data = ['i', 'n', 'f', 'i', 'n', 'i', 't', 'y'] :=
      ⟨rfl, rfl, rfl, rfl, rfl, rfl, rfl⟩
    obtain ⟨d1, d2, d3, d4, d5, d6, d7⟩ := hdata
    unfold special isSpecialSpelling
    simp only [d1, d2, d3, d4, d5, d6, d7, List.map_cons]
    by_cases h1 : c = '+'
    · subst h1
      have : lowerAscii '+' = '+' := by decide
      simp only [this, if_true]
      split_ifs with h <;> simp_all
    · by_cases h2 : c = '-'
      · subst h2
        have : lowerAscii '-' = '-' := by decide
        simp only [this, if_true, h1, if_false]
        split_ifs with h <;> simp_all
      · by_cases h3 : c = 'n' ∨ c = 'N'
        · have : lowerAscii c = 'n' := by
            rcases h3 with rfl | rfl <;> decide
          simp only [this, if_true, h1, h2, h3, if_false]
          split_ifs with h <;> simp_all
        · by_cases h4 : c = 'i' ∨ c = 'I'
          · have : lowerAscii c = 'i' := by
              rcases h4 with rfl | rfl <;> decide
            simp only [this, if_true, h1, h2, h3, h4, if_false]
            split_ifs with h <;> simp_all
          · simp only [h1, h2, h3, h4, if_false, Option.isSome_none]
            have hl : ∀ d : Char, (d = '+' ∨ d = '-' ∨ d = 'n' ∨ d = 'i') → lowerAscii c ≠ d := by
              intro d hd heq
              rcases lowerAscii_eq_cases c d heq with hcd | ⟨_, _, hcd⟩
              · subst hcd
                rcases hd with rfl | rfl | rfl | rfl <;> simp_all
              · rcases hd with rfl | rfl | rfl | rfl <;> simp_all
            have hp := hl '+' (by simp)
            have hm := hl '-' (by simp)
            have hn := hl 'n' (by simp)
            have hi := hl 'i' (by simp)
            simp [hp, hm, hn, hi]

/-! ## Rounding leaves the values of the format unchanged -/

theorem pow2_eq (e : Int) : pow2 e = (2 : ℚ) ^ e := by
  unfold pow2
  split_ifs with h
  · obtain ⟨n, rfl⟩ := Int.eq_ofNat_of_zero_le h
    simp
  · have hneg : 0 ≤ -e := by omega
    obtain ⟨n, hn⟩ := Int.eq_ofNat_of_zero_le hneg
    have he : e = -(n : Int) := by omega
    subst he
    simp

theorem log2Loop_spec (fuel n : Nat) (hfuel : n ≤ fuel) (hn : 0 < n) :
    2 ^ log2Loop fuel n ≤ n ∧ n < 2 ^ (log2Loop fuel n + 1) := by
  induction fuel generalizing n with
  | zero => omega
  | succ k ih =>
    unfold log2Loop
    by_cases h2 : n < 2
    · simp only [h2, if_true]
      omega
    · simp only [h2, if_false]
      have hhalf : 0 < n / 2 := Nat.div_pos (by omega) (by omega)
      have hle : n / 2 ≤ k := by omega
      obtain ⟨h1, h3⟩ := ih (n / 2) hle hhalf
      constructor
      · calc 2 ^ (log2Loop k (n / 2) + 1) = 2 ^ log2Loop k (n / 2) * 2 := by ring
          _ ≤ (n / 2) * 2 := Nat.mul_le_mul_right 2 h1
          _ ≤ n := Nat.div_mul_le_self n 2
      · have : n < (n / 2 + 1) * 2 := by omega
        calc n < (n / 2 + 1) * 2 := this
          _ ≤ 2 ^ (log2Loop k (n / 2) + 1) * 2 := Nat.mul_le_mul_right 2 h3
          _ = 2 ^ (log2Loop k (n / 2) + 1 + 1) := by ring

theorem log2Nat_spec (n : Nat) (hn : 0 < n) :
    2 ^ log2Nat n ≤ n ∧ n < 2 ^ (log2Nat n + 1) :=
  log2Loop_spec n n le_rfl hn

theorem floorLog2_le (a : ℚ) (ha : 0 < a) : (2 : ℚ) ^ floorLog2 a ≤ a := by
  unfold floorLog2
  dsimp only
  split_ifs with h
  · rwa [pow2_eq] at h
  · have hnum : 0 < a.num := Rat.num_pos.mpr ha
    have hnat : 0 < a.num.natAbs := Int.natAbs_pos.mpr (ne_of_gt hnum)
    have hden : 0 < a.den := a.den_pos
    obtain ⟨h1, _⟩ := log2Nat_spec a.num.natAbs hnat
    obtain ⟨_, h2⟩ := log2Nat_spec a.den hden
    have hcast : ((a.num.natAbs : Int) : ℚ) = (a.num : ℚ) := by
      rw [Int.natAbs_of_nonneg (le_of_lt hnum)]
    have hq1 : ((2 : ℚ) ^ log2Nat a.num.natAbs) ≤ (a.num : ℚ) := by
      rw [← hcast]
      exact_mod_cast h1
    have hq2 : ((a.den : ℚ)) ≤ (2 : ℚ) ^ (log2Nat a.den + 1) := by
      exact_mod_cast le_of_lt h2
    have hexp : (2 : ℚ) ^ ((log2Nat a.num.natAbs : Int) - (log2Nat a.den : Int) - 1)
        = (2 : ℚ) ^ log2Nat a.num.natAbs / (2 : ℚ) ^ (log2Nat a.den + 1) := by
      have : ((log2Nat a.num.natAbs : Int) - (log2Nat a.den : Int) - 1)
          = (log2Nat a.num.natAbs : Int) - ((log2Nat a.den + 1 : Nat) : Int) := by
        push_cast
        ring
      rw [this, zpow_sub₀ (by norm_num : (2 : ℚ) ≠ 0), zpow_natCast, zpow_natCast]
    rw [hexp]
    have hdenq : (0 : ℚ) < (a.den : ℚ) := by exact_mod_cast hden
    calc (2 : ℚ) ^ log2Nat a.num.natAbs / (2 : ℚ) ^ (log2Nat a.den + 1)
        ≤ (a.num : ℚ) / (a.den : ℚ) :=
          div_le_div₀ (le_of_lt (by exact_mod_cast hnum)) hq1 hdenq hq2
      _ = a := Rat.num_div_den a

theorem roundHalfEven_natCast (n : Nat) : roundHalfEven (n : ℚ) = n := by
  unfold roundHalfEven
  have hfl : Rat.floor (n : ℚ) = n := by
    show Int.floor (n : ℚ) = n
    simp
  simp [hfl]

/-- Rounding leaves a value `m * 2^e` with `|m| < 2^prec` and `e ≥ qmin`
unchanged: such a value is a number of the format. -/
theorem roundNearestEven_dyadic (prec : Nat) (qmin : Int) (m e : Int)
    (hm : |m| < 2 ^ prec) (he : qmin ≤ e) :
    roundNearestEven prec qmin ((m : ℚ) * (2 : ℚ) ^ e) = (m : ℚ) * (2 : ℚ) ^ e := by
  have h2 : (0 : ℚ) < (2 : ℚ) ^ e := zpow_pos (by norm_num) e
  by_cases hm0 : m = 0
  · subst hm0
    simp [roundNearestEven]
  have hx0 : (m : ℚ) * (2 : ℚ) ^ e ≠ 0 :=
    mul_ne_zero (by exact_mod_cast hm0) (ne_of_gt h2)
  have habs : |(m : ℚ) * (2 : ℚ) ^ e| = ((|m| : Int) : ℚ) * (2 : ℚ) ^ e := by
    rw [abs_mul, abs_of_pos h2, Int.cast_abs]
  have hapos : (0 : ℚ) < |(m : ℚ) * (2 : ℚ) ^ e| := abs_pos.mpr hx0
  have hlow := floorLog2_le _ hapos
  have hup : |(m : ℚ) * (2 : ℚ) ^ e| < (2 : ℚ) ^ ((prec : Int) + e) := by
    rw [habs, zpow_add₀ (by norm_num : (2 : ℚ) ≠ 0), zpow_natCast]
    apply mul_lt_mul_of_pos_right _ h2
    exact_mod_cast hm
  have hL : floorLog2 |(m : ℚ) * (2 : ℚ) ^ e| < (prec : Int) + e :=
    (zpow_lt_zpow_iff_right₀ (by norm_num : (1 : ℚ) < 2)).mp (lt_of_le_of_lt hlow hup)
  have hq : max (floorLog2 |(m : ℚ) * (2 : ℚ) ^ e| - (prec : Int) + 1) qmin ≤ e :=
    max_le (by omega) he
  unfold roundNearestEven
  simp only [hx0, if_false]
  generalize max (floorLog2 |(m : ℚ) * (2 : ℚ) ^ e| - (prec : Int) + 1) qmin = q at hq
  obtain ⟨k, hk⟩ := Int.eq_ofNat_of_zero_le (sub_nonneg.mpr hq)
  have hquot : |(m : ℚ) * (2 : ℚ) ^ e| / pow2 q = ((m.natAbs * 2 ^ k : Nat) : ℚ) := by
    have he' : e = q + (k : Int) := by omega
    rw [habs, pow2_eq, he', zpow_add₀ (by norm_num : (2 : ℚ) ≠ 0), zpow_natCast]
    have hqpos : (0 : ℚ) < (2 : ℚ) ^ q := zpow_pos (by norm_num) q
    field_simp
    rw [Nat.cast_natAbs, Int.cast_abs]
    ring
  have hround : (roundHalfEven (|(m : ℚ) * (2 : ℚ) ^ e| / pow2 q) : ℚ) * pow2 q
      = |(m : ℚ) * (2 : ℚ) ^ e| := by
    rw [hquot, roundHalfEven_natCast, Int.cast_natCast, ← hquot]
    have hqpos : (0 : ℚ) < pow2 q := by
      rw [pow2_eq]
      exact zpow_pos (by norm_num) q
    field_simp
  rw [hround]
  split_ifs with hneg
  · rw [abs_of_neg hneg, neg_neg]
  · rw [abs_of_nonneg (not_lt.mp hneg)]

theorem roundFloat64_of_isFloat64Value (x : ℚ) (hx : isFloat64Value x) : roundFloat64 x = x := by
  obtain ⟨m, e, hm, he, _, rfl⟩ := hx
  exact roundNearestEven_dyadic 53 (-1074) m e hm he

theorem roundFloat32_of_isFloat32Value (x : ℚ) (hx : isFloat32Value x) : roundFloat32 x = x := by
  obtain ⟨m, e, hm, he, _, rfl⟩ := hx
  exact roundNearestEven_dyadic 24 (-149) m e hm he

theorem isFloat32Value_neg (x : ℚ) (hx : isFloat32Value x) : isFloat32Value (-x) := by
  obtain ⟨m, e, hm, he, he2, rfl⟩ := hx
  exact ⟨-m, e, by rwa [abs_neg], he, he2, by push_cast; ring⟩

theorem isFloat32Value_lt_overflow (x : ℚ) (hx : isFloat32Value x) : x < float32Overflow := by
  obtain ⟨m, e, hm, _, he2, rfl⟩ := hx
  have hpow : (2 : ℚ) ^ e ≤ (2 : ℚ) ^ (104 : Int) :=
    zpow_le_zpow_right₀ (by norm_num) he2
  have hpos : (0 : ℚ) < (2 : ℚ) ^ e := zpow_pos (by norm_num) e
  have hm1 : m ≤ 2 ^ 24 - 1 := by
    have := le_abs_self m
    omega
  have hmq : (m : ℚ) ≤ 2 ^ 24 - 1 := by exact_mod_cast hm1
  have h104 : (2 : ℚ) ^ (104 : Int) = 20282409603651670423947251286016 := by norm_num
  calc (m : ℚ) * (2 : ℚ) ^ e ≤ (2 ^ 24 - 1) * (2 : ℚ) ^ e :=
        mul_le_mul_of_nonneg_right hmq (le_of_lt hpos)
    _ ≤ (2 ^ 24 - 1) * (2 : ℚ) ^ (104 : Int) :=
        mul_le_mul_of_nonneg_left hpow (by norm_num)
    _ < float32Overflow := by
        rw [h104]
        unfold float32Overflow
        norm_num

/-! ## The error of one rounding -/

theorem pow10_eq (e : Int) : pow10 e = (10 : ℚ) ^ e := by
  unfold pow10
  split_ifs with h
  · obtain ⟨n, rfl⟩ := Int.eq_ofNat_of_zero_le h
    simp
  · have hneg : 0 ≤ -e := by omega
    obtain ⟨n, hn⟩ := Int.eq_ofNat_of_zero_le hneg
    have he : e = -(n : Int) := by omega
    subst he
    simp

theorem roundHalfEven_error (m : ℚ) : |(roundHalfEven m : ℚ) - m| ≤ 1 / 2 := by
  have hf1 : ((Int.floor m : Int) : ℚ) ≤ m := Int.floor_le m
  have hf2 : m < ((Int.floor m : Int) : ℚ) + 1 := Int.lt_floor_add_one m
  have hfl : Rat.floor m = Int.floor m := rfl
  unfold roundHalfEven
  simp only [hfl]
  rw [abs_le]
  split_ifs with h1 h2 h3
  · constructor <;> linarith
  · constructor <;> push_cast <;> linarith
  · have : ¬ (m - (Int.floor m : ℚ) < 1 / 2) := h1
    have : ¬ (1 / 2 < m - (Int.floor m : ℚ)) := h2
    constructor <;> linarith
  · have : ¬ (m - (Int.floor m : ℚ) < 1 / 2) := h1
    have : ¬ (1 / 2 < m - (Int.floor m : ℚ)) := h2
    constructor <;> push_cast <;> linarith

/-- One rounding to nearest moves a value by at most half a unit in the last
place: by at most `|x| * 2^(-prec)` in the normal range, `2^(qmin - 1)` below
it. -/
theorem roundNearestEven_error (prec : Nat) (qmin : Int) (x : ℚ) :
    |roundNearestEven prec qmin x - x|
      ≤ |x| * (2 : ℚ) ^ (-(prec : Int)) + (2 : ℚ) ^ (qmin - 1) := by
  have hpos1 : (0 : ℚ) < (2 : ℚ) ^ (-(prec : Int)) := zpow_pos (by norm_num) _
  have hpos2 : (0 : ℚ) < (2 : ℚ) ^ (qmin - 1) := zpow_pos (by norm_num) _
  by_cases hx : x = 0
  · subst hx
    simp only [roundNearestEven, if_true, sub_zero, abs_zero, zero_mul, zero_add]
    exact le_of_lt hpos2
  have ha : (0 : ℚ) < |x| := abs_pos.mpr hx
  have hlog := floorLog2_le |x| ha
  unfold roundNearestEven
  simp only [hx, if_false]
  generalize hq : max (floorLog2 |x| - (prec : Int) + 1) qmin = q
  have hqpos : (0 : ℚ) < (2 : ℚ) ^ q := zpow_pos (by norm_num) q
  have hround := roundHalfEven_error (|x| / pow2 q)
  rw [pow2_eq] at hround ⊢
  have hdist : abs ((roundHalfEven (|x| / (2 : ℚ) ^ q) : ℚ) * (2 : ℚ) ^ q - |x|)
      ≤ (2 : ℚ) ^ q / 2 := by
    have heq : (roundHalfEven (|x| / (2 : ℚ) ^ q) : ℚ) * (2 : ℚ) ^ q - |x|
        = ((roundHalfEven (|x| / (2 : ℚ) ^ q) : ℚ) - |x| / (2 : ℚ) ^ q) * (2 : ℚ) ^ q := by
      field_simp
    rw [heq, abs_mul, abs_of_pos hqpos]
    calc |(roundHalfEven (|x| / (2 : ℚ) ^ q) : ℚ) - |x| / (2 : ℚ) ^ q| * (2 : ℚ) ^ q
        ≤ 1 / 2 * (2 : ℚ) ^ q := mul_le_mul_of_nonneg_right hround (le_of_lt hqpos)
      _ = (2 : ℚ) ^ q / 2 := by ring
  have hhalf : (2 : ℚ) ^ q / 2 = (2 : ℚ) ^ (q - 1) := by
    rw [zpow_sub₀ (by norm_num : (2 : ℚ) ≠ 0), zpow_one]
  have hbound : (2 : ℚ) ^ (q - 1) ≤ |x| * (2 : ℚ) ^ (-(prec : Int)) + (2 : ℚ) ^ (qmin - 1) := by
    rcases max_choice (floorLog2 |x| - (prec : Int) + 1) qmin with hm | hm
    · rw [← hq, hm]
      have : floorLog2 |x| - (prec : Int) + 1 - 1 = floorLog2 |x| + -(prec : Int) := by ring
      rw [this, zpow_add₀ (by norm_num : (2 : ℚ) ≠ 0)]
      have := mul_le_mul_of_nonneg_right hlog (le_of_lt hpos1)
      linarith
    · rw [← hq, hm]
      have := mul_nonneg (le_of_lt ha) (le_of_lt hpos1)
      linarith
  have hsign : |(if x < 0 then -((roundHalfEven (|x| / (2 : ℚ) ^ q) : ℚ) * (2 : ℚ) ^ q)
        else (roundHalfEven (|x| / (2 : ℚ) ^ q) : ℚ) * (2 : ℚ) ^ q) - x|
      = abs ((roundHalfEven (|x| / (2 : ℚ) ^ q) : ℚ) * (2 : ℚ) ^ q - |x|) := by
    split_ifs with hneg
    · rw [abs_of_neg hneg, ← abs_neg]
      congr 1
      ring
    · rw [abs_of_nonneg (not_lt.mp hneg)]
  rw [hsign]
  calc abs ((roundHalfEven (|x| / (2 : ℚ) ^ q) : ℚ) * (2 : ℚ) ^ q - |x|)
      ≤ (2 : ℚ) ^ q / 2 := hdist
    _ = (2 : ℚ) ^ (q - 1) := hhalf
    _ ≤ |x| * (2 : ℚ) ^ (-(prec : Int)) + (2 : ℚ) ^ (qmin - 1) := hbound

/-- A positive value below half the smallest subnormal rounds to zero. -/
theorem roundNearestEven_tiny (prec : Nat) (qmin : Int) (x : ℚ) (hprec : 1 ≤ prec)
    (h0 : 0 ≤ x) (hx : x < (2 : ℚ) ^ (qmin - 1)) :
    roundNearestEven prec qmin x = 0 := by
  by_cases hz : x = 0
  · simp [roundNearestEven, hz]
  have hpos : 0 < x := lt_of_le_of_ne h0 (Ne.symm hz)
  have habs : |x| = x := abs_of_pos hpos
  have hlog := floorLog2_le x hpos
  have hlt : floorLog2 x < qmin - 1 :=
    (zpow_lt_zpow_iff_right₀ (by norm_num : (1 : ℚ) < 2)).mp (lt_of_le_of_lt hlog hx)
  have hq : max (floorLog2 x - (prec : Int) + 1) qmin = qmin := by
    apply max_eq_right
    omega
  unfold roundNearestEven
  simp only [hz, if_false, habs, hq, pow2_eq]
  have hqpos : (0 : ℚ) < (2 : ℚ) ^ qmin := zpow_pos (by norm_num) qmin
  have hm : x / (2 : ℚ) ^ qmin < 1 / 2 := by
    rw [div_lt_iff₀ hqpos]
    have : (2 : ℚ) ^ (qmin - 1) = (2 : ℚ) ^ qmin / 2 := by
      rw [zpow_sub₀ (by norm_num : (2 : ℚ) ≠ 0), zpow_one]
    rw [this] at hx
    linarith
  have hm0 : 0 ≤ x / (2 : ℚ) ^ qmin := div_nonneg h0 (le_of_lt hqpos)
  have hfloor : Int.floor (x / (2 : ℚ) ^ qmin) = 0 := by
    rw [Int.floor_eq_iff]
    constructor
    · simpa using hm0
    · simp only [Int.cast_zero, zero_add]
      linarith
  have hround : roundHalfEven (x / (2 : ℚ) ^ qmin) = 0 := by
    unfold roundHalfEven
    have hfl : Rat.floor (x / (2 : ℚ) ^ qmin) = Int.floor (x / (2 : ℚ) ^ qmin) := rfl
    simp only [hfl, hfloor, Int.cast_zero, sub_zero, hm, if_true]
  rw [hround]
  simp [not_lt.mpr h0]

theorem roundFloat32_error (x : ℚ) :
    |roundFloat32 x - x| ≤ |x| / 2 ^ 24 + 1 / 2 ^ 150 := by
  have h := roundNearestEven_error 24 (-149) x
  have h1 : (2 : ℚ) ^ (-((24 : Nat) : Int)) = 1 / 2 ^ 24 := by
    rw [zpow_neg, zpow_natCast, one_div]
  have h2 : (2 : ℚ) ^ ((-149 : Int) - 1) = 1 / 2 ^ 150 := by
    rw [show ((-149 : Int) - 1) = -((150 : Nat) : Int) from rfl, zpow_neg, zpow_natCast, one_div]
  rw [h1, h2] at h
  unfold roundFloat32
  calc |roundNearestEven 24 (-149) x - x| ≤ |x| * (1 / 2 ^ 24) + 1 / 2 ^ 150 := h
    _ = |x| / 2 ^ 24 + 1 / 2 ^ 150 := by ring

theorem roundFloat64_error (x : ℚ) :
    |roundFloat64 x - x| ≤ |x| / 2 ^ 53 + 1 / 2 ^ 1075 := by
  have h := roundNearestEven_error 53 (-1074) x
  have h1 : (2 : ℚ) ^ (-((53 : Nat) : Int)) = 1 / 2 ^ 53 := by
    rw [zpow_neg, zpow_natCast, one_div]
  have h2 : (2 : ℚ) ^ ((-1074 : Int) - 1) = 1 / 2 ^ 1075 := by
    rw [show ((-1074 : Int) - 1) = -((1075 : Nat) : Int) from rfl, zpow_neg, zpow_natCast,
      one_div]
  rw [h1, h2] at h
  unfold roundFloat64
  calc |roundNearestEven 53 (-1074) x - x| ≤ |x| * (1 / 2 ^ 53) + 1 / 2 ^ 1075 := h
    _ = |x| / 2 ^ 53 + 1 / 2 ^ 1075 := by ring

theorem roundFloat32_tiny (x : ℚ) (h0 : 0 ≤ x) (hx : x < 1 / 2 ^ 150) : roundFloat32 x = 0 := by
  apply roundNearestEven_tiny 24 (-149) x (by norm_num) h0
  rw [show ((-149 : Int) - 1) = -((150 : Nat) : Int) from rfl, zpow_neg, zpow_natCast, ← one_div]
  exact hx

/-! ## The value read against the value denoted -/

theorem literalDigitVal_lt (hex : Bool) (c : Char) (h : isLiteralDigit hex c = true) :
    literalDigitVal c < (if hex then 16 else 10) := by
  unfold literalDigitVal
  by_cases hd : isDigit c = true
  · rw [if_pos hd]
    simp only [isDigit, Bool.and_eq_true, decide_eq_true_eq] at hd
    unfold digitVal
    split_ifs <;> omega
  · rw [if_neg hd]
    have hd2 : isDigit c = false := by simpa using hd
    simp only [isLiteralDigit, hd2, Bool.false_or, Bool.and_eq_true] at h
    obtain ⟨hhex, hlet⟩ := h
    simp only [isHexLetter, Bool.or_eq_true, Bool.and_eq_true, decide_eq_true_eq] at hlet
    rw [if_pos hhex]
    unfold hexLetterVal
    split_ifs <;> omega

theorem foldl_numeral_lt (B : Nat) (ds : List Char) (hd : ∀ c ∈ ds, literalDigitVal c < B)
    (n : Nat) :
    ds.foldl (fun n c => n * B + literalDigitVal c) n + 1 ≤ (n + 1) * B ^ ds.length := by
  induction ds generalizing n with
  | nil => simp
  | cons c ds ih =>
    have hc := hd c (List.mem_cons_self _ _)
    have h := ih (fun x hx => hd x (List.mem_cons_of_mem _ hx)) (n * B + literalDigitVal c)
    simp only [List.foldl_cons, List.length_cons]
    calc List.foldl (fun n c => n * B + literalDigitVal c) (n * B + literalDigitVal c) ds + 1
        ≤ (n * B + literalDigitVal c + 1) * B ^ ds.length := h
      _ ≤ ((n + 1) * B) * B ^ ds.length := by
          apply Nat.mul_le_mul_right
          have : (n + 1) * B = n * B + B := by ring
          omega
      _ = (n + 1) * B ^ (ds.length + 1) := by ring

theorem numeral_lt (hex : Bool) (ds : List Char) (hd : ∀ c ∈ ds, isLiteralDigit hex c = true) :
    numeral (if hex then 16 else 10) ds < (if hex then 16 else 10) ^ ds.length := by
  have h := foldl_numeral_lt (if hex then 16 else 10) ds
    (fun c hc => literalDigitVal_lt hex c (hd c hc)) 0
  unfold numeral
  simp only [zero_add, one_mul] at h
  omega

theorem literal_digits (hex : Bool) (t : List Char) :
    (∀ c ∈ integerPart hex t ++ fractionPart hex t, isLiteralDigit hex c = true)
      ∧ (integerPart hex t ++ fractionPart hex t).length ≤ t.length
      ∧ (fractionPart hex t).length ≤ t.length := by
  have hsplit : (t.takeWhile (isLiteralDigit hex)).length
      + (t.dropWhile (isLiteralDigit hex)).length = t.length := by
    rw [← List.length_append, List.takeWhile_append_dropWhile]
  have hfrac : (fractionPart hex t).length ≤ (t.dropWhile (isLiteralDigit hex)).length := by
    unfold fractionPart
    cases t.dropWhile (isLiteralDigit hex) with
    | nil => simp
    | cons c rest =>
      dsimp only
      split_ifs
      · have := (List.takeWhile_sublist (isLiteralDigit hex) (l := rest)).length_le
        simp only [List.length_cons]
        omega
      · simp
  refine ⟨?_, ?_, ?_⟩
  · intro c hc
    rcases List.mem_append.mp hc with h | h
    · exact List.mem_takeWhile_imp h
    · unfold fractionPart at h
      cases hdrop : t.dropWhile (isLiteralDigit hex) with
      | nil => simp [hdrop] at h
      | cons d rest =>
        rw [hdrop] at h
        dsimp only at h
        split_ifs at h
        · exact List.mem_takeWhile_imp h
        · simp at h
  · rw [List.length_append]
    unfold integerPart
    omega
  · omega

theorem literalBody_length (s : List Char) : (literalBody s).length ≤ s.length := by
  have hds : (dropSign s).length ≤ s.length := by
    cases s with
    | nil => simp [dropSign]
    | cons c rest =>
      have h : dropSign (c :: rest) = if c = '+' ∨ c = '-' then rest else c :: rest := rfl
      rw [h]
      split_ifs <;> simp
  have hf : ∀ l : List Char, (removeUnderscores l).length ≤ l.length :=
    fun l => List.length_filter_le _ l
  unfold literalBody
  split_ifs
  · have := hf ((dropSign s).drop 2)
    have := List.length_drop 2 (dropSign s)
    omega
  · have := hf (dropSign s)
    omega

theorem float32Overflow_le_pow2 : float32Overflow ≤ (2 : ℚ) ^ (128 : Int) := by
  rw [show (128 : Int) = ((128 : Nat) : Int) from rfl, zpow_natCast]
  unfold float32Overflow
  norm_num

theorem float32Overflow_le_pow10 : float32Overflow ≤ (10 : ℚ) ^ (39 : Int) := by
  rw [show (39 : Int) = ((39 : Nat) : Int) from rfl, zpow_natCast]
  unfold float32Overflow
  norm_num

theorem scaledDigits_zero (hex : Bool) (F : Nat) (e : Int) : scaledDigits hex 0 F e = 0 := by
  unfold scaledDigits
  split_ifs <;> simp

/-- The exponent loop stops accumulating at 10000. For a literal of `D` digits,
at most 800, this changes nothing that `ParseFloat` can see: the value read and the
value denoted are equal, or both are beyond the `float32` range, or both are
below half the smallest subnormal. -/
theorem scaledDigits_cap (hex : Bool) (N F D : Nat) (E e : Int)
    (hN : N < (if hex then 16 else 10) ^ D) (hD : D ≤ 800) (hF : F ≤ 800)
    (h : readsExponentAs E e) :
    scaledDigits hex N F e = scaledDigits hex N F E
      ∨ (float32Overflow ≤ scaledDigits hex N F e ∧ float32Overflow ≤ scaledDigits hex N F E)
      ∨ ((0 ≤ scaledDigits hex N F e ∧ scaledDigits hex N F e < 1 / 2 ^ 150)
          ∧ (0 ≤ scaledDigits hex N F E ∧ scaledDigits hex N F E < 1 / 2 ^ 150)) := by
  by_cases hzero : N = 0
  · left
    rw [hzero, scaledDigits_zero, scaledDigits_zero]
  have hN1 : (1 : ℚ) ≤ (N : ℚ) := by exact_mod_cast Nat.one_le_iff_ne_zero.mpr hzero
  have hN0 : (0 : ℚ) ≤ (N : ℚ) := by linarith
  have hbig : ∀ (B : ℚ) (z : Int), 1 ≤ B → ∀ w : Int, w ≤ z → B ^ w ≤ (N : ℚ) * B ^ z := by
    intro B z hB w hw
    have h1 : B ^ w ≤ B ^ z := zpow_le_zpow_right₀ hB hw
    have h2 : (0 : ℚ) ≤ B ^ z := le_of_lt (zpow_pos (by linarith) z)
    calc B ^ w ≤ B ^ z := h1
      _ = 1 * B ^ z := (one_mul _).symm
      _ ≤ (N : ℚ) * B ^ z := mul_le_mul_of_nonneg_right hN1 h2
  have hsmall : ∀ (B : ℚ) (M : Nat) (z w : Int), 1 ≤ B → (N : ℚ) < B ^ M → z + M ≤ w →
      (N : ℚ) * B ^ z < B ^ w := by
    intro B M z w hB hlt hw
    have hBpos : (0 : ℚ) < B := by linarith
    have h1 : (N : ℚ) * B ^ z < B ^ M * B ^ z :=
      mul_lt_mul_of_pos_right hlt (zpow_pos hBpos z)
    have h2 : B ^ M * B ^ z = B ^ ((M : Int) + z) := by
      rw [zpow_add₀ (ne_of_gt hBpos), zpow_natCast]
    have h3 : B ^ ((M : Int) + z) ≤ B ^ w := zpow_le_zpow_right₀ hB (by omega)
    linarith
  have hnn : ∀ (B : ℚ) (z : Int), 0 < B → 0 ≤ (N : ℚ) * B ^ z :=
    fun B z hB => mul_nonneg hN0 (le_of_lt (zpow_pos hB z))
  have htiny2 : (2 : ℚ) ^ (-150 : Int) = 1 / 2 ^ 150 := by
    rw [show (-150 : Int) = -((150 : Nat) : Int) from rfl, zpow_neg, zpow_natCast, one_div]
  have htiny10 : (10 : ℚ) ^ (-50 : Int) ≤ 1 / 2 ^ 150 := by
    rw [show (-50 : Int) = -((50 : Nat) : Int) from rfl, zpow_neg, zpow_natCast]
    norm_num
  rcases h with h | ⟨h1, h2⟩ | ⟨h1, h2⟩
  · left
    rw [h]
  · right
    left
    unfold scaledDigits
    cases hex with
    | true =>
      simp only [if_true, pow2_eq]
      have ha := hbig 2 (e - 4 * F) (by norm_num) 128 (by omega)
      have hb := hbig 2 (E - 4 * F) (by norm_num) 128 (by omega)
      have := float32Overflow_le_pow2
      constructor <;> linarith
    | false =>
      simp only [Bool.false_eq_true, if_false, pow10_eq]
      have ha := hbig 10 (e - F) (by norm_num) 39 (by omega)
      have hb := hbig 10 (E - F) (by norm_num) 39 (by omega)
      have := float32Overflow_le_pow10
      constructor <;> linarith
  · right
    right
    unfold scaledDigits
    cases hex with
    | true =>
      simp only [if_true, pow2_eq]
      have hN16 : (N : ℚ) < (2 : ℚ) ^ 3200 := by
        rw [if_pos rfl] at hN
        have h1 : (N : ℚ) < ((16 : Nat) : ℚ) ^ D := by
          rw [← Nat.cast_pow]
          exact Nat.cast_lt.mpr hN
        have h16 : ((16 : Nat) : ℚ) = (2 : ℚ) ^ 4 := by norm_num
        have h2 : ((16 : Nat) : ℚ) ^ D ≤ (2 : ℚ) ^ 3200 := by
          rw [h16, ← pow_mul]
          exact pow_le_pow_right₀ (by norm_num) (by omega)
        exact lt_of_lt_of_le h1 h2
      have ha := hsmall 2 3200 (e - 4 * F) (-150) (by norm_num) hN16 (by push_cast; omega)
      have hb := hsmall 2 3200 (E - 4 * F) (-150) (by norm_num) hN16 (by push_cast; omega)
      rw [htiny2] at ha hb
      exact ⟨⟨hnn 2 _ (by norm_num), ha⟩, ⟨hnn 2 _ (by norm_num), hb⟩⟩
    | false =>
      simp only [Bool.false_eq_true, if_false, pow10_eq]
      have hN10 : (N : ℚ) < (10 : ℚ) ^ 800 := by
        rw [if_neg (by decide)] at hN
        have h1 : (N : ℚ) < ((10 : Nat) : ℚ) ^ D := by
          rw [← Nat.cast_pow]
          exact Nat.cast_lt.mpr hN
        have h10 : ((10 : Nat) : ℚ) = 10 := by norm_num
        have h2 : ((10 : Nat) : ℚ) ^ D ≤ (10 : ℚ) ^ 800 := by
          rw [h10]
          exact pow_le_pow_right₀ (by norm_num) hD
        exact lt_of_lt_of_le h1 h2
      have ha := hsmall 10 800 (e - F) (-50) (by norm_num) hN10 (by push_cast; omega)
      have hb := hsmall 10 800 (E - F) (-50) (by norm_num) hN10 (by push_cast; omega)
      exact ⟨⟨hnn 10 _ (by norm_num), lt_of_lt_of_le ha htiny10⟩,
        ⟨hnn 10 _ (by norm_num), lt_of_lt_of_le hb htiny10⟩⟩

theorem roundNearestEven_neg (prec : Nat) (qmin : Int) (x : ℚ) :
    roundNearestEven prec qmin (-x) = -(roundNearestEven prec qmin x) := by
  by_cases hx : x = 0
  · simp [roundNearestEven, hx]
  have hnx : -x ≠ 0 := neg_ne_zero.mpr hx
  unfold roundNearestEven
  simp only [hx, hnx, if_false, abs_neg]
  rcases lt_or_gt_of_ne hx with h | h
  · have h2 : ¬ (-x < 0) := by linarith
    simp [h, h2]
  · have h1 : ¬ (x < 0) := by linarith
    have h2 : -x < 0 := by linarith
    simp [h1, h2]

/-- `ParseFloat` on a text of at most 800 bytes that is none of the special
spellings: a syntax error unless the text is a floating-point literal, a range
error when the magnitude the literal denotes reaches `float32Overflow`, else
the denoted value rounded to the nearest `float32`. -/
theorem ParseFloat_literal (s : List Char) (hlen : s.length ≤ 800)
    (hspecial : isSpecialSpelling s = false) :
    ParseFloat s =
      if isFloatLiteral s = true then
        if float32Overflow ≤ literalMagnitude s then .error .errRange
        else .ok (.finite (roundFloat32 (literalValue s)))
      else .error .errSyntax := by
  have hnone : special s = none := by
    have := special_isSome s
    rw [hspecial] at this
    exact Option.not_isSome_iff_eq_none.mp (by simp [this])
  obtain ⟨hyes, hno⟩ := readFloat_literal s
  unfold ParseFloat
  rw [hnone]
  dsimp only
  by_cases hlit : isFloatLiteral s = true
  · obtain ⟨e, hread, hfloat⟩ := hyes hlit
    obtain ⟨hdigits, hlen1, hlen2⟩ := literal_digits (literalHex s) (literalBody s)
    have hbody := literalBody_length s
    have hN := numeral_lt (literalHex s) _ hdigits
    have hcap := scaledDigits_cap (literalHex s) _ _ _ _ e hN
      (by omega : (integerPart (literalHex s) (literalBody s)
        ++ fractionPart (literalHex s) (literalBody s)).length ≤ 800)
      (by omega : (fractionPart (literalHex s) (literalBody s)).length ≤ 800) hread
    have hmag : literalMagnitude s = scaledDigits (literalHex s)
        (numeral (if literalHex s then 16 else 10)
          (integerPart (literalHex s) (literalBody s)
            ++ fractionPart (literalHex s) (literalBody s)))
        (fractionPart (literalHex s) (literalBody s)).length
        (exponentValue (exponentPart (literalHex s) (literalBody s))) := rfl
    rw [hfloat, if_pos hlit]
    dsimp only
    rw [← hmag] at hcap
    generalize scaledDigits (literalHex s)
        (numeral (if literalHex s then 16 else 10)
          (integerPart (literalHex s) (literalBody s)
            ++ fractionPart (literalHex s) (literalBody s)))
        (fractionPart (literalHex s) (literalBody s)).length e = v at hcap ⊢
    have hval : (if decide (s.head? = some '-') = true then -(roundFloat32 (literalMagnitude s))
        else roundFloat32 (literalMagnitude s)) = roundFloat32 (literalValue s) := by
      unfold literalValue
      by_cases hh : s.head? = some '-'
      · simp only [hh, decide_True, if_true]
        exact (roundNearestEven_neg 24 (-149) _).symm
      · simp only [hh, decide_False, if_false, Bool.false_eq_true]
    rcases hcap with hc | ⟨hc1, hc2⟩ | ⟨⟨hc1, hc2⟩, ⟨hc3, hc4⟩⟩
    · rw [hc]
      by_cases hov : float32Overflow ≤ literalMagnitude s
      · rw [if_pos hov, if_pos hov]
      · rw [if_neg hov, if_neg hov, hval]
    · rw [if_pos hc1, if_pos hc2]
    · have hsmall : (1 : ℚ) / 2 ^ 150 < float32Overflow := by
        unfold float32Overflow
        norm_num
      have e1 : ¬ float32Overflow ≤ v := not_le.mpr (by linarith)
      have e2 : ¬ float32Overflow ≤ literalMagnitude s := not_le.mpr (by linarith)
      rw [if_neg e1, if_neg e2, ← hval, roundFloat32_tiny v hc1 hc2,
        roundFloat32_tiny _ hc3 hc4]
  · have hlit2 : isFloatLiteral s = false := by simpa using hlit
    rw [hno hlit2, if_neg hlit]

/-! ## The accumulated rounding error of the percentage arithmetic -/

theorem roundHalfEven_nonneg (m : ℚ) (hm : 0 ≤ m) : 0 ≤ roundHalfEven m := by
  have hf : 0 ≤ Int.floor m := Int.floor_nonneg.mpr hm
  have hfl : Rat.floor m = Int.floor m := rfl
  unfold roundHalfEven
  simp only [hfl]
  split_ifs <;> omega

theorem roundHalfEven_le_int (m : ℚ) (M : Int) (hm : m ≤ (M : ℚ)) : roundHalfEven m ≤ M := by
  have hfl : Rat.floor m = Int.floor m := rfl
  have hf : Int.floor m ≤ M := Int.floor_le_iff.mpr (by linarith)
  have hf1 : ((Int.floor m : Int) : ℚ) ≤ m := Int.floor_le m
  by_cases heq : Int.floor m = M
  · have hr : m - ((Int.floor m : Int) : ℚ) < 1 / 2 := by
      rw [heq]
      linarith
    unfold roundHalfEven
    simp only [hfl, hr, if_true]
    omega
  · have hlt : Int.floor m + 1 ≤ M := by omega
    unfold roundHalfEven
    simp only [hfl]
    split_ifs <;> omega

theorem roundNearestEven_nonneg (prec : Nat) (qmin : Int) (x : ℚ) (hx : 0 ≤ x) :
    0 ≤ roundNearestEven prec qmin x := by
  by_cases h0 : x = 0
  · simp [roundNearestEven, h0]
  unfold roundNearestEven
  simp only [h0, if_false, not_lt.mpr hx, pow2_eq]
  have hq : (0 : ℚ) < (2 : ℚ) ^ (max (floorLog2 |x| - (prec : Int) + 1) qmin) :=
    zpow_pos (by norm_num) _
  have hm : (0 : ℚ) ≤ |x| / (2 : ℚ) ^ (max (floorLog2 |x| - (prec : Int) + 1) qmin) :=
    div_nonneg (abs_nonneg x) (le_of_lt hq)
  have := roundHalfEven_nonneg _ hm
  have hcast : (0 : ℚ) ≤ (roundHalfEven
      (|x| / (2 : ℚ) ^ (max (floorLog2 |x| - (prec : Int) + 1) qmin)) : ℚ) := by
    exact_mod_cast this
  exact mul_nonneg hcast (le_of_lt hq)

/-- Rounding does not cross a value of the format: a magnitude of at most
`K * 2^j`, with `K` a significand of the format and `2^j` at least the smallest
subnormal, rounds to a magnitude of at most `K * 2^j`. -/
theorem roundNearestEven_abs_le (prec : Nat) (qmin : Int) (x : ℚ) (K : Nat) (j : Int)
    (hK : K < 2 ^ prec) (hj : qmin ≤ j) (hx : |x| ≤ (K : ℚ) * (2 : ℚ) ^ j) :
    |roundNearestEven prec qmin x| ≤ (K : ℚ) * (2 : ℚ) ^ j := by
  have hjpos : (0 : ℚ) < (2 : ℚ) ^ j := zpow_pos (by norm_num) j
  have hKj : (0 : ℚ) ≤ (K : ℚ) * (2 : ℚ) ^ j := mul_nonneg (Nat.cast_nonneg K) (le_of_lt hjpos)
  by_cases h0 : x = 0
  · simp only [roundNearestEven, h0, if_true, abs_zero]
    exact hKj
  have ha : (0 : ℚ) < |x| := abs_pos.mpr h0
  have hlog := floorLog2_le |x| ha
  have hKlt : (K : ℚ) < (2 : ℚ) ^ (prec : Int) := by
    rw [zpow_natCast]
    exact_mod_cast hK
  have hbound : (2 : ℚ) ^ floorLog2 |x| < (2 : ℚ) ^ ((prec : Int) + j) := by
    rw [zpow_add₀ (by norm_num : (2 : ℚ) ≠ 0)]
    calc (2 : ℚ) ^ floorLog2 |x| ≤ |x| := hlog
      _ ≤ (K : ℚ) * (2 : ℚ) ^ j := hx
      _ < (2 : ℚ) ^ (prec : Int) * (2 : ℚ) ^ j := mul_lt_mul_of_pos_right hKlt hjpos
  have hL : floorLog2 |x| < (prec : Int) + j :=
    (zpow_lt_zpow_iff_right₀ (by norm_num : (1 : ℚ) < 2)).mp hbound
  have hqj : max (floorLog2 |x| - (prec : Int) + 1) qmin ≤ j := max_le (by omega) hj
  unfold roundNearestEven
  simp only [h0, if_false, pow2_eq]
  generalize max (floorLog2 |x| - (prec : Int) + 1) qmin = q at hqj
  have hqpos : (0 : ℚ) < (2 : ℚ) ^ q := zpow_pos (by norm_num) q
  obtain ⟨n, hn⟩ := Int.eq_ofNat_of_zero_le (by omega : 0 ≤ j - q)
  have hjq : (2 : ℚ) ^ j = (2 : ℚ) ^ n * (2 : ℚ) ^ q := by
    rw [← zpow_natCast, ← zpow_add₀ (by norm_num : (2 : ℚ) ≠ 0), ← hn]
    congr 1
    omega
  have hm : |x| / (2 : ℚ) ^ q ≤ (((K * 2 ^ n : Nat) : Int) : ℚ) := by
    rw [div_le_iff₀ hqpos]
    push_cast
    rw [mul_assoc, ← hjq]
    exact hx
  have hround := roundHalfEven_le_int _ _ hm
  have hround0 := roundHalfEven_nonneg (|x| / (2 : ℚ) ^ q) (div_nonneg (le_of_lt ha) (le_of_lt hqpos))
  have hr0 : (0 : ℚ) ≤ (roundHalfEven (|x| / (2 : ℚ) ^ q) : ℚ) := by exact_mod_cast hround0
  have hr1 : (roundHalfEven (|x| / (2 : ℚ) ^ q) : ℚ) ≤ (K : ℚ) * (2 : ℚ) ^ n := by
    have : (roundHalfEven (|x| / (2 : ℚ) ^ q) : ℚ) ≤ (((K * 2 ^ n : Nat) : Int) : ℚ) := by
      exact_mod_cast hround
    simpa using this
  have hle : (roundHalfEven (|x| / (2 : ℚ) ^ q) : ℚ) * (2 : ℚ) ^ q ≤ (K : ℚ) * (2 : ℚ) ^ j := by
    rw [hjq, ← mul_assoc]
    exact mul_le_mul_of_nonneg_right hr1 (le_of_lt hqpos)
  have hge : (0 : ℚ) ≤ (roundHalfEven (|x| / (2 : ℚ) ^ q) : ℚ) * (2 : ℚ) ^ q :=
    mul_nonneg hr0 (le_of_lt hqpos)
  split_ifs
  · rw [abs_neg, abs_of_nonneg hge]
    exact hle
  · rw [abs_of_nonneg hge]
    exact hle

/-- Rounding keeps a lower bound that is a value of the format. -/
theorem roundNearestEven_ge (prec : Nat) (qmin : Int) (x : ℚ) (K : Nat) (j : Int)
    (hK : K < 2 ^ prec) (hj : qmin ≤ j) (hx : -((K : ℚ) * (2 : ℚ) ^ j) ≤ x) :
    -((K : ℚ) * (2 : ℚ) ^ j) ≤ roundNearestEven prec qmin x := by
  have hKj : (0 : ℚ) ≤ (K : ℚ) * (2 : ℚ) ^ j :=
    mul_nonneg (Nat.cast_nonneg K) (le_of_lt (zpow_pos (by norm_num) j))
  by_cases h0 : 0 ≤ x
  · have := roundNearestEven_nonneg prec qmin x h0
    linarith
  · have hneg : x < 0 := not_le.mp h0
    have habs : |x| ≤ (K : ℚ) * (2 : ℚ) ^ j := by
      rw [abs_of_neg hneg]
      linarith
    have := roundNearestEven_abs_le prec qmin x K j hK hj habs
    have := neg_abs_le (roundNearestEven prec qmin x)
    linarith

theorem roundFloat64_nonneg (x : ℚ) (hx : 0 ≤ x) : 0 ≤ roundFloat64 x :=
  roundNearestEven_nonneg 53 (-1074) x hx

theorem roundFloat64_step (x1 x E A : ℚ) (hE : |x1 - x| ≤ E) (hA : |x| ≤ A) :
    |roundFloat64 x1 - x| ≤ E + (A + E) / 2 ^ 53 + 1 / 2 ^ 1075 := by
  have h1 := roundFloat64_error x1
  have h2 : |roundFloat64 x1 - x| ≤ |roundFloat64 x1 - x1| + |x1 - x| := abs_sub_le _ _ _
  have h3 : |x1| ≤ |x| + |x1 - x| := by
    have := abs_add x (x1 - x)
    simpa using this
  have h4 : |x1| / 2 ^ 53 ≤ (A + E) / 2 ^ 53 :=
    div_le_div_of_nonneg_right (by linarith) (by norm_num)
  linarith

/-- The floating-point evaluation stays within `percentMargin` of the exact
value `current * (1 + p/100) + 1/2`. -/
theorem percentFloatValue_error (current : Int) (p : ℚ) (hc : 0 ≤ current) :
    |percentFloatValue current p - ((current : ℚ) * (1 + p / 100) + 1 / 2)|
      ≤ percentMargin current p := by
  have hc0 : (0 : ℚ) ≤ (current : ℚ) := by exact_mod_cast hc
  have ha : (0 : ℚ) ≤ |p| := abs_nonneg p
  unfold percentFloatValue percentMargin
  generalize (current : ℚ) = c at hc0 ⊢
  have h1 := roundFloat32_error p
  generalize roundFloat32 p = p1 at h1 ⊢
  generalize hadef : |p| = a at h1 ha ⊢
  have hr : |1 + p / 100| ≤ 1 + a / 100 := by
    have h := abs_add (1 : ℚ) (p / 100)
    have h2 : |p / 100| = a / 100 := by rw [abs_div, hadef]; norm_num
    rw [abs_one, h2] at h
    exact h
  have h2 := roundFloat64_step (p1 / 100) (p / 100) ((a / 2 ^ 24 + 1 / 2 ^ 150) / 100) (a / 100)
    (by
      rw [← sub_div, abs_div]
      have : |(100 : ℚ)| = 100 := by norm_num
      rw [this]
      exact div_le_div_of_nonneg_right h1 (by norm_num))
    (by rw [abs_div, hadef]; norm_num)
  generalize roundFloat64 (p1 / 100) = d at h2 ⊢
  generalize hE2 : (a / 2 ^ 24 + 1 / 2 ^ 150) / 100
    + (a / 100 + (a / 2 ^ 24 + 1 / 2 ^ 150) / 100) / 2 ^ 53 + 1 / 2 ^ 1075 = E2 at h2
  have h3 := roundFloat64_step (1 + d) (1 + p / 100) E2 (1 + a / 100)
    (by
      have : 1 + d - (1 + p / 100) = d - p / 100 := by ring
      rw [this]
      exact h2)
    hr
  generalize roundFloat64 (1 + d) = s at h3 ⊢
  generalize hE3 : E2 + (1 + a / 100 + E2) / 2 ^ 53 + 1 / 2 ^ 1075 = E3 at h3
  have h4 := roundFloat64_step c c 0 c (by simp) (by rw [abs_of_nonneg hc0])
  generalize roundFloat64 c = c1 at h4 ⊢
  generalize hE4 : (0 : ℚ) + (c + 0) / 2 ^ 53 + 1 / 2 ^ 1075 = E4 at h4
  have hE2nn : 0 ≤ E2 := le_trans (abs_nonneg _) h2
  have hE3nn : 0 ≤ E3 := le_trans (abs_nonneg _) h3
  have hE4nn : 0 ≤ E4 := le_trans (abs_nonneg _) h4
  have hc1 : |c1| ≤ c + E4 := by
    have h := abs_add c (c1 - c)
    rw [abs_of_nonneg hc0] at h
    have : c + (c1 - c) = c1 := by ring
    rw [this] at h
    linarith
  have hprod : |c1 * s - c * (1 + p / 100)| ≤ E4 * (1 + a / 100) + (c + E4) * E3 := by
    have hsplit : c1 * s - c * (1 + p / 100)
        = (c1 - c) * (1 + p / 100) + c1 * (s - (1 + p / 100)) := by ring
    rw [hsplit]
    calc |(c1 - c) * (1 + p / 100) + c1 * (s - (1 + p / 100))|
        ≤ |(c1 - c) * (1 + p / 100)| + |c1 * (s - (1 + p / 100))| := abs_add _ _
      _ = |c1 - c| * |1 + p / 100| + |c1| * |s - (1 + p / 100)| := by rw [abs_mul, abs_mul]
      _ ≤ E4 * (1 + a / 100) + (c + E4) * E3 := by
          have t1 := mul_le_mul h4 hr (abs_nonneg _) hE4nn
          have t2 := mul_le_mul hc1 h3 (abs_nonneg _) (by linarith)
          linarith
  have hcr : |c * (1 + p / 100)| ≤ c * (1 + a / 100) := by
    rw [abs_mul, abs_of_nonneg hc0]
    exact mul_le_mul_of_nonneg_left hr hc0
  have h5 := roundFloat64_step (c1 * s) (c * (1 + p / 100)) _ _ hprod hcr
  generalize roundFloat64 (c1 * s) = m at h5 ⊢
  generalize hE5 : E4 * (1 + a / 100) + (c + E4) * E3
    + (c * (1 + a / 100) + (E4 * (1 + a / 100) + (c + E4) * E3)) / 2 ^ 53 + 1 / 2 ^ 1075
      = E5 at h5
  have h6 := roundFloat64_step (m + 1 / 2) (c * (1 + p / 100) + 1 / 2) E5
    (c * (1 + a / 100) + 1 / 2)
    (by
      have : m + 1 / 2 - (c * (1 + p / 100) + 1 / 2) = m - c * (1 + p / 100) := by ring
      rw [this]
      exact h5)
    (by
      have h := abs_add (c * (1 + p / 100)) (1 / 2)
      have : |(1 / 2 : ℚ)| = 1 / 2 := by norm_num
      rw [this] at h
      linarith)
  refine le_trans h6 ?_
  have hac : 0 ≤ a * c := mul_nonneg ha hc0
  rw [← hE5, ← hE4, ← hE3, ← hE2]
  nlinarith [hac, ha, hc0]

/-! ## A floating-point literal is none of the special spellings -/

theorem isFloatLiteral_head (s : List Char) (c : Char) (rest : List Char)
    (hs : dropSign s = c :: rest) (hdigit : isDigit c = false) (hdot : c ≠ '.')
    (hund : c ≠ '_') : isFloatLiteral s = false := by
  have hhex : hasHexPrefix (c :: rest) = false := by
    cases rest with
    | nil => rfl
    | cons c1 r =>
      simp only [hasHexPrefix, decide_eq_false_iff_not, not_and]
      intro h0
      subst h0
      exact absurd hdigit (by decide)
  have hl : isLiteralDigit false c = false := by simp [isLiteralDigit, hdigit]
  unfold isFloatLiteral
  rw [hs, hhex]
  simp only [Bool.false_eq_true, if_false]
  rw [removeUnderscores_cons_of_ne _ _ hund]
  simp [isPlainNumber, integerPart, fractionPart, List.takeWhile_cons, List.dropWhile_cons, hl,
    hdot]

theorem letter_not_numeric (c : Char) (h : lowerAscii c = 'i' ∨ lowerAscii c = 'n') :
    isDigit c = false ∧ c ≠ '.' ∧ c ≠ '_' ∧ c ≠ '+' ∧ c ≠ '-' := by
  rcases h with h | h <;> rcases lowerAscii_eq_cases c _ h with rfl | ⟨_, _, rfl⟩ <;> decide

theorem sign_of_lowerAscii (c x : Char) (hx : x = '+' ∨ x = '-') (h : lowerAscii c = x) :
    c = x := by
  rcases lowerAscii_eq_cases c x h with hc | ⟨h1, _, _⟩
  · exact hc
  · rcases hx with rfl | rfl <;> exact absurd h1 (by decide)

theorem isSpecialSpelling_of_isFloatLiteral (s : List Char) (h : isFloatLiteral s = true) :
    isSpecialSpelling s = false := by
  have hplain : ∀ (c : Char) (t : List Char), s = c :: t →
      (lowerAscii c = 'i' ∨ lowerAscii c = 'n') → False := by
    intro c t hs hc
    obtain ⟨h1, h2, h3, h4, h5⟩ := letter_not_numeric c hc
    have hds : dropSign s = c :: t := by
      rw [hs]
      have : dropSign (c :: t) = if c = '+' ∨ c = '-' then t else c :: t := rfl
      rw [this, if_neg (by tauto)]
    have := isFloatLiteral_head s c t hds h1 h2 h3
    rw [h] at this
    cases this
  have hsigned : ∀ (c d : Char) (t : List Char), s = c :: d :: t →
      (lowerAscii c = '+' ∨ lowerAscii c = '-') → lowerAscii d = 'i' → False := by
    intro c d t hs hc hd
    obtain ⟨h1, h2, h3, _, _⟩ := letter_not_numeric d (Or.inl hd)
    have hsign : c = '+' ∨ c = '-' := by
      rcases hc with hc | hc
      · exact Or.inl (sign_of_lowerAscii c '+' (Or.inl rfl) hc)
      · exact Or.inr (sign_of_lowerAscii c '-' (Or.inr rfl) hc)
    have hds : dropSign s = d :: t := by
      rw [hs]
      have : dropSign (c :: d :: t) = if c = '+' ∨ c = '-' then d :: t else c :: d :: t := rfl
      rw [this, if_pos hsign]
    have := isFloatLiteral_head s d t hds h1 h2 h3
    rw [h] at this
    cases this
  by_contra hne
  have hsp : isSpecialSpelling s = true := by simpa using hne
  unfold isSpecialSpelling at hsp
  simp only [decide_eq_true_eq, List.mem_cons, List.mem_singleton, List.not_mem_nil,
    or_false] at hsp
  cases s with
  | nil => simp at hsp
  | cons c t =>
    cases t with
    | nil => simp at hsp
    | cons d t2 =>
      simp only [List.map_cons, List.cons.injEq] at hsp
      rcases hsp with h1 | h1 | h1 | h1 | h1 | h1 | h1
      · exact hplain c (d :: t2) rfl (Or.inl h1.1)
      · exact hsigned c d t2 rfl (Or.inl h1.1) h1.2.1
      · exact hsigned c d t2 rfl (Or.inr h1.1) h1.2.1
      · exact hplain c (d :: t2) rfl (Or.inl h1.1)
      · exact hsigned c d t2 rfl (Or.inl h1.1) h1.2.1
      · exact hsigned c d t2 rfl (Or.inr h1.1) h1.2.1
      · exact hplain c (d :: t2) rfl (Or.inr h1.1)

/-! ## C3: percentage adjustments -/

theorem float64ToInt_of_nonneg (x : ℚ) (h0 : 0 ≤ x) (hfit : Int.floor x ≤ maxInt64) :
    float64ToInt x = Int.floor x := by
  have hfl : Rat.floor x = Int.floor x := rfl
  have hnn : 0 ≤ Int.floor x := Int.floor_nonneg.mpr h0
  unfold float64ToInt
  simp only [h0, if_true, hfl]
  unfold minInt64
  rw [if_pos ⟨by omega, hfit⟩]

/-- For a count `current ≥ 0` and a percentage `p ≥ -100` no intermediate value
of the floating-point evaluation is negative. -/
theorem percentFloatValue_nonneg (current : Int) (p : ℚ) (hc : 0 ≤ current)
    (hp : -100 ≤ p) : 0 ≤ percentFloatValue current p := by
  have hc0 : (0 : ℚ) ≤ (current : ℚ) := by exact_mod_cast hc
  have h1 : -100 ≤ roundFloat32 p := by
    have := roundNearestEven_ge 24 (-149) p 25 2 (by norm_num) (by norm_num)
      (by norm_num; linarith)
    have h25 : ((25 : Nat) : ℚ) * (2 : ℚ) ^ (2 : Int) = 100 := by norm_num
    rw [h25] at this
    exact this
  have h2 : -1 ≤ roundFloat64 (roundFloat32 p / 100) := by
    have := roundNearestEven_ge 53 (-1074) (roundFloat32 p / 100) 1 0 (by norm_num)
      (by norm_num) (by norm_num; linarith)
    have h1' : ((1 : Nat) : ℚ) * (2 : ℚ) ^ (0 : Int) = 1 := by norm_num
    rw [h1'] at this
    exact this
  have h3 : 0 ≤ roundFloat64 (1 + roundFloat64 (roundFloat32 p / 100)) :=
    roundFloat64_nonneg _ (by linarith)
  have h4 : 0 ≤ roundFloat64 (current : ℚ) := roundFloat64_nonneg _ hc0
  have h5 := roundFloat64_nonneg _ (mul_nonneg h4 h3)
  unfold percentFloatValue
  exact roundFloat64_nonneg _ (by linarith)

/-- C3 as stated fails. For 50 instances and adjustment `"13%"` the exact
product is 56.5, which rounds half up to 57, but `ComputeNewInstances` returns
56: in `float64` arithmetic `50 * (1 + 13/100)` falls just below 56.5. For
`"1e39%"` the percentage is a decimal number above -100, yet the call fails
with a range error. For `"1e30%"` the exact result `10^28 + 1` fits no `int`,
so the value returned is another one. -/
theorem ComputeNewInstances_percent_counterexample :
    (hasPercentSuffix "13%" = true ∧ isFloatLiteral "13".data = true
        ∧ literalValue "13".data = 13 ∧ (0 : Int) ≤ 50 ∧ (-100 : ℚ) ≤ 13
        ∧ ComputeNewInstances 50 "13%" = (56, none)
        ∧ exactPercentResult 50 13 = 57)
      ∧ (hasPercentSuffix "1e39%" = true ∧ isFloatLiteral "1e39".data = true
        ∧ (-100 : ℚ) ≤ literalValue "1e39".data
        ∧ ComputeNewInstances 1 "1e39%"
            = (-1, some (.numError "ParseFloat" "1e39" .errRange)))
      ∧ (hasPercentSuffix "1e30%" = true ∧ isFloatLiteral "1e30".data = true
        ∧ (-100 : ℚ) ≤ literalValue "1e30".data
        ∧ exactPercentResult 1 (literalValue "1e30".data) = 10000000000000000000000000001
        ∧ (ComputeNewInstances 1 "1e30%").1 ≠ 10000000000000000000000000001) := by
  decide!

/-- C3 (amended): for a current count `current ≥ 0` and an adjustment `"p%"`
of at most 800 bytes, where `p ≥ -100` is a floating-point literal (a decimal
number in particular) below the `float32` range, `ComputeNewInstances` returns
without error the integer part of `y`, the value of
`current * (1 + p/100) + 0.5` in floating point (`p` rounded to `float32`,
every operation rounded to `float64`), provided `y < 2^63`. This `y` is within
`percentMargin current p` of the exact value `x = current * (1 + p/100) + 1/2`.
Hence the result is `floor(x)`, the exact product rounded half up, whenever no
integer lies within that margin of `x`, and also whenever the evaluation is
exact: `p` is a `float32` value and `p/100`, `1 + p/100`, `current`, the
product and `x` are `float64` values. -/
theorem ComputeNewInstances_percent (current : Int) (adjustment : String)
    (hsuffix : hasPercentSuffix adjustment = true)
    (hlen : adjustment.length ≤ 800)
    (hliteral : isFloatLiteral adjustment.data.dropLast = true)
    (hcurrent : 0 ≤ current)
    (hpercent : -100 ≤ literalValue adjustment.data.dropLast)
    (hrange : literalMagnitude adjustment.data.dropLast < float32Overflow)
    (hfit : percentFloatValue current (literalValue adjustment.data.dropLast) < 2 ^ 63) :
    ComputeNewInstances current adjustment
        = (Int.floor (percentFloatValue current (literalValue adjustment.data.dropLast)), none)
      ∧ |percentFloatValue current (literalValue adjustment.data.dropLast)
            - ((current : ℚ) * (1 + literalValue adjustment.data.dropLast / 100) + 1 / 2)|
          ≤ percentMargin current (literalValue adjustment.data.dropLast)
      ∧ (((exactPercentResult current (literalValue adjustment.data.dropLast) : Int) : ℚ)
              + percentMargin current (literalValue adjustment.data.dropLast)
            ≤ (current : ℚ) * (1 + literalValue adjustment.data.dropLast / 100) + 1 / 2
          ∧ (current : ℚ) * (1 + literalValue adjustment.data.dropLast / 100) + 1 / 2
              + percentMargin current (literalValue adjustment.data.dropLast)
            < ((exactPercentResult current (literalValue adjustment.data.dropLast) : Int) : ℚ) + 1 →
          Int.floor (percentFloatValue current (literalValue adjustment.data.dropLast))
            = exactPercentResult current (literalValue adjustment.data.dropLast))
      ∧ (isFloat32Value (literalValue adjustment.data.dropLast)
          ∧ isFloat64Value (literalValue adjustment.data.dropLast / 100)
          ∧ isFloat64Value (1 + literalValue adjustment.data.dropLast / 100)
          ∧ isFloat64Value (current : ℚ)
          ∧ isFloat64Value ((current : ℚ) * (1 + literalValue adjustment.data.dropLast / 100))
          ∧ isFloat64Value
              ((current : ℚ) * (1 + literalValue adjustment.data.dropLast / 100) + 1 / 2) →
          Int.floor (percentFloatValue current (literalValue adjustment.data.dropLast))
            = exactPercentResult current (literalValue adjustment.data.dropLast)) := by
  generalize hbody : adjustment.data.dropLast = body at *
  have hlen2 : body.length ≤ 800 := by
    have h1 : body.length ≤ adjustment.data.length := by
      rw [← hbody, List.length_dropLast]
      omega
    have h2 : adjustment.data.length = adjustment.length := rfl
    omega
  have hparse : ParseFloat body = .ok (.finite (roundFloat32 (literalValue body))) := by
    rw [ParseFloat_literal body hlen2 (isSpecialSpelling_of_isFloatLiteral body hliteral),
      if_pos hliteral, if_neg (not_le.mpr hrange)]
  generalize literalValue body = p at *
  have hy0 := percentFloatValue_nonneg current p hcurrent hpercent
  have herr := percentFloatValue_error current p hcurrent
  have hfloor : Int.floor (percentFloatValue current p) ≤ maxInt64 := by
    have h1 : ((Int.floor (percentFloatValue current p) : Int) : ℚ) < 2 ^ 63 :=
      lt_of_le_of_lt (Int.floor_le _) hfit
    have h2 : Int.floor (percentFloatValue current p) < 2 ^ 63 := by exact_mod_cast h1
    unfold maxInt64
    omega
  refine ⟨?_, herr, ?_, ?_⟩
  · unfold ComputeNewInstances
    rw [hsuffix]
    simp only [if_true, hbody, hparse, percentNewInstances]
    have := float64ToInt_of_nonneg _ hy0 hfloor
    unfold percentFloatValue at this ⊢
    rw [this]
  · rintro ⟨hlow, hhigh⟩
    obtain ⟨h1, h2⟩ := abs_le.mp herr
    unfold exactPercentResult at hlow hhigh ⊢
    rw [Int.floor_eq_iff]
    constructor <;> linarith
  · rintro ⟨hfloat32, hdiv, hratio, hcur64, hprod, hsum⟩
    unfold percentFloatValue exactPercentResult
    rw [roundFloat32_of_isFloat32Value _ hfloat32, roundFloat64_of_isFloat64Value _ hdiv,
      roundFloat64_of_isFloat64Value _ hratio, roundFloat64_of_isFloat64Value _ hcur64,
      roundFloat64_of_isFloat64Value _ hprod, roundFloat64_of_isFloat64Value _ hsum]

/-- C3 witness: `(10, "10%")` gives 11 although `1 + 10/100` is no `float64`
value, since 11.5 is far from every integer; the two examples of the claim,
`(3, "50%")` and `(4, "25%")`, are evaluated exactly and give 5. -/
theorem ComputeNewInstances_percent_witness :
    ComputeNewInstances 10 "10%" = (11, none)
      ∧ ComputeNewInstances 3 "50%" = (5, none)
      ∧ ComputeNewInstances 4 "25%" = (5, none)
      ∧ percentMargin 10 10 < 1 / 1000000 :=
  ⟨(fun h => h.1.trans (congrArg (fun r => (r, (none : Option GoError)))
        ((h.2.2.1 ⟨by decide!, by decide!⟩).trans (by decide!))))
      (ComputeNewInstances_percent 10 "10%" (by decide) (by decide) (by decide) (by decide)
        (by decide!) (by decide!) (by decide!)),
    (fun h => h.1.trans (congrArg (fun r => (r, (none : Option GoError)))
        ((h.2.2.2 (by
          rw [show literalValue "50%".data.dropLast = 50 from by decide!]
          exact ⟨⟨50, 0, by decide, by decide, by decide, by norm_num⟩,
            ⟨1, -1, by decide, by decide, by decide, by norm_num⟩,
            ⟨3, -1, by decide, by decide, by decide, by norm_num⟩,
            ⟨3, 0, by decide, by decide, by decide, by norm_num⟩,
            ⟨9, -1, by decide, by decide, by decide, by norm_num⟩,
            ⟨5, 0, by decide, by decide, by decide, by norm_num⟩⟩)).trans (by decide!))))
      (ComputeNewInstances_percent 3 "50%" (by decide) (by decide) (by decide) (by decide)
        (by decide!) (by decide!) (by decide!)),
    (fun h => h.1.trans (congrArg (fun r => (r, (none : Option GoError)))
        ((h.2.2.2 (by
          rw [show literalValue "25%".data.dropLast = 25 from by decide!]
          exact ⟨⟨25, 0, by decide, by decide, by decide, by norm_num⟩,
            ⟨1, -2, by decide, by decide, by decide, by norm_num⟩,
            ⟨5, -2, by decide, by decide, by decide, by norm_num⟩,
            ⟨4, 0, by decide, by decide, by decide, by norm_num⟩,
            ⟨5, 0, by decide, by decide, by decide, by norm_num⟩,
            ⟨11, -1, by decide, by decide, by decide, by norm_num⟩⟩)).trans (by decide!))))
      (ComputeNewInstances_percent 4 "25%" (by decide) (by decide) (by decide) (by decide)
        (by decide!) (by decide!) (by decide!)),
    by decide!⟩

/-! ## C4: when `ComputeNewInstances` fails -/

theorem ParseFloat_error_iff (s : List Char) (hlen : s.length ≤ 800) :
    (∃ k, ParseFloat s = .error k) ↔
      isSpecialSpelling s = false
        ∧ (isFloatLiteral s = false ∨ float32Overflow ≤ literalMagnitude s) := by
  by_cases hsp : isSpecialSpelling s = true
  · have hsome : (special s).isSome = true := by rw [special_isSome, hsp]
    obtain ⟨f, hf⟩ := Option.isSome_iff_exists.mp hsome
    unfold ParseFloat
    rw [hf, hsp]
    simp
  · have hsp2 : isSpecialSpelling s = false := by simpa using hsp
    rw [ParseFloat_literal s hlen hsp2]
    by_cases hlit : isFloatLiteral s = true
    · by_cases hov : float32Overflow ≤ literalMagnitude s
      · simp [hsp2, hlit, hov]
      · simp [hsp2, hlit, hov]
    · have hlit2 : isFloatLiteral s = false := by simpa using hlit
      simp [hsp2, hlit2]

theorem ParseInt_error_iff (s : List Char) :
    (∃ k, ParseInt s = .error k) ↔ ∀ v, decimalSignedInt s = some v → ¬ inInt32 v := by
  constructor
  · rintro ⟨k, hk⟩ v hv hr
    have := (ParseInt_ok_iff s v).mpr ⟨hv, hr⟩
    rw [hk] at this
    cases this
  · intro h
    cases hp : ParseInt s with
    | error k => exact ⟨k, rfl⟩
    | ok v =>
      obtain ⟨hv, hr⟩ := (ParseInt_ok_iff s v).mp hp
      exact absurd hr (h v hv)

/-- C4 as stated fails in both directions. The text before the `%` of
`"1000000000000000000000000000000000000000%"` (1 followed by 39 zeros) is a
valid number, yet `ComputeNewInstances` returns an error, because the number
does not fit a 32-bit float. The text before the `%` of `"NaN%"` is no number,
yet `ComputeNewInstances` returns no error. -/
theorem ComputeNewInstances_error_counterexample :
    (hasPercentSuffix "1000000000000000000000000000000000000000%" = true
        ∧ isFloatLiteral "1000000000000000000000000000000000000000".data = true
        ∧ ComputeNewInstances 4 "1000000000000000000000000000000000000000%"
            = (-1, some (.numError "ParseFloat" "1000000000000000000000000000000000000000"
                .errRange)))
      ∧ (hasPercentSuffix "NaN%" = true
        ∧ isFloatLiteral "NaN".data = false
        ∧ (ComputeNewInstances 4 "NaN%").2 = none) := by
  decide!

/-- C4 (amended): `ComputeNewInstances` returns an error exactly when the
adjustment cannot be parsed, and the result is then -1. For an adjustment
ending in `%`, of at most 800 bytes, that is when the text before the final `%`
is not one of the spellings `inf`, `infinity`, `nan` and is either no
floating-point literal of the Go syntax or a literal that denotes a magnitude
of at least `2^128 - 2^103` (too large for a finite 32-bit float). Otherwise it
is when the adjustment is not a decimal signed integer of the 32-bit signed
range. -/
theorem ComputeNewInstances_error_iff (current : Int) (adjustment : String)
    (hlen : hasPercentSuffix adjustment = true → adjustment.length ≤ 800) :
    ((ComputeNewInstances current adjustment).2 ≠ none ↔
        (hasPercentSuffix adjustment = true
          ∧ isSpecialSpelling adjustment.data.dropLast = false
          ∧ (isFloatLiteral adjustment.data.dropLast = false
              ∨ float32Overflow ≤ literalMagnitude adjustment.data.dropLast))
        ∨ (hasPercentSuffix adjustment = false
          ∧ ∀ s, decimalSignedInt adjustment.data = some s → ¬ inInt32 s))
      ∧ ((ComputeNewInstances current adjustment).2 ≠ none →
          (ComputeNewInstances current adjustment).1 = -1) := by
  have hint := ParseInt_error_iff adjustment.data
  unfold ComputeNewInstances
  cases hsuffix : hasPercentSuffix adjustment with
  | true =>
    have hlen2 : adjustment.data.dropLast.length ≤ 800 := by
      have h1 := hlen hsuffix
      have h2 : adjustment.data.length = adjustment.length := rfl
      rw [List.length_dropLast]
      omega
    have hfloat := ParseFloat_error_iff adjustment.data.dropLast hlen2
    simp only [if_true, Bool.true_eq_false, false_and, or_false, true_and, ← hfloat]
    cases ParseFloat adjustment.data.dropLast with
    | error k => simp
    | ok f => simp
  | false =>
    simp only [Bool.false_eq_true, if_false, false_and, false_or, true_and, ← hint]
    cases ParseInt adjustment.data with
    | error k => simp
    | ok v => simp

/-- C4 examples: `"1e39%"` fails, being a literal beyond the 32-bit float
range, while the hexadecimal literal of `"0x1p4%"` (16) and the literal with a
digit separator of `"1_0%"` (10) are accepted. The adjustments the claim lists
fail with result -1; `"NaN%"` and `"-Inf%"` are accepted without error. -/
theorem ComputeNewInstances_error_examples :
    (ComputeNewInstances 4 "1e39%").2 ≠ none
      ∧ ¬ ((ComputeNewInstances 4 "0x1p4%").2 ≠ none)
      ∧ ¬ ((ComputeNewInstances 100 "1_0%").2 ≠ none)
      ∧ ComputeNewInstances 4 "0x1p4%" = (5, none)
      ∧ ComputeNewInstances 100 "1_0%" = (110, none)
      ∧ ComputeNewInstances 4 "%" = (-1, some (.numError "ParseFloat" "" .errSyntax))
      ∧ ComputeNewInstances 4 "abc%" = (-1, some (.numError "ParseFloat" "abc" .errSyntax))
      ∧ ComputeNewInstances 4 "5%%" = (-1, some (.numError "ParseFloat" "5%" .errSyntax))
      ∧ ComputeNewInstances 4 "abc" = (-1, some (.numError "ParseInt" "abc" .errSyntax))
      ∧ ComputeNewInstances 4 "" = (-1, some (.numError "ParseInt" "" .errSyntax))
      ∧ ComputeNewInstances 4 "1.5" = (-1, some (.numError "ParseInt" "1.5" .errSyntax))
      ∧ ComputeNewInstances 4 "2147483648"
          = (-1, some (.numError "ParseInt" "2147483648" .errRange))
      ∧ ComputeNewInstances 4 "1e39%" = (-1, some (.numError "ParseFloat" "1e39" .errRange))
      ∧ (ComputeNewInstances 4 "NaN%").2 = none
      ∧ (ComputeNewInstances 4 "-Inf%").2 = none
      ∧ (ComputeNewInstances 4 "-2147483648").2 = none :=
  ⟨(ComputeNewInstances_error_iff 4 "1e39%" (fun _ => by decide)).1.mpr
      (Or.inl ⟨by decide, by decide, Or.inr (by decide!)⟩),
    fun h => by
      rcases (ComputeNewInstances_error_iff 4 "0x1p4%" (fun _ => by decide)).1.mp h with
        ⟨_, _, h1 | h1⟩ | ⟨h1, _⟩
      · exact absurd h1 (by decide)
      · exact absurd h1 (by decide!)
      · exact absurd h1 (by decide),
    fun h => by
      rcases (ComputeNewInstances_error_iff 100 "1_0%" (fun _ => by decide)).1.mp h with
        ⟨_, _, h1 | h1⟩ | ⟨h1, _⟩
      · exact absurd h1 (by decide)
      · exact absurd h1 (by decide!)
      · exact absurd h1 (by decide),
    by decide!⟩

/-! ## C5: a decision during the cooldown period -/

/-- C5: when the platform reports `current` instances and the cooldown check
answers false, `Scale` returns `(current, nil)`; the calls it makes are exactly
lock, clock, get-instances, cooldown check, one history write and unlock (so no
set-instances, no cooldown-expiry update, no schedule or policy fetch); and the
entry written has status ignored, `oldInstances = newInstances = current` and
message "app in cooldown period". The adjustment string plays no part. -/
theorem Scale_in_cooldown (c : Collaborators) (store : ScheduleStore) (appId : String)
    (trigger : Trigger) (current : Int)
    (hget : c.getAppInstances appId = .ok current)
    (hcool : c.canScaleApp appId = .ok false) :
    (Scale c store appId trigger).result = .returned (current, none)
      ∧ (Scale c store appId trigger).store = store
      ∧ (Scale c store appId trigger).trace =
          [.lock appId, .clockNow, .getAppInstances appId, .canScaleApp appId,
            .saveScalingHistory
              { AppId := appId, Timestamp := c.now, ScalingType := .dynamic,
                OldInstances := current, NewInstances := current,
                Reason := getDynamicScalingReason trigger, Status := some .ignored,
                Error := "", Message := "app in cooldown period" },
            .unlock appId] := by
  simp [Scale, scaleBody, hget, hcool]

/-- C5 witness: four instances, cooldown active, and an adjustment that does
not even parse. -/
theorem Scale_in_cooldown_witness :
    (Scale (fixedCollaborators 4 false none) emptyStore "app" (sampleTrigger "abc")).result
        = .returned (4, none)
      ∧ (Scale (fixedCollaborators 4 false none) emptyStore "app" (sampleTrigger "abc")).store
        = emptyStore
      ∧ (Scale (fixedCollaborators 4 false none) emptyStore "app" (sampleTrigger "abc")).trace =
          [.lock "app", .clockNow, .getAppInstances "app", .canScaleApp "app",
            .saveScalingHistory
              { AppId := "app", Timestamp := 1000, ScalingType := .dynamic,
                OldInstances := 4, NewInstances := 4,
                Reason := getDynamicScalingReason (sampleTrigger "abc"), Status := some .ignored,
                Error := "", Message := "app in cooldown period" },
            .unlock "app"] :=
  Scale_in_cooldown (fixedCollaborators 4 false none) emptyStore "app" (sampleTrigger "abc") 4
    rfl rfl

/-! ## C6: an active schedule overrides the policy -/

/-- C6: when an active schedule is stored for the application, replacing the
policy store's answer by any other answer (a policy, no policy, an error)
changes nothing in the run of `Scale` (result, table, every call with its
arguments, the history entry included), and the policy store is never called. -/
theorem Scale_schedule_overrides_policy (c : Collaborators) (store : ScheduleStore)
    (appId : String) (trigger : Trigger) (schedule : ActiveSchedule)
    (policyAnswer : String → Except GoError (Option ScalingPolicy))
    (hsched : store appId = some schedule) :
    Scale { c with getAppPolicy := policyAnswer } store appId trigger = Scale c store appId trigger
      ∧ ∀ a, Call.getAppPolicy a ∉ (Scale c store appId trigger).trace := by
  constructor
  · unfold Scale scaleBody dbGetActiveSchedule
    dsimp only
    rcases c.getAppInstances appId with err | instances <;> try rfl
    dsimp only
    rcases c.canScaleApp appId with err | (_ | _) <;> try rfl
    dsimp only
    rcases ComputeNewInstances instances trigger.Adjustment with ⟨k, _ | err⟩ <;> try rfl
    dsimp only
    rcases c.getActiveScheduleErr appId with _ | err <;> try rfl
    dsimp only
    rw [hsched]
    rfl
  · intro a
    unfold Scale scaleBody dbGetActiveSchedule
    dsimp only
    rcases c.getAppInstances appId with err | instances
    · simp
    dsimp only
    rcases c.canScaleApp appId with err | (_ | _)
    · simp
    · simp
    dsimp only
    rcases ComputeNewInstances instances trigger.Adjustment with ⟨k, _ | err⟩
    swap
    · simp
    dsimp only
    rcases c.getActiveScheduleErr appId with _ | err
    swap
    · simp
    dsimp only
    rw [hsched]
    dsimp only
    unfold scaleApply
    dsimp only
    split_ifs <;> (try split) <;> simp

/-- C6 witness: schedule `[2, 8]` is stored; the store's policy `[1, 3]` is
swapped for a failing policy store. -/
theorem Scale_schedule_overrides_policy_witness :
    Scale { fixedCollaborators 4 true (some ⟨1, 3⟩) with
              getAppPolicy := fun _ => .error (.collaborator "policy store unavailable") }
          (singleStore ⟨"s", 2, 8, 2⟩) "app" (sampleTrigger "+2")
        = Scale (fixedCollaborators 4 true (some ⟨1, 3⟩)) (singleStore ⟨"s", 2, 8, 2⟩) "app"
            (sampleTrigger "+2")
      ∧ ∀ a, Call.getAppPolicy a ∉
          (Scale (fixedCollaborators 4 true (some ⟨1, 3⟩)) (singleStore ⟨"s", 2, 8, 2⟩) "app"
            (sampleTrigger "+2")).trace :=
  Scale_schedule_overrides_policy (fixedCollaborators 4 true (some ⟨1, 3⟩))
    (singleStore ⟨"s", 2, 8, 2⟩) "app" (sampleTrigger "+2") ⟨"s", 2, 8, 2⟩ _ rfl

/-! ## C7: idempotence of `SetActiveSchedule` on the schedule id -/

/-- C7: let the fetch of the current schedule succeed. (1) If a schedule with
the same `scheduleId` as `schedule` is stored (its other fields may differ),
`SetActiveSchedule` returns nil, leaves the table unchanged and its only calls
are lock, fetch, unlock: no history entry, no platform call. (2) If the write of
the first call succeeds too, a second `SetActiveSchedule` with the same
arguments, whatever its collaborators answer, leaves the table as the first
call left it. -/
theorem SetActiveSchedule_idempotent (c c2 : Collaborators) (store : ScheduleStore)
    (appId : String) (schedule : ActiveSchedule)
    (hget : c.getActiveScheduleErr appId = none) :
    (∀ cur, store appId = some cur → cur.ScheduleId = schedule.ScheduleId →
        SetActiveSchedule c store appId schedule =
          { result := .returned none, store := store,
            trace := [.lock appId, .getActiveSchedule appId, .unlock appId] })
      ∧ (c.setActiveScheduleErr appId schedule = none →
          (SetActiveSchedule c2 (SetActiveSchedule c store appId schedule).store appId
              schedule).store
            = (SetActiveSchedule c store appId schedule).store) := by
  constructor
  · intro cur hcur hid
    simp [SetActiveSchedule, dbGetActiveSchedule, hget, hcur, hid]
  · intro hset
    have hfirst : ∃ cur, (SetActiveSchedule c store appId schedule).store appId = some cur
        ∧ schedule.ScheduleId = cur.ScheduleId := by
      unfold SetActiveSchedule dbGetActiveSchedule dbSetActiveSchedule
      rw [hget, hset]
      dsimp only
      split_ifs with hdup
      · rcases hst : store appId with _ | cur
        · simp [hst] at hdup
        · exact ⟨cur, hst, by simpa [hst] using hdup⟩
      · exact ⟨schedule, by simp, rfl⟩
    obtain ⟨cur, hcur, hid⟩ := hfirst
    generalize (SetActiveSchedule c store appId schedule).store = store1 at hcur ⊢
    unfold SetActiveSchedule dbGetActiveSchedule
    rcases c2.getActiveScheduleErr appId with _ | err
    · simp [hcur, hid]
    · rfl

/-- C7 witness: schedule `"s"` with bounds `[1, 5]` is stored; it is set again
under the same id with other bounds. -/
theorem SetActiveSchedule_idempotent_witness :
    (∀ cur, singleStore ⟨"s", 1, 5, 2⟩ "app" = some cur → cur.ScheduleId = "s" →
        SetActiveSchedule (fixedCollaborators 4 true none) (singleStore ⟨"s", 1, 5, 2⟩) "app"
            ⟨"s", 3, 9, 4⟩ =
          { result := .returned none, store := singleStore ⟨"s", 1, 5, 2⟩,
            trace := [.lock "app", .getActiveSchedule "app", .unlock "app"] })
      ∧ ((fixedCollaborators 4 true none).setActiveScheduleErr "app" ⟨"s", 3, 9, 4⟩ = none →
          (SetActiveSchedule failingPlatform
              (SetActiveSchedule (fixedCollaborators 4 true none) (singleStore ⟨"s", 1, 5, 2⟩)
                "app" ⟨"s", 3, 9, 4⟩).store "app" ⟨"s", 3, 9, 4⟩).store
            = (SetActiveSchedule (fixedCollaborators 4 true none) (singleStore ⟨"s", 1, 5, 2⟩)
                "app" ⟨"s", 3, 9, 4⟩).store) :=
  SetActiveSchedule_idempotent (fixedCollaborators 4 true none) failingPlatform
    (singleStore ⟨"s", 1, 5, 2⟩) "app" ⟨"s", 3, 9, 4⟩ rfl

/-! ## C8: set, then remove -/

/-- C8: when the database operations involved succeed (fetch and write of the
first call, fetch and removal of the second), `SetActiveSchedule` followed by
`RemoveActiveSchedule` with the same schedule id leaves no active schedule for
the application, whatever the platform client and the policy store answer in
either call. -/
theorem SetActiveSchedule_then_RemoveActiveSchedule (c1 c2 : Collaborators)
    (store : ScheduleStore) (appId : String) (schedule : ActiveSchedule)
    (hget1 : c1.getActiveScheduleErr appId = none)
    (hset1 : c1.setActiveScheduleErr appId schedule = none)
    (hget2 : c2.getActiveScheduleErr appId = none)
    (hrem2 : c2.removeActiveScheduleErr appId = none) :
    (RemoveActiveSchedule c2 (SetActiveSchedule c1 store appId schedule).store appId
        schedule.ScheduleId).store appId = none := by
  have hfirst : ∃ cur, (SetActiveSchedule c1 store appId schedule).store appId = some cur
      ∧ cur.ScheduleId = schedule.ScheduleId := by
    unfold SetActiveSchedule dbGetActiveSchedule dbSetActiveSchedule
    rw [hget1, hset1]
    dsimp only
    split_ifs with hdup
    · rcases hst : store appId with _ | cur
      · simp [hst] at hdup
      · exact ⟨cur, hst, by simpa [hst, eq_comm] using hdup⟩
    · exact ⟨schedule, by simp, rfl⟩
  obtain ⟨cur, hcur, hid⟩ := hfirst
  generalize (SetActiveSchedule c1 store appId schedule).store = store1 at hcur ⊢
  simp [RemoveActiveSchedule, dbGetActiveSchedule, dbRemoveActiveSchedule, hget2, hrem2, hcur, hid]

/-- C8 witness: another schedule is stored beforehand, and the platform client
and the policy store fail throughout. -/
theorem SetActiveSchedule_then_RemoveActiveSchedule_witness :
    (RemoveActiveSchedule failingPlatform
        (SetActiveSchedule failingPlatform (singleStore ⟨"old", 1, 5, 2⟩) "app"
          ⟨"s", 3, 9, 4⟩).store "app" "s").store "app" = none :=
  SetActiveSchedule_then_RemoveActiveSchedule failingPlatform failingPlatform
    (singleStore ⟨"old", 1, 5, 2⟩) "app" ⟨"s", 3, 9, 4⟩ rfl rfl rfl rfl

/-! ## C9: removing a schedule that is not the stored one -/

/-- C9: when the fetch of the current schedule succeeds and the table holds no
schedule for the application, or one with another id, `RemoveActiveSchedule`
returns the active-schedule-not-found error, leaves the table unchanged, and its
only calls are lock, fetch, unlock: no removal, no history entry, no platform or
policy call. -/
theorem RemoveActiveSchedule_not_found (c : Collaborators) (store : ScheduleStore)
    (appId : String) (scheduleId : String)
    (hget : c.getActiveScheduleErr appId = none)
    (hother : ∀ cur, store appId = some cur → cur.ScheduleId ≠ scheduleId) :
    RemoveActiveSchedule c store appId scheduleId =
      { result := .returned (some .activeScheduleNotFound), store := store,
        trace := [.lock appId, .getActiveSchedule appId, .unlock appId] } := by
  unfold RemoveActiveSchedule dbGetActiveSchedule
  rw [hget]
  dsimp only
  rcases hst : store appId with _ | cur
  · simp
  · simp [hother cur hst]

/-- C9 witness: schedule `"s"` is stored and removal of `"t"` is asked for. -/
theorem RemoveActiveSchedule_not_found_witness :
    RemoveActiveSchedule (fixedCollaborators 4 true none) (singleStore ⟨"s", 1, 5, 2⟩) "app" "t" =
      { result := .returned (some .activeScheduleNotFound), store := singleStore ⟨"s", 1, 5, 2⟩,
        trace := [.lock "app", .getActiveSchedule "app", .unlock "app"] } :=
  RemoveActiveSchedule_not_found (fixedCollaborators 4 true none) (singleStore ⟨"s", 1, 5, 2⟩)
    "app" "t" rfl (by
      intro cur hcur
      have h : cur = ⟨"s", 1, 5, 2⟩ := by
        simpa [singleStore] using hcur.symm
      subst h
      decide)

/-! ## C10: one history entry with an assigned status -/

/-- C10 fails on the code: with no active schedule and a policy store that
answers "no policy" (nil, no error), `Scale` panics on the nil policy; the
deferred write still saves one history entry, and its status was never
assigned. -/
theorem Scale_nil_policy_history_status_unset :
    (Scale (fixedCollaborators 4 true none) emptyStore "app" (sampleTrigger "+1")).result
        = .panicked "invalid memory address or nil pointer dereference"
      ∧ savedHistories
          (Scale (fixedCollaborators 4 true none) emptyStore "app" (sampleTrigger "+1")).trace
        = [{ AppId := "app", Timestamp := 1000, ScalingType := .dynamic, OldInstances := 4,
             NewInstances := -1, Reason := getDynamicScalingReason (sampleTrigger "+1"),
             Status := none, Error := "", Message := "" }] :=
  ⟨rfl, rfl⟩

/-! ## History entries of the three entry points -/

theorem scaleApply_status (c : Collaborators) (appId : String) (trigger : Trigger) (now : Int)
    (history : AppScalingHistory) (instances newInstances lo hi : Int) (calls : List Call) :
    (∃ st, (scaleApply c appId trigger now history instances newInstances lo hi calls).1.Status
        = some st)
      ∧ ∃ r, (scaleApply c appId trigger now history instances newInstances lo hi calls).2.1
        = .returned r := by
  unfold scaleApply
  dsimp only
  split_ifs <;> (try split) <;> simp

theorem setActiveScheduleBody_status (c : Collaborators) (appId : String)
    (schedule : ActiveSchedule) (history : AppScalingHistory) :
    (∃ st, (setActiveScheduleBody c appId schedule history).1.Status = some st)
      ∧ savedHistories (setActiveScheduleBody c appId schedule history).2.2 = [] := by
  unfold setActiveScheduleBody
  rcases c.getAppInstances appId with err | instances
  · simp [savedHistories]
  dsimp only
  split_ifs <;> (try split) <;> simp [savedHistories]

theorem removeActiveScheduleBody_status (c : Collaborators) (appId : String)
    (history : AppScalingHistory) :
    (∃ st, (removeActiveScheduleBody c appId history).1.Status = some st)
      ∧ savedHistories (removeActiveScheduleBody c appId history).2.2 = [] := by
  unfold removeActiveScheduleBody
  rcases c.getAppInstances appId with err | instances
  · simp [savedHistories]
  dsimp only
  rcases c.getAppPolicy appId with err | (_ | policy)
  · simp [savedHistories]
  · simp [savedHistories]
  dsimp only
  split_ifs <;> (try split) <;> simp [savedHistories]

/-- Every run of `Scale` writes exactly one history entry, and the status of
that entry is unassigned exactly when `Scale` panicked (the nil-policy case);
`SetActiveSchedule` and `RemoveActiveSchedule` write no entry when they return
before reading the clock and exactly one entry, with an assigned status,
otherwise. -/
theorem history_written_once (c : Collaborators) (store : ScheduleStore) (appId : String)
    (trigger : Trigger) (schedule : ActiveSchedule) (scheduleId : String) :
    (∃ h, savedHistories (Scale c store appId trigger).trace = [h]
        ∧ (h.Status = none ↔ ∃ why, (Scale c store appId trigger).result = .panicked why))
      ∧ (savedHistories (SetActiveSchedule c store appId schedule).trace = []
            ∧ Call.clockNow ∉ (SetActiveSchedule c store appId schedule).trace
          ∨ ∃ h st, savedHistories (SetActiveSchedule c store appId schedule).trace = [h]
            ∧ h.Status = some st)
      ∧ (savedHistories (RemoveActiveSchedule c store appId scheduleId).trace = []
            ∧ Call.clockNow ∉ (RemoveActiveSchedule c store appId scheduleId).trace
          ∨ ∃ h st, savedHistories (RemoveActiveSchedule c store appId scheduleId).trace = [h]
            ∧ h.Status = some st) := by
  refine ⟨⟨_, Scale_saved c store appId trigger, ?_⟩, ?_, ?_⟩
  · unfold Scale scaleBody dbGetActiveSchedule
    dsimp only
    rcases c.getAppInstances appId with err | instances
    · simp
    dsimp only
    rcases c.canScaleApp appId with err | (_ | _)
    · simp
    · simp
    dsimp only
    rcases ComputeNewInstances instances trigger.Adjustment with ⟨k, _ | err⟩
    swap
    · simp
    dsimp only
    rcases c.getActiveScheduleErr appId with _ | err
    swap
    · simp
    dsimp only
    rcases store appId with _ | sch
    · dsimp only
      rcases c.getAppPolicy appId with err | (_ | policy)
      · simp
      · simp
      · dsimp only
        obtain ⟨⟨st, hst⟩, ⟨r, hr⟩⟩ := scaleApply_status c appId trigger c.now
          { AppId := appId, Timestamp := c.now, ScalingType := .dynamic, OldInstances := instances,
            NewInstances := -1, Reason := getDynamicScalingReason trigger, Status := none,
            Error := "", Message := "" } instances k policy.InstanceMin policy.InstanceMax
          [.getAppInstances appId, .canScaleApp appId, .getActiveSchedule appId,
            .getAppPolicy appId]
        rw [hst, hr]
        simp
    · dsimp only
      obtain ⟨⟨st, hst⟩, ⟨r, hr⟩⟩ := scaleApply_status c appId trigger c.now
        { AppId := appId, Timestamp := c.now, ScalingType := .dynamic, OldInstances := instances,
          NewInstances := -1, Reason := getDynamicScalingReason trigger, Status := none,
          Error := "", Message := "" } instances k sch.InstanceMin sch.InstanceMax
        [.getAppInstances appId, .canScaleApp appId, .getActiveSchedule appId]
      rw [hst, hr]
      simp
  · unfold SetActiveSchedule dbGetActiveSchedule dbSetActiveSchedule
    rcases c.getActiveScheduleErr appId with _ | err
    swap
    · left
      simp [savedHistories]
    dsimp only
    by_cases hdup : Option.any (fun cur => decide (schedule.ScheduleId = cur.ScheduleId))
        (store appId) = true
    · left
      rw [if_pos hdup]
      simp [savedHistories]
    · rw [if_neg hdup]
      rcases c.setActiveScheduleErr appId schedule with _ | err
      swap
      · left
        simp [savedHistories]
      right
      dsimp only
      obtain ⟨⟨st, hst⟩, hsaved⟩ := setActiveScheduleBody_status c appId schedule
        { AppId := appId, Timestamp := c.now, ScalingType := .schedule, OldInstances := -1,
          NewInstances := -1, Reason := getScheduledScalingReason schedule, Status := none,
          Error := "", Message := "" }
      refine ⟨_, st, ?_, hst⟩
      simp only [savedHistories_append, hsaved]
      simp [savedHistories]
  · unfold RemoveActiveSchedule dbGetActiveSchedule dbRemoveActiveSchedule
    rcases c.getActiveScheduleErr appId with _ | err
    swap
    · left
      simp [savedHistories]
    dsimp only
    by_cases hdup : Option.all (fun cur => decide (cur.ScheduleId ≠ scheduleId))
        (store appId) = true
    · left
      rw [if_pos hdup]
      simp [savedHistories]
    · rw [if_neg hdup]
      rcases c.removeActiveScheduleErr appId with _ | err
      swap
      · left
        simp [savedHistories]
      right
      dsimp only
      obtain ⟨⟨st, hst⟩, hsaved⟩ := removeActiveScheduleBody_status c appId
        { AppId := appId, Timestamp := c.now, ScalingType := .schedule, OldInstances := -1,
          NewInstances := -1, Reason := "schedule ends", Status := none,
          Error := "", Message := "" }
      refine ⟨_, st, ?_, hst⟩
      simp only [savedHistories_append, hsaved]
      simp [savedHistories]

/-! ## The run of `Scale` once the bounds are known -/

/-- The whole run of `Scale` on the path that reaches the clamp step: the
platform reports `current`, the app is out of cooldown, the adjustment yields
`proposed`, and the bounds `[lo, hi]` come from the stored schedule, else from
the policy. -/
theorem Scale_run_clamp (c : Collaborators) (store : ScheduleStore) (appId : String)
    (trigger : Trigger) (current proposed lo hi : Int)
    (hget : c.getAppInstances appId = .ok current)
    (hcool : c.canScaleApp appId = .ok true)
    (hcompute : ComputeNewInstances current trigger.Adjustment = (proposed, none))
    (hfetch : c.getActiveScheduleErr appId = none)
    (hbounds : effectiveBounds c store appId = some (lo, hi)) :
    Scale c store appId trigger =
      if clampCount lo hi proposed = current then
        { result := .returned (clampCount lo hi proposed, none), store := store,
          trace := boundsFetches store appId ++
            [.saveScalingHistory
              { dynamicHistory c appId trigger with
                OldInstances := current, NewInstances := clampCount lo hi proposed,
                Message := clampMessage lo hi proposed, Status := some .ignored },
             .unlock appId] }
      else
        match c.setAppInstances appId (clampCount lo hi proposed) with
        | some err =>
          { result := .returned (-1, some err), store := store,
            trace := boundsFetches store appId ++
              [.setAppInstances appId (clampCount lo hi proposed),
               .saveScalingHistory
                { dynamicHistory c appId trigger with
                  OldInstances := current, NewInstances := clampCount lo hi proposed,
                  Message := clampMessage lo hi proposed, Status := some .failed,
                  Error := "failed to set app instances" },
               .unlock appId] }
        | none =>
          { result := .returned (clampCount lo hi proposed, none), store := store,
            trace := boundsFetches store appId ++
              [.setAppInstances appId (clampCount lo hi proposed),
               .updateScalingCooldownExpireTime appId (wrapInt64 (c.now + trigger.CoolDown)),
               .saveScalingHistory
                { dynamicHistory c appId trigger with
                  OldInstances := current, NewInstances := clampCount lo hi proposed,
                  Message := clampMessage lo hi proposed, Status := some .succeeded },
               .unlock appId] } := by
  have happly : ∀ calls : List Call,
      scaleApply c appId trigger c.now
          { dynamicHistory c appId trigger with OldInstances := current }
          current proposed lo hi calls =
        if clampCount lo hi proposed = current then
          ({ dynamicHistory c appId trigger with
              OldInstances := current, NewInstances := clampCount lo hi proposed,
              Message := clampMessage lo hi proposed, Status := some .ignored },
            .returned (clampCount lo hi proposed, none), calls)
        else
          match c.setAppInstances appId (clampCount lo hi proposed) with
          | some err =>
            ({ dynamicHistory c appId trigger with
                OldInstances := current, NewInstances := clampCount lo hi proposed,
                Message := clampMessage lo hi proposed, Status := some .failed,
                Error := "failed to set app instances" },
              .returned (-1, some err),
              calls ++ [.setAppInstances appId (clampCount lo hi proposed)])
          | none =>
            ({ dynamicHistory c appId trigger with
                OldInstances := current, NewInstances := clampCount lo hi proposed,
                Message := clampMessage lo hi proposed, Status := some .succeeded },
              .returned (clampCount lo hi proposed, none),
              calls ++ [.setAppInstances appId (clampCount lo hi proposed),
                .updateScalingCooldownExpireTime appId (wrapInt64 (c.now + trigger.CoolDown))]) := by
    intro calls
    unfold scaleApply clampCount clampMessage dynamicHistory
    dsimp only
    by_cases h1 : proposed < lo
    · simp only [h1, if_true]
    · by_cases h2 : proposed > hi
      · simp only [h1, h2, if_true, if_false]
      · simp only [h1, h2, if_false]
  unfold effectiveBounds at hbounds
  unfold Scale scaleBody dbGetActiveSchedule boundsFetches
  rw [hget]
  dsimp only
  rw [hcool]
  dsimp only
  rw [hcompute]
  dsimp only
  rw [hfetch]
  dsimp only
  rcases hst : store appId with _ | schedule
  · rw [hst] at hbounds
    dsimp only at hbounds
    rcases hp : c.getAppPolicy appId with err | (_ | policy)
    · rw [hp] at hbounds
      cases hbounds
    · rw [hp] at hbounds
      cases hbounds
    · rw [hp] at hbounds
      cases hbounds
      dsimp only
      have := happly [.getAppInstances appId, .canScaleApp appId, .getActiveSchedule appId,
        .getAppPolicy appId]
      unfold dynamicHistory at this
      rw [this]
      by_cases hA : clampCount policy.InstanceMin policy.InstanceMax proposed = current
      · simp [hA, dynamicHistory, hst]
      · rcases hs : c.setAppInstances appId
            (clampCount policy.InstanceMin policy.InstanceMax proposed) with _ | err <;>
          simp [hA, hs, dynamicHistory, hst]
  · rw [hst] at hbounds
    cases hbounds
    dsimp only
    have := happly [.getAppInstances appId, .canScaleApp appId, .getActiveSchedule appId]
    unfold dynamicHistory at this
    rw [this]
    by_cases hA : clampCount schedule.InstanceMin schedule.InstanceMax proposed = current
    · simp [hA, dynamicHistory, hst]
    · rcases hs : c.setAppInstances appId
          (clampCount schedule.InstanceMin schedule.InstanceMax proposed) with _ | err <;>
        simp [hA, hs, dynamicHistory, hst]

/-! ## The runs of `SetActiveSchedule` and `RemoveActiveSchedule` past the history step -/

/-- The whole run of `SetActiveSchedule` on the path that reaches the clamp
step: no schedule with the same id is stored, the write succeeds and the
platform reports `current`. -/
theorem SetActiveSchedule_run_clamp (c : Collaborators) (store : ScheduleStore) (appId : String)
    (schedule : ActiveSchedule) (current : Int)
    (hfetch : c.getActiveScheduleErr appId = none)
    (hother : ∀ cur, store appId = some cur → cur.ScheduleId ≠ schedule.ScheduleId)
    (hwrite : c.setActiveScheduleErr appId schedule = none)
    (hget : c.getAppInstances appId = .ok current) :
    SetActiveSchedule c store appId schedule =
      if clampCount (scheduleStartMin schedule) schedule.InstanceMax current = current then
        { result := .returned none, store := storeWith store appId schedule,
          trace :=
            [.lock appId, .getActiveSchedule appId, .setActiveSchedule appId schedule, .clockNow,
             .getAppInstances appId,
             .saveScalingHistory
              { scheduleStartHistory c appId schedule with
                OldInstances := current,
                NewInstances := clampCount (scheduleStartMin schedule) schedule.InstanceMax current,
                Message := scheduleStartMessage schedule current, Status := some .ignored },
             .unlock appId] }
      else
        match c.setAppInstances appId
            (clampCount (scheduleStartMin schedule) schedule.InstanceMax current) with
        | some err =>
          { result := .returned (some err), store := storeWith store appId schedule,
            trace :=
              [.lock appId, .getActiveSchedule appId, .setActiveSchedule appId schedule, .clockNow,
               .getAppInstances appId,
               .setAppInstances appId
                (clampCount (scheduleStartMin schedule) schedule.InstanceMax current),
               .saveScalingHistory
                { scheduleStartHistory c appId schedule with
                  OldInstances := current,
                  NewInstances :=
                    clampCount (scheduleStartMin schedule) schedule.InstanceMax current,
                  Message := scheduleStartMessage schedule current, Status := some .failed,
                  Error := "failed to set app instances" },
               .unlock appId] }
        | none =>
          { result := .returned none, store := storeWith store appId schedule,
            trace :=
              [.lock appId, .getActiveSchedule appId, .setActiveSchedule appId schedule, .clockNow,
               .getAppInstances appId,
               .setAppInstances appId
                (clampCount (scheduleStartMin schedule) schedule.InstanceMax current),
               .saveScalingHistory
                { scheduleStartHistory c appId schedule with
                  OldInstances := current,
                  NewInstances :=
                    clampCount (scheduleStartMin schedule) schedule.InstanceMax current,
                  Message := scheduleStartMessage schedule current, Status := some .succeeded },
               .unlock appId] } := by
  have hmin : (if schedule.InstanceMin > schedule.InstanceMinInitial then schedule.InstanceMin
      else schedule.InstanceMinInitial) = scheduleStartMin schedule := by
    unfold scheduleStartMin
    split_ifs with h
    · exact (max_eq_right (le_of_lt h)).symm
    · exact (max_eq_left (not_lt.mp h)).symm
  have hdup : Option.any (fun cur => decide (schedule.ScheduleId = cur.ScheduleId)) (store appId)
      = false := by
    rcases hst : store appId with _ | cur
    · rfl
    · simpa using fun h => hother cur hst h.symm
  unfold SetActiveSchedule dbGetActiveSchedule dbSetActiveSchedule setActiveScheduleBody
  rw [hfetch]
  dsimp only
  rw [hdup, hwrite]
  dsimp only
  rw [hget]
  dsimp only
  rw [hmin]
  unfold clampCount scheduleStartMessage scheduleStartHistory storeWith
  by_cases h1 : current < scheduleStartMin schedule
  · have hne : ¬ scheduleStartMin schedule = current := by omega
    rcases hs : c.setAppInstances appId (scheduleStartMin schedule) with _ | err <;>
      simp [h1, hne, hs]
  · by_cases h2 : current > schedule.InstanceMax
    · have hne : ¬ schedule.InstanceMax = current := by omega
      rcases hs : c.setAppInstances appId schedule.InstanceMax with _ | err <;>
        simp [h1, h2, hne, hs]
    · simp [h1, h2]

/-- The whole run of `RemoveActiveSchedule` on the path past the removal: the
stored schedule has the id asked for, the removal succeeds and the platform
reports `current`. What follows depends on the policy store's answer. -/
theorem RemoveActiveSchedule_run (c : Collaborators) (store : ScheduleStore) (appId : String)
    (scheduleId : String) (cur : ActiveSchedule) (current : Int)
    (hfetch : c.getActiveScheduleErr appId = none)
    (hstored : store appId = some cur)
    (hid : cur.ScheduleId = scheduleId)
    (hremove : c.removeActiveScheduleErr appId = none)
    (hget : c.getAppInstances appId = .ok current) :
    RemoveActiveSchedule c store appId scheduleId =
      match c.getAppPolicy appId with
      | .error err =>
        { result := .returned (some err), store := storeWithout store appId,
          trace :=
            [.lock appId, .getActiveSchedule appId, .removeActiveSchedule appId, .clockNow,
             .getAppInstances appId, .getAppPolicy appId,
             .saveScalingHistory
              { scheduleEndHistory c appId with
                OldInstances := current, Status := some .failed,
                Error := "failed to get app policy" },
             .unlock appId] }
      | .ok none =>
        { result := .returned none, store := storeWithout store appId,
          trace :=
            [.lock appId, .getActiveSchedule appId, .removeActiveSchedule appId, .clockNow,
             .getAppInstances appId, .getAppPolicy appId,
             .saveScalingHistory
              { scheduleEndHistory c appId with OldInstances := current, Status := some .ignored },
             .unlock appId] }
      | .ok (some policy) =>
        if clampCount policy.InstanceMin policy.InstanceMax current = current then
          { result := .returned none, store := storeWithout store appId,
            trace :=
              [.lock appId, .getActiveSchedule appId, .removeActiveSchedule appId, .clockNow,
               .getAppInstances appId, .getAppPolicy appId,
               .saveScalingHistory
                { scheduleEndHistory c appId with
                  OldInstances := current,
                  NewInstances := clampCount policy.InstanceMin policy.InstanceMax current,
                  Message := clampMessage policy.InstanceMin policy.InstanceMax current,
                  Status := some .ignored },
               .unlock appId] }
        else
          match c.setAppInstances appId
              (clampCount policy.InstanceMin policy.InstanceMax current) with
          | some err =>
            { result := .returned (some err), store := storeWithout store appId,
              trace :=
                [.lock appId, .getActiveSchedule appId, .removeActiveSchedule appId, .clockNow,
                 .getAppInstances appId, .getAppPolicy appId,
                 .setAppInstances appId (clampCount policy.InstanceMin policy.InstanceMax current),
                 .saveScalingHistory
                  { scheduleEndHistory c appId with
                    OldInstances := current,
                    NewInstances := clampCount policy.InstanceMin policy.InstanceMax current,
                    Message := clampMessage policy.InstanceMin policy.InstanceMax current,
                    Status := some .failed, Error := "failed to set app instances" },
                 .unlock appId] }
          | none =>
            { result := .returned none, store := storeWithout store appId,
              trace :=
                [.lock appId, .getActiveSchedule appId, .removeActiveSchedule appId, .clockNow,
                 .getAppInstances appId, .getAppPolicy appId,
                 .setAppInstances appId (clampCount policy.InstanceMin policy.InstanceMax current),
                 .saveScalingHistory
                  { scheduleEndHistory c appId with
                    OldInstances := current,
                    NewInstances := clampCount policy.InstanceMin policy.InstanceMax current,
                    Message := clampMessage policy.InstanceMin policy.InstanceMax current,
                    Status := some .succeeded },
                 .unlock appId] } := by
  have hmatch : Option.all (fun cur => decide (cur.ScheduleId ≠ scheduleId)) (store appId)
      = false := by
    rw [hstored]
    simp [hid]
  unfold RemoveActiveSchedule dbGetActiveSchedule dbRemoveActiveSchedule removeActiveScheduleBody
  rw [hfetch]
  dsimp only
  rw [hmatch, hremove]
  dsimp only
  rw [hget]
  dsimp only
  unfold scheduleEndHistory storeWithout
  rcases c.getAppPolicy appId with err | (_ | policy)
  · simp
  · simp
  · dsimp only
    unfold clampCount clampMessage
    by_cases h1 : current < policy.InstanceMin
    · have hne : ¬ policy.InstanceMin = current := by omega
      rcases hs : c.setAppInstances appId policy.InstanceMin with _ | err <;>
        simp [h1, hne, hs]
    · by_cases h2 : current > policy.InstanceMax
      · have hne : ¬ policy.InstanceMax = current := by omega
        rcases hs : c.setAppInstances appId policy.InstanceMax with _ | err <;>
          simp [h1, h2, hne, hs]
      · simp [h1, h2]

/-! ## C11: a failing step of `Scale` -/

/-- C11: when a step of `Scale` (get-instances, cooldown check, adjustment
computation, active-schedule fetch, policy fetch, set-instances) is executed and
returns an error, `Scale` returns `(-1, that error)`, the one history entry has
status failed and carries the non-empty error text of that step, and no
cooldown expiry is written. -/
theorem Scale_failed_step (c : Collaborators) (store : ScheduleStore) (appId : String)
    (trigger : Trigger) (step : ScaleStep) (err : GoError)
    (hfail : stepFails c store appId trigger step err) :
    (Scale c store appId trigger).result = .returned (-1, some err)
      ∧ cooldownUpdates (Scale c store appId trigger).trace = []
      ∧ ∃ h, savedHistories (Scale c store appId trigger).trace = [h]
          ∧ h.Status = some .failed ∧ h.Error = step.message ∧ h.Error ≠ "" := by
  cases step with
  | getInstances =>
    have h1 : c.getAppInstances appId = .error err := hfail
    simp [Scale, scaleBody, h1, savedHistories, cooldownUpdates, ScaleStep.message]
  | checkCooldown =>
    obtain ⟨current, h1, h2⟩ := hfail
    simp [Scale, scaleBody, h1, h2, savedHistories, cooldownUpdates, ScaleStep.message]
  | computeNewInstances =>
    obtain ⟨current, n, h1, h2, h3⟩ := hfail
    simp [Scale, scaleBody, h1, h2, h3, savedHistories, cooldownUpdates, ScaleStep.message]
  | getActiveSchedule =>
    obtain ⟨current, proposed, h1, h2, h3, h4⟩ := hfail
    simp [Scale, scaleBody, dbGetActiveSchedule, h1, h2, h3, h4, savedHistories, cooldownUpdates,
      ScaleStep.message]
  | getPolicy =>
    obtain ⟨current, proposed, h1, h2, h3, h4, h5, h6⟩ := hfail
    simp [Scale, scaleBody, dbGetActiveSchedule, h1, h2, h3, h4, h5, h6, savedHistories,
      cooldownUpdates, ScaleStep.message]
  | setInstances =>
    obtain ⟨current, proposed, lo, hi, h1, h2, h3, h4, h5, h6, h7⟩ := hfail
    rw [Scale_run_clamp c store appId trigger current proposed lo hi h1 h2 h3 h4 h5, if_neg h6]
    simp only [h7]
    unfold boundsFetches
    split_ifs <;> simp [savedHistories, cooldownUpdates, ScaleStep.message]

/-- C11 witness: the platform accepts the count query and refuses the change
(four instances, `"+2"`, policy `[1, 10]`); and an adjustment that does not
parse. -/
theorem Scale_failed_step_witness :
    ((Scale { fixedCollaborators 4 true (some ⟨1, 10⟩) with
          setAppInstances := fun _ _ => some (.collaborator "platform unavailable") }
        emptyStore "app" (sampleTrigger "+2")).result
        = .returned (-1, some (.collaborator "platform unavailable"))
      ∧ cooldownUpdates (Scale { fixedCollaborators 4 true (some ⟨1, 10⟩) with
          setAppInstances := fun _ _ => some (.collaborator "platform unavailable") }
        emptyStore "app" (sampleTrigger "+2")).trace = []
      ∧ ∃ h, savedHistories (Scale { fixedCollaborators 4 true (some ⟨1, 10⟩) with
            setAppInstances := fun _ _ => some (.collaborator "platform unavailable") }
          emptyStore "app" (sampleTrigger "+2")).trace = [h]
          ∧ h.Status = some .failed ∧ h.Error = ScaleStep.setInstances.message ∧ h.Error ≠ "")
      ∧ ((Scale (fixedCollaborators 4 true (some ⟨1, 10⟩)) emptyStore "app"
          (sampleTrigger "abc")).result
          = .returned (-1, some (.numError "ParseInt" "abc" .errSyntax))
        ∧ cooldownUpdates (Scale (fixedCollaborators 4 true (some ⟨1, 10⟩)) emptyStore "app"
          (sampleTrigger "abc")).trace = []
        ∧ ∃ h, savedHistories (Scale (fixedCollaborators 4 true (some ⟨1, 10⟩)) emptyStore "app"
            (sampleTrigger "abc")).trace = [h]
            ∧ h.Status = some .failed ∧ h.Error = ScaleStep.computeNewInstances.message
            ∧ h.Error ≠ "") :=
  ⟨Scale_failed_step _ emptyStore "app" (sampleTrigger "+2") .setInstances
      (.collaborator "platform unavailable")
      ⟨4, 6, 1, 10, rfl, rfl, by decide, rfl, rfl, by decide, rfl⟩,
    Scale_failed_step (fixedCollaborators 4 true (some ⟨1, 10⟩)) emptyStore "app"
      (sampleTrigger "abc") .computeNewInstances (.numError "ParseInt" "abc" .errSyntax)
      ⟨4, -1, rfl, rfl, by decide⟩⟩

/-! ## C12: the cooldown expiry update -/

theorem scaleApply_cooldown (c : Collaborators) (appId : String) (trigger : Trigger) (now : Int)
    (history : AppScalingHistory) (instances newInstances lo hi : Int) (pre : List Call)
    (calls : List Call)
    (hpre : cooldownUpdates (pre ++ calls) = [] ∧ platformSets (pre ++ calls) = []
      ∧ ∀ n, Call.setAppInstances appId n ∉ pre ++ calls) :
    (cooldownUpdates (pre ++ (scaleApply c appId trigger now history instances newInstances
          lo hi calls).2.2) = [wrapInt64 (now + trigger.CoolDown)]
        ∨ cooldownUpdates (pre ++ (scaleApply c appId trigger now history instances newInstances
          lo hi calls).2.2) = [])
      ∧ (cooldownUpdates (pre ++ (scaleApply c appId trigger now history instances newInstances
            lo hi calls).2.2) ≠ []
          ↔ ∃ n, Call.setAppInstances appId n ∈ pre ++ (scaleApply c appId trigger now history
              instances newInstances lo hi calls).2.2 ∧ c.setAppInstances appId n = none)
      ∧ ((∃ n, Call.setAppInstances appId n ∈ pre ++ (scaleApply c appId trigger now history
              instances newInstances lo hi calls).2.2 ∧ c.setAppInstances appId n = none) →
          ∃ n, (scaleApply c appId trigger now history instances newInstances lo hi calls).2.1
              = .returned (n, none)
            ∧ (scaleApply c appId trigger now history instances newInstances lo hi calls).1.Status
              = some .succeeded
            ∧ (scaleApply c appId trigger now history instances newInstances lo hi
                calls).1.NewInstances = n
            ∧ platformSets (pre ++ (scaleApply c appId trigger now history instances newInstances
                lo hi calls).2.2) = [n]) := by
  obtain ⟨hp1, hp2, hp3⟩ := hpre
  unfold scaleApply
  dsimp only
  split_ifs with h1 h2 h3 h4 h5
  all_goals first
    | (split <;>
        simp [cooldownUpdates, platformSets, List.filterMap_append, ← List.append_assoc] <;>
        simp [cooldownUpdates, platformSets, List.filterMap_append] at hp1 hp2 <;>
        simp_all)
    | (simp [cooldownUpdates, platformSets, List.filterMap_append] at hp1 hp2 ⊢; simp_all)

/-- C12 as stated fails: with the clock at the largest `int64` nanosecond
(9223372036854775807) and a cooldown of one second, the expiry written is
-9223372035854775809, the wrapped sum, not `now + trigger.cooldown`
(9223372037854775807). -/
theorem Scale_cooldown_update_counterexample :
    cooldownUpdates (Scale { fixedCollaborators 4 true (some ⟨1, 10⟩) with
          now := 9223372036854775807 } emptyStore "app"
        { sampleTrigger "+1" with cooldown := 1000000000 }).trace = [-9223372035854775809]
      ∧ (9223372036854775807 : Int) + 1000000000 = 9223372037854775807
      ∧ (Scale { fixedCollaborators 4 true (some ⟨1, 10⟩) with
          now := 9223372036854775807 } emptyStore "app"
        { sampleTrigger "+1" with cooldown := 1000000000 }).result = .returned (5, none) := by
  decide

/-- C12 (amended): the answer of the cooldown-expiry update has no influence on
the run of `Scale` (result, history entry, calls); the run writes at most one
expiry, the 64-bit sum of `now` and `trigger.CoolDown` with `now` the clock
reading of the decision (the sum itself whenever it fits an `int64`, its
two's-complement wrap-around otherwise), and writes it exactly when a platform
set-instances call was made and succeeded; in that case `Scale` returns
`(newInstances, nil)`, the history entry has status succeeded and
`newInstances` is the count that was set. -/
theorem Scale_cooldown_update (c : Collaborators) (store : ScheduleStore) (appId : String)
    (trigger : Trigger) (updateAnswer : String → Int → Option GoError) :
    Scale { c with updateScalingCooldownExpireTime := updateAnswer } store appId trigger
        = Scale c store appId trigger
      ∧ (cooldownUpdates (Scale c store appId trigger).trace
            = [wrapInt64 (c.now + trigger.CoolDown)]
        ∨ cooldownUpdates (Scale c store appId trigger).trace = [])
      ∧ (isInt64 (c.now + trigger.CoolDown) →
          wrapInt64 (c.now + trigger.CoolDown) = c.now + trigger.CoolDown)
      ∧ (cooldownUpdates (Scale c store appId trigger).trace ≠ []
          ↔ ∃ n, Call.setAppInstances appId n ∈ (Scale c store appId trigger).trace
              ∧ c.setAppInstances appId n = none)
      ∧ ((∃ n, Call.setAppInstances appId n ∈ (Scale c store appId trigger).trace
              ∧ c.setAppInstances appId n = none) →
          ∃ n h, (Scale c store appId trigger).result = .returned (n, none)
            ∧ savedHistories (Scale c store appId trigger).trace = [h]
            ∧ h.Status = some .succeeded ∧ h.NewInstances = n
            ∧ platformSets (Scale c store appId trigger).trace = [n]) := by
  refine ⟨rfl, ?_⟩
  suffices hmain : (cooldownUpdates (Scale c store appId trigger).trace
            = [wrapInt64 (c.now + trigger.CoolDown)]
        ∨ cooldownUpdates (Scale c store appId trigger).trace = [])
      ∧ (cooldownUpdates (Scale c store appId trigger).trace ≠ []
          ↔ ∃ n, Call.setAppInstances appId n ∈ (Scale c store appId trigger).trace
              ∧ c.setAppInstances appId n = none)
      ∧ ((∃ n, Call.setAppInstances appId n ∈ (Scale c store appId trigger).trace
              ∧ c.setAppInstances appId n = none) →
          ∃ n h, (Scale c store appId trigger).result = .returned (n, none)
            ∧ savedHistories (Scale c store appId trigger).trace = [h]
            ∧ h.Status = some .succeeded ∧ h.NewInstances = n
            ∧ platformSets (Scale c store appId trigger).trace = [n]) from
    ⟨hmain.1, wrapInt64_of_isInt64 _, hmain.2⟩
  have htail : ∀ (xs : List Call) (h : AppScalingHistory),
      cooldownUpdates (xs ++ [.saveScalingHistory h, .unlock appId]) = cooldownUpdates xs
        ∧ platformSets (xs ++ [.saveScalingHistory h, .unlock appId]) = platformSets xs
        ∧ savedHistories (xs ++ [.saveScalingHistory h, .unlock appId])
            = savedHistories xs ++ [h]
        ∧ ∀ n, (Call.setAppInstances appId n ∈ xs ++ [.saveScalingHistory h, .unlock appId]
            ↔ Call.setAppInstances appId n ∈ xs) := by
    intro xs h
    simp [cooldownUpdates, platformSets, savedHistories, List.filterMap_append]
  unfold Scale scaleBody dbGetActiveSchedule
  dsimp only
  rcases c.getAppInstances appId with err | instances
  · simp [cooldownUpdates]
  dsimp only
  rcases c.canScaleApp appId with err | (_ | _)
  · simp [cooldownUpdates]
  · simp [cooldownUpdates]
  dsimp only
  rcases ComputeNewInstances instances trigger.Adjustment with ⟨k, _ | err⟩
  swap
  · simp [cooldownUpdates]
  dsimp only
  rcases c.getActiveScheduleErr appId with _ | err
  swap
  · simp [cooldownUpdates]
  dsimp only
  rcases store appId with _ | sch
  · dsimp only
    rcases c.getAppPolicy appId with err | (_ | policy)
    · simp [cooldownUpdates]
    · simp [cooldownUpdates]
    · dsimp only
      obtain ⟨g1, g2, g3⟩ := scaleApply_cooldown c appId trigger c.now
        { AppId := appId, Timestamp := c.now, ScalingType := .dynamic, OldInstances := instances,
          NewInstances := -1, Reason := getDynamicScalingReason trigger, Status := none,
          Error := "", Message := "" } instances k policy.InstanceMin policy.InstanceMax
        [.lock appId, .clockNow]
        [.getAppInstances appId, .canScaleApp appId, .getActiveSchedule appId,
          .getAppPolicy appId]
        (by simp [cooldownUpdates, platformSets])
      simp only [(htail _ _).1, (htail _ _).2.1, (htail _ _).2.2.2]
      refine ⟨g1, g2, fun hx => ?_⟩
      obtain ⟨n, e1, e2, e3, e4⟩ := g3 hx
      exact ⟨n, _, e1, by rw [(htail _ _).2.2.1, savedHistories_append, scaleApply_saved]; rfl, e2, e3, e4⟩
  · dsimp only
    obtain ⟨g1, g2, g3⟩ := scaleApply_cooldown c appId trigger c.now
      { AppId := appId, Timestamp := c.now, ScalingType := .dynamic, OldInstances := instances,
        NewInstances := -1, Reason := getDynamicScalingReason trigger, Status := none,
        Error := "", Message := "" } instances k sch.InstanceMin sch.InstanceMax
      [.lock appId, .clockNow]
      [.getAppInstances appId, .canScaleApp appId, .getActiveSchedule appId]
      (by simp [cooldownUpdates, platformSets])
    simp only [(htail _ _).1, (htail _ _).2.1, (htail _ _).2.2.2]
    refine ⟨g1, g2, fun hx => ?_⟩
    obtain ⟨n, e1, e2, e3, e4⟩ := g3 hx
    exact ⟨n, _, e1, by rw [(htail _ _).2.2.1, savedHistories_append, scaleApply_saved]; rfl, e2, e3, e4⟩

/-- C12 example: four instances, `"+1"`, policy `[1, 10]`, no schedule, not in
cooldown, clock at 1000 and a cooldown of 300 s. The platform is set to 5, the
expiry `1000 + 300000000000` is written, and `Scale` returns `(5, nil)` with
status succeeded, also when the expiry update fails. -/
theorem Scale_cooldown_update_example :
    Scale { fixedCollaborators 4 true (some ⟨1, 10⟩) with
          updateScalingCooldownExpireTime := fun _ _ => some (.collaborator "database down") }
        emptyStore "app" (sampleTrigger "+1")
        = Scale (fixedCollaborators 4 true (some ⟨1, 10⟩)) emptyStore "app" (sampleTrigger "+1")
      ∧ (Scale (fixedCollaborators 4 true (some ⟨1, 10⟩)) emptyStore "app"
        (sampleTrigger "+1")).result = .returned (5, none)
      ∧ cooldownUpdates (Scale (fixedCollaborators 4 true (some ⟨1, 10⟩)) emptyStore "app"
        (sampleTrigger "+1")).trace = [300000001000]
      ∧ platformSets (Scale (fixedCollaborators 4 true (some ⟨1, 10⟩)) emptyStore "app"
        (sampleTrigger "+1")).trace = [5]
      ∧ (savedHistories (Scale (fixedCollaborators 4 true (some ⟨1, 10⟩)) emptyStore "app"
        (sampleTrigger "+1")).trace).map (fun h => (h.Status, h.OldInstances, h.NewInstances))
          = [(some .succeeded, 4, 5)]
      ∧ (savedHistories (Scale { fixedCollaborators 4 true (some ⟨1, 10⟩) with
            updateScalingCooldownExpireTime := fun _ _ => some (.collaborator "database down") }
          emptyStore "app" (sampleTrigger "+1")).trace).map
            (fun h => (h.Status, h.OldInstances, h.NewInstances))
          = [(some .succeeded, 4, 5)] :=
  ⟨(Scale_cooldown_update (fixedCollaborators 4 true (some ⟨1, 10⟩)) emptyStore "app"
      (sampleTrigger "+1") (fun _ _ => some (.collaborator "database down"))).1,
    by decide, by decide, by decide, by decide, by decide⟩

/-! ## C13: the clamp of `SetActiveSchedule` -/

/-- C13: when `SetActiveSchedule` reaches its clamp step (no schedule with the
same id is stored, the fetch and the write succeed, the platform reports
`current`), let `target` be `current` clamped to
`[max instanceMinInitial instanceMin, instanceMax]`. The one history entry has
`oldInstances = current` and `newInstances = target`. If `target = current` its
status is ignored, nil is returned and the platform is not set; otherwise the
platform is set exactly once, to `target`, and the status is succeeded with nil
returned when that call succeeds, failed with the error returned when it fails.
The cooldown is neither checked nor written. -/
theorem SetActiveSchedule_clamp (c : Collaborators) (store : ScheduleStore) (appId : String)
    (schedule : ActiveSchedule) (current : Int)
    (hfetch : c.getActiveScheduleErr appId = none)
    (hother : ∀ cur, store appId = some cur → cur.ScheduleId ≠ schedule.ScheduleId)
    (hwrite : c.setActiveScheduleErr appId schedule = none)
    (hget : c.getAppInstances appId = .ok current) :
    ∃ h, savedHistories (SetActiveSchedule c store appId schedule).trace = [h]
      ∧ h.OldInstances = current
      ∧ h.NewInstances = clampCount (scheduleStartMin schedule) schedule.InstanceMax current
      ∧ cooldownUpdates (SetActiveSchedule c store appId schedule).trace = []
      ∧ (∀ a, Call.canScaleApp a ∉ (SetActiveSchedule c store appId schedule).trace)
      ∧ (clampCount (scheduleStartMin schedule) schedule.InstanceMax current = current →
          h.Status = some .ignored
            ∧ (SetActiveSchedule c store appId schedule).result = .returned none
            ∧ platformSets (SetActiveSchedule c store appId schedule).trace = [])
      ∧ (clampCount (scheduleStartMin schedule) schedule.InstanceMax current ≠ current →
          platformSets (SetActiveSchedule c store appId schedule).trace
              = [clampCount (scheduleStartMin schedule) schedule.InstanceMax current]
            ∧ (c.setAppInstances appId
                  (clampCount (scheduleStartMin schedule) schedule.InstanceMax current) = none →
                h.Status = some .succeeded
                  ∧ (SetActiveSchedule c store appId schedule).result = .returned none)
            ∧ (∀ err, c.setAppInstances appId
                  (clampCount (scheduleStartMin schedule) schedule.InstanceMax current)
                    = some err →
                h.Status = some .failed
                  ∧ (SetActiveSchedule c store appId schedule).result
                      = .returned (some err))) := by
  rw [SetActiveSchedule_run_clamp c store appId schedule current hfetch hother hwrite hget]
  by_cases hsame : clampCount (scheduleStartMin schedule) schedule.InstanceMax current = current
  · simp [hsame, savedHistories, cooldownUpdates, platformSets]
  · rcases hs : c.setAppInstances appId
        (clampCount (scheduleStartMin schedule) schedule.InstanceMax current) with _ | err <;>
      simp [hsame, savedHistories, cooldownUpdates, platformSets]

/-- C13 witness: two instances, a schedule with `instanceMin = 3`,
`instanceMinInitial = 5`, `instanceMax = 10` and nothing stored before: the
platform is set to 5 and the status is succeeded. -/
theorem SetActiveSchedule_clamp_witness :
    (∃ h, savedHistories (SetActiveSchedule (fixedCollaborators 2 true none) emptyStore "app"
          ⟨"s", 3, 10, 5⟩).trace = [h]
      ∧ h.OldInstances = 2
      ∧ h.NewInstances = clampCount (scheduleStartMin ⟨"s", 3, 10, 5⟩) 10 2
      ∧ cooldownUpdates (SetActiveSchedule (fixedCollaborators 2 true none) emptyStore "app"
          ⟨"s", 3, 10, 5⟩).trace = []
      ∧ (∀ a, Call.canScaleApp a ∉ (SetActiveSchedule (fixedCollaborators 2 true none) emptyStore
          "app" ⟨"s", 3, 10, 5⟩).trace)
      ∧ (clampCount (scheduleStartMin ⟨"s", 3, 10, 5⟩) 10 2 = 2 →
          h.Status = some .ignored
            ∧ (SetActiveSchedule (fixedCollaborators 2 true none) emptyStore "app"
                ⟨"s", 3, 10, 5⟩).result = .returned none
            ∧ platformSets (SetActiveSchedule (fixedCollaborators 2 true none) emptyStore "app"
                ⟨"s", 3, 10, 5⟩).trace = [])
      ∧ (clampCount (scheduleStartMin ⟨"s", 3, 10, 5⟩) 10 2 ≠ 2 →
          platformSets (SetActiveSchedule (fixedCollaborators 2 true none) emptyStore "app"
                ⟨"s", 3, 10, 5⟩).trace = [clampCount (scheduleStartMin ⟨"s", 3, 10, 5⟩) 10 2]
            ∧ ((fixedCollaborators 2 true none).setAppInstances "app"
                  (clampCount (scheduleStartMin ⟨"s", 3, 10, 5⟩) 10 2) = none →
                h.Status = some .succeeded
                  ∧ (SetActiveSchedule (fixedCollaborators 2 true none) emptyStore "app"
                      ⟨"s", 3, 10, 5⟩).result = .returned none)
            ∧ (∀ err, (fixedCollaborators 2 true none).setAppInstances "app"
                  (clampCount (scheduleStartMin ⟨"s", 3, 10, 5⟩) 10 2) = some err →
                h.Status = some .failed
                  ∧ (SetActiveSchedule (fixedCollaborators 2 true none) emptyStore "app"
                      ⟨"s", 3, 10, 5⟩).result = .returned (some err))))
      ∧ clampCount (scheduleStartMin ⟨"s", 3, 10, 5⟩) 10 2 = 5
      ∧ platformSets (SetActiveSchedule (fixedCollaborators 2 true none) emptyStore "app"
          ⟨"s", 3, 10, 5⟩).trace = [5]
      ∧ (savedHistories (SetActiveSchedule (fixedCollaborators 2 true none) emptyStore "app"
          ⟨"s", 3, 10, 5⟩).trace).map (fun h => (h.Status, h.OldInstances, h.NewInstances))
          = [(some .succeeded, 2, 5)] :=
  ⟨SetActiveSchedule_clamp (fixedCollaborators 2 true none) emptyStore "app" ⟨"s", 3, 10, 5⟩ 2
      rfl (by intro cur h; cases h) rfl rfl,
    by decide, by decide, by decide⟩

/-! ## The clamp messages are told apart -/

theorem minMessage_ne_maxMessage (s t : String) :
    "limited by min instances " ++ s ≠ "limited by max instances " ++ t := by
  intro h
  have hd := congrArg String.data h
  have e1 : "limited by min instances ".data
      = ['l', 'i', 'm', 'i', 't', 'e', 'd', ' ', 'b', 'y', ' ', 'm', 'i', 'n', ' ',
         'i', 'n', 's', 't', 'a', 'n', 'c', 'e', 's', ' '] := rfl
  have e2 : "limited by max instances ".data
      = ['l', 'i', 'm', 'i', 't', 'e', 'd', ' ', 'b', 'y', ' ', 'm', 'a', 'x', ' ',
         'i', 'n', 's', 't', 'a', 'n', 'c', 'e', 's', ' '] := rfl
  rw [String.data_append, String.data_append, e1, e2] at hd
  simp at hd

theorem minMessage_ne_empty (s : String) : "limited by min instances " ++ s ≠ "" := by
  intro h
  have hd := congrArg String.length h
  rw [String.length_append] at hd
  have e1 : "limited by min instances ".length = 25 := rfl
  have e2 : "".length = 0 := rfl
  omega

theorem maxMessage_ne_empty (s : String) : "limited by max instances " ++ s ≠ "" := by
  intro h
  have hd := congrArg String.length h
  rw [String.length_append] at hd
  have e1 : "limited by max instances ".length = 25 := rfl
  have e2 : "".length = 0 := rfl
  omega

/-- The clamp message names the bound that limited the count, and only then. -/
theorem clampMessage_iff (lo hi n : Int) :
    (clampMessage lo hi n = "limited by min instances " ++ toString lo ↔ n < lo)
      ∧ (clampMessage lo hi n = "limited by max instances " ++ toString hi ↔ lo ≤ n ∧ n > hi)
      ∧ (clampMessage lo hi n = "" ↔ lo ≤ n ∧ n ≤ hi) := by
  unfold clampMessage
  by_cases h1 : n < lo
  · simp only [if_pos h1]
    refine ⟨⟨fun _ => h1, fun _ => trivial⟩, ?_, ?_⟩
    · constructor
      · intro h
        exact absurd h (minMessage_ne_maxMessage _ _)
      · intro h
        omega
    · constructor
      · intro h
        exact absurd h (minMessage_ne_empty _)
      · intro h
        omega
  · by_cases h2 : n > hi
    · simp only [if_neg h1, if_pos h2]
      refine ⟨?_, ?_, ?_⟩
      · constructor
        · intro h
          exact absurd h.symm (minMessage_ne_maxMessage _ _)
        · intro h
          exact absurd h h1
      · constructor
        · intro _
          exact ⟨by omega, h2⟩
        · intro _
          trivial
      · constructor
        · intro h
          exact absurd h (maxMessage_ne_empty _)
        · intro h
          omega
    · simp only [if_neg h1, if_neg h2]
      refine ⟨?_, ?_, ?_⟩
      · constructor
        · intro h
          exact absurd h.symm (minMessage_ne_empty _)
        · intro h
          exact absurd h h1
      · constructor
        · intro h
          exact absurd h.symm (maxMessage_ne_empty _)
        · intro h
          omega
      · constructor
        · intro _
          omega
        · intro _
          trivial

/-! ## C14: the clamp of `RemoveActiveSchedule` -/

/-- C14 as stated fails: seven instances, the stored schedule `"s"` is removed,
the policy is `[1, 4]`, so the target 4 differs from the current count; the
platform refuses the set-instances call, and the status is failed (with the
error returned), not succeeded. -/
theorem RemoveActiveSchedule_clamp_counterexample :
    (RemoveActiveSchedule { fixedCollaborators 7 true (some ⟨1, 4⟩) with
          setAppInstances := fun _ _ => some (.collaborator "platform unavailable") }
        (singleStore ⟨"s", 2, 8, 2⟩) "app" "s").result
        = .returned (some (.collaborator "platform unavailable"))
      ∧ platformSets (RemoveActiveSchedule { fixedCollaborators 7 true (some ⟨1, 4⟩) with
          setAppInstances := fun _ _ => some (.collaborator "platform unavailable") }
        (singleStore ⟨"s", 2, 8, 2⟩) "app" "s").trace = [4]
      ∧ (savedHistories (RemoveActiveSchedule { fixedCollaborators 7 true (some ⟨1, 4⟩) with
          setAppInstances := fun _ _ => some (.collaborator "platform unavailable") }
        (singleStore ⟨"s", 2, 8, 2⟩) "app" "s").trace).map
          (fun h => (h.Status, h.OldInstances, h.NewInstances, h.Message))
        = [(some .failed, 7, 4, "limited by max instances 4")]
      ∧ clampCount 1 4 7 ≠ 7 := by
  decide

/-- C14 (amended): let `RemoveActiveSchedule` get past the removal (the stored
schedule has the id asked for, fetch and removal succeed) and let the platform
report `current`. If the policy store answers "no policy", the status is
ignored, nil is returned, `newInstances` stays -1 and the platform is not set.
If it answers a policy, `newInstances` is `current` clamped to the policy's
`[instanceMin, instanceMax]`; the message is "limited by min instances M"
exactly when `current` is below the minimum, "limited by max instances M"
exactly when it is not and `current` is above the maximum, and empty otherwise;
an unchanged count gives status ignored and no platform call; a changed count is
sent to the platform once, with status succeeded and nil returned when that
call succeeds, and status failed with the error returned when it fails. -/
theorem RemoveActiveSchedule_clamp (c : Collaborators) (store : ScheduleStore) (appId : String)
    (scheduleId : String) (cur : ActiveSchedule) (current : Int)
    (hfetch : c.getActiveScheduleErr appId = none)
    (hstored : store appId = some cur)
    (hid : cur.ScheduleId = scheduleId)
    (hremove : c.removeActiveScheduleErr appId = none)
    (hget : c.getAppInstances appId = .ok current) :
    (c.getAppPolicy appId = .ok none →
        ∃ h, savedHistories (RemoveActiveSchedule c store appId scheduleId).trace = [h]
          ∧ h.Status = some .ignored ∧ h.OldInstances = current ∧ h.NewInstances = -1
          ∧ (RemoveActiveSchedule c store appId scheduleId).result = .returned none
          ∧ platformSets (RemoveActiveSchedule c store appId scheduleId).trace = [])
      ∧ (∀ policy, c.getAppPolicy appId = .ok (some policy) →
        ∃ h, savedHistories (RemoveActiveSchedule c store appId scheduleId).trace = [h]
          ∧ h.OldInstances = current
          ∧ h.NewInstances = clampCount policy.InstanceMin policy.InstanceMax current
          ∧ (h.Message = "limited by min instances " ++ toString policy.InstanceMin
              ↔ current < policy.InstanceMin)
          ∧ (h.Message = "limited by max instances " ++ toString policy.InstanceMax
              ↔ policy.InstanceMin ≤ current ∧ current > policy.InstanceMax)
          ∧ (h.Message = "" ↔ policy.InstanceMin ≤ current ∧ current ≤ policy.InstanceMax)
          ∧ (clampCount policy.InstanceMin policy.InstanceMax current = current →
              h.Status = some .ignored
                ∧ (RemoveActiveSchedule c store appId scheduleId).result = .returned none
                ∧ platformSets (RemoveActiveSchedule c store appId scheduleId).trace = [])
          ∧ (clampCount policy.InstanceMin policy.InstanceMax current ≠ current →
              platformSets (RemoveActiveSchedule c store appId scheduleId).trace
                  = [clampCount policy.InstanceMin policy.InstanceMax current]
                ∧ (c.setAppInstances appId
                      (clampCount policy.InstanceMin policy.InstanceMax current) = none →
                    h.Status = some .succeeded
                      ∧ (RemoveActiveSchedule c store appId scheduleId).result = .returned none)
                ∧ (∀ err, c.setAppInstances appId
                      (clampCount policy.InstanceMin policy.InstanceMax current) = some err →
                    h.Status = some .failed
                      ∧ (RemoveActiveSchedule c store appId scheduleId).result
                          = .returned (some err)))) := by
  rw [RemoveActiveSchedule_run c store appId scheduleId cur current hfetch hstored hid hremove hget]
  constructor
  · intro hp
    rw [hp]
    simp [savedHistories, platformSets, scheduleEndHistory]
  · intro policy hp
    rw [hp]
    dsimp only
    obtain ⟨m1, m2, m3⟩ := clampMessage_iff policy.InstanceMin policy.InstanceMax current
    by_cases hsame : clampCount policy.InstanceMin policy.InstanceMax current = current
    · rw [if_pos hsame]
      refine ⟨_, rfl, rfl, rfl, m1, m2, m3, fun _ => ⟨rfl, rfl, rfl⟩, fun h => absurd hsame h⟩
    · rw [if_neg hsame]
      rcases hs : c.setAppInstances appId
          (clampCount policy.InstanceMin policy.InstanceMax current) with _ | err
      · dsimp only
        refine ⟨_, rfl, rfl, rfl, m1, m2, m3, fun h => absurd h hsame, fun _ => ⟨rfl, ?_, ?_⟩⟩
        · intro _
          exact ⟨rfl, rfl⟩
        · intro e he
          cases he
      · dsimp only
        refine ⟨_, rfl, rfl, rfl, m1, m2, m3, fun h => absurd h hsame, fun _ => ⟨rfl, ?_, ?_⟩⟩
        · intro he
          cases he
        · intro e he
          cases he
          exact ⟨rfl, rfl⟩

/-- C14 witness: seven instances, the stored schedule `"s"` is removed and the
policy is `[1, 4]`: the new count is 4, the message is
"limited by max instances 4", the platform is set to 4 and the status is
succeeded. -/
theorem RemoveActiveSchedule_clamp_witness :
    ∃ h, savedHistories (RemoveActiveSchedule (fixedCollaborators 7 true (some ⟨1, 4⟩))
          (singleStore ⟨"s", 2, 8, 2⟩) "app" "s").trace = [h]
      ∧ h.OldInstances = 7
      ∧ h.NewInstances = 4
      ∧ h.Message = "limited by max instances 4"
      ∧ h.Status = some .succeeded
      ∧ (RemoveActiveSchedule (fixedCollaborators 7 true (some ⟨1, 4⟩))
          (singleStore ⟨"s", 2, 8, 2⟩) "app" "s").result = .returned none
      ∧ platformSets (RemoveActiveSchedule (fixedCollaborators 7 true (some ⟨1, 4⟩))
          (singleStore ⟨"s", 2, 8, 2⟩) "app" "s").trace = [4] := by
  obtain ⟨h, hs, ho, hn, _, m2, _, _, hdiff⟩ :=
    (RemoveActiveSchedule_clamp (fixedCollaborators 7 true (some ⟨1, 4⟩))
      (singleStore ⟨"s", 2, 8, 2⟩) "app" "s" ⟨"s", 2, 8, 2⟩ 7 rfl rfl rfl rfl rfl).2 ⟨1, 4⟩ rfl
  obtain ⟨hp, hok, _⟩ := hdiff (by decide)
  exact ⟨h, hs, ho, hn.trans (by decide), (m2.mpr ⟨by decide, by decide⟩).trans (by decide),
    (hok rfl).1, (hok rfl).2, hp.trans (by decide)⟩

/-! ## C17: the clamp message of `Scale` -/

theorem savedHistories_boundsFetches (store : ScheduleStore) (appId : String) :
    savedHistories (boundsFetches store appId) = [] := by
  unfold boundsFetches
  rw [savedHistories_append]
  split_ifs <;> rfl

/-- C17: when `Scale` reaches the clamp step (the platform reports `current`,
the app is out of cooldown, the adjustment yields `proposed`, and the effective
bounds are `[lo, hi]`), the one history entry has `newInstances` equal to the
clamp of `proposed`, and its message is "limited by min instances <lo>" exactly
when `proposed < lo`, "limited by max instances <hi>" exactly when
`proposed >= lo` and `proposed > hi`, and empty exactly otherwise; this holds
whatever the status, and when the clamped value equals `current` the status is
ignored. -/
theorem Scale_clamp_message (c : Collaborators) (store : ScheduleStore) (appId : String)
    (trigger : Trigger) (current proposed lo hi : Int)
    (hget : c.getAppInstances appId = .ok current)
    (hcool : c.canScaleApp appId = .ok true)
    (hcompute : ComputeNewInstances current trigger.Adjustment = (proposed, none))
    (hfetch : c.getActiveScheduleErr appId = none)
    (hbounds : effectiveBounds c store appId = some (lo, hi)) :
    ∃ h, savedHistories (Scale c store appId trigger).trace = [h]
      ∧ h.NewInstances = clampCount lo hi proposed
      ∧ (h.Message = "limited by min instances " ++ toString lo ↔ proposed < lo)
      ∧ (h.Message = "limited by max instances " ++ toString hi ↔ lo ≤ proposed ∧ proposed > hi)
      ∧ (h.Message = "" ↔ lo ≤ proposed ∧ proposed ≤ hi)
      ∧ (clampCount lo hi proposed = current → h.Status = some .ignored)
      ∧ (clampCount lo hi proposed ≠ current →
          c.setAppInstances appId (clampCount lo hi proposed) = none →
            h.Status = some .succeeded) := by
  rw [Scale_run_clamp c store appId trigger current proposed lo hi hget hcool hcompute hfetch
    hbounds]
  obtain ⟨m1, m2, m3⟩ := clampMessage_iff lo hi proposed
  by_cases hsame : clampCount lo hi proposed = current
  · rw [if_pos hsame]
    dsimp only
    rw [savedHistories_append, savedHistories_boundsFetches]
    exact ⟨_, rfl, rfl, m1, m2, m3, fun _ => rfl, fun h => absurd hsame h⟩
  · rw [if_neg hsame]
    rcases hs : c.setAppInstances appId (clampCount lo hi proposed) with _ | err
    · dsimp only
      rw [savedHistories_append, savedHistories_boundsFetches]
      exact ⟨_, rfl, rfl, m1, m2, m3, fun h => absurd h hsame, fun _ _ => rfl⟩
    · dsimp only
      rw [savedHistories_append, savedHistories_boundsFetches]
      refine ⟨_, rfl, rfl, m1, m2, m3, fun h => absurd h hsame, fun _ he => ?_⟩
      cases he

/-- C17 witness: three instances, adjustment `"-5"`, no schedule and the policy
`[2, 10]`: the new count is 2, the message is "limited by min instances 2" and
the status is succeeded. -/
theorem Scale_clamp_message_witness :
    ∃ h, savedHistories (Scale (fixedCollaborators 3 true (some ⟨2, 10⟩)) emptyStore "app"
          (sampleTrigger "-5")).trace = [h]
      ∧ h.NewInstances = 2
      ∧ h.Message = "limited by min instances 2"
      ∧ h.Status = some .succeeded
      ∧ ComputeNewInstances 3 "-5" = (-2, none) := by
  obtain ⟨h, hs, hn, m1, _, _, _, hdiff⟩ :=
    Scale_clamp_message (fixedCollaborators 3 true (some ⟨2, 10⟩)) emptyStore "app"
      (sampleTrigger "-5") 3 (-2) 2 10 rfl rfl (by decide) rfl rfl
  exact ⟨h, hs, hn.trans (by decide), (m1.mpr (by decide)).trans (by decide),
    hdiff (by decide) rfl, by decide⟩

/-! ## C18: the clamp message of `SetActiveSchedule` -/

/-- C18: when `SetActiveSchedule` reaches the clamp step (no schedule with the
same id is stored, the write succeeds and the platform reports `current`), with
`effectiveMin = max(instanceMinInitial, instanceMin)`: if `current` is at least
`effectiveMin` and above `instanceMax`, the new count is `instanceMax` and the
message is "limited by max instances <effectiveMin>"; if `current` is below
`effectiveMin`, the new count is `effectiveMin` and the message is
"limited by min instances <effectiveMin>". -/
theorem SetActiveSchedule_clamp_message (c : Collaborators) (store : ScheduleStore)
    (appId : String) (schedule : ActiveSchedule) (current : Int)
    (hfetch : c.getActiveScheduleErr appId = none)
    (hother : ∀ cur, store appId = some cur → cur.ScheduleId ≠ schedule.ScheduleId)
    (hwrite : c.setActiveScheduleErr appId schedule = none)
    (hget : c.getAppInstances appId = .ok current) :
    ∃ h, savedHistories (SetActiveSchedule c store appId schedule).trace = [h]
      ∧ (max schedule.InstanceMinInitial schedule.InstanceMin ≤ current →
          current > schedule.InstanceMax →
            h.NewInstances = schedule.InstanceMax
              ∧ h.Message = "limited by max instances "
                  ++ toString (max schedule.InstanceMinInitial schedule.InstanceMin))
      ∧ (current < max schedule.InstanceMinInitial schedule.InstanceMin →
            h.NewInstances = max schedule.InstanceMinInitial schedule.InstanceMin
              ∧ h.Message = "limited by min instances "
                  ++ toString (max schedule.InstanceMinInitial schedule.InstanceMin)) := by
  rw [SetActiveSchedule_run_clamp c store appId schedule current hfetch hother hwrite hget]
  have hmax : max schedule.InstanceMinInitial schedule.InstanceMin ≤ current →
      current > schedule.InstanceMax →
        clampCount (scheduleStartMin schedule) schedule.InstanceMax current
            = schedule.InstanceMax
          ∧ scheduleStartMessage schedule current = "limited by max instances "
              ++ toString (max schedule.InstanceMinInitial schedule.InstanceMin) := by
    intro h1 h2
    unfold clampCount scheduleStartMessage scheduleStartMin
    rw [if_neg (not_lt.mpr h1), if_pos h2, if_neg (not_lt.mpr h1), if_pos h2]
    exact ⟨rfl, rfl⟩
  have hmin : current < max schedule.InstanceMinInitial schedule.InstanceMin →
        clampCount (scheduleStartMin schedule) schedule.InstanceMax current
            = max schedule.InstanceMinInitial schedule.InstanceMin
          ∧ scheduleStartMessage schedule current = "limited by min instances "
              ++ toString (max schedule.InstanceMinInitial schedule.InstanceMin) := by
    intro h1
    unfold clampCount scheduleStartMessage scheduleStartMin
    rw [if_pos h1, if_pos h1]
    exact ⟨rfl, rfl⟩
  by_cases hsame : clampCount (scheduleStartMin schedule) schedule.InstanceMax current = current
  · rw [if_pos hsame]
    exact ⟨_, rfl, hmax, hmin⟩
  · rw [if_neg hsame]
    rcases hs : c.setAppInstances appId
        (clampCount (scheduleStartMin schedule) schedule.InstanceMax current) with _ | err
    · exact ⟨_, rfl, hmax, hmin⟩
    · exact ⟨_, rfl, hmax, hmin⟩

/-- C18 witness: twelve instances and a schedule with `instanceMin = 3`,
`instanceMinInitial = 5`, `instanceMax = 10`: the new count is 10 and the
message is "limited by max instances 5"; with two instances the message is
"limited by min instances 5". -/
theorem SetActiveSchedule_clamp_message_witness :
    (∃ h, savedHistories (SetActiveSchedule (fixedCollaborators 12 true none) emptyStore "app"
          ⟨"s", 3, 10, 5⟩).trace = [h]
      ∧ h.NewInstances = 10
      ∧ h.Message = "limited by max instances 5")
    ∧ (savedHistories (SetActiveSchedule (fixedCollaborators 2 true none) emptyStore "app"
          ⟨"s", 3, 10, 5⟩).trace).map (fun h => (h.NewInstances, h.Message))
        = [(5, "limited by min instances 5")] := by
  obtain ⟨h, hs, hmax, _⟩ :=
    SetActiveSchedule_clamp_message (fixedCollaborators 12 true none) emptyStore "app"
      ⟨"s", 3, 10, 5⟩ 12 rfl (by intro cur h; cases h) rfl rfl
  exact ⟨⟨h, hs, (hmax (by decide) (by decide)).1,
    (hmax (by decide) (by decide)).2.trans (by decide)⟩, by decide⟩

/-! ## C16: the sentinel -1 in the saved counts -/

theorem scaleApply_old (c : Collaborators) (appId : String) (trigger : Trigger) (now : Int)
    (history : AppScalingHistory) (instances newInstances lo hi : Int) (calls : List Call) :
    (scaleApply c appId trigger now history instances newInstances lo hi calls).1.OldInstances
      = history.OldInstances := by
  unfold scaleApply
  dsimp only
  split_ifs <;> (try split) <;> rfl

theorem scaleBody_old (c : Collaborators) (store : ScheduleStore) (appId : String)
    (trigger : Trigger) (now : Int) (history : AppScalingHistory) (n : Int)
    (hget : c.getAppInstances appId = .ok n) :
    (scaleBody c store appId trigger now history).1.OldInstances = n := by
  unfold scaleBody dbGetActiveSchedule
  rw [hget]
  dsimp only
  rcases c.canScaleApp appId with err | (_ | _)
  · rfl
  · rfl
  dsimp only
  rcases ComputeNewInstances n trigger.Adjustment with ⟨k, _ | err⟩
  swap
  · rfl
  dsimp only
  rcases c.getActiveScheduleErr appId with _ | err
  swap
  · rfl
  dsimp only
  rcases store appId with _ | schedule
  swap
  · dsimp only
    rw [scaleApply_old]
  dsimp only
  rcases c.getAppPolicy appId with err | (_ | policy)
  · rfl
  · rfl
  · dsimp only
    rw [scaleApply_old]

theorem setActiveScheduleBody_old (c : Collaborators) (appId : String)
    (schedule : ActiveSchedule) (history : AppScalingHistory) (n : Int)
    (hget : c.getAppInstances appId = .ok n) :
    (setActiveScheduleBody c appId schedule history).1.OldInstances = n := by
  unfold setActiveScheduleBody
  rw [hget]
  dsimp only
  split_ifs <;> (try split) <;> rfl

theorem removeActiveScheduleBody_old (c : Collaborators) (appId : String)
    (history : AppScalingHistory) (n : Int)
    (hget : c.getAppInstances appId = .ok n) :
    (removeActiveScheduleBody c appId history).1.OldInstances = n := by
  unfold removeActiveScheduleBody
  rw [hget]
  dsimp only
  rcases c.getAppPolicy appId with err | (_ | policy)
  · rfl
  · rfl
  dsimp only
  split_ifs <;> (try split) <;> rfl

/-- Every entry `Scale` saves carries the count the platform reported. -/
theorem Scale_saved_old (c : Collaborators) (store : ScheduleStore) (appId : String)
    (trigger : Trigger) (n : Int) (hget : c.getAppInstances appId = .ok n) :
    ∀ h ∈ savedHistories (Scale c store appId trigger).trace, h.OldInstances = n := by
  intro h hmem
  rw [Scale_saved, List.mem_singleton] at hmem
  rw [hmem]
  exact scaleBody_old c store appId trigger _ _ n hget

/-- Every entry `SetActiveSchedule` saves carries the count the platform reported. -/
theorem SetActiveSchedule_saved_old (c : Collaborators) (store : ScheduleStore) (appId : String)
    (schedule : ActiveSchedule) (n : Int) (hget : c.getAppInstances appId = .ok n) :
    ∀ h ∈ savedHistories (SetActiveSchedule c store appId schedule).trace,
      h.OldInstances = n := by
  intro h
  unfold SetActiveSchedule dbGetActiveSchedule dbSetActiveSchedule
  rcases c.getActiveScheduleErr appId with _ | err
  swap
  · simp [savedHistories]
  dsimp only
  split_ifs
  · simp [savedHistories]
  rcases c.setActiveScheduleErr appId schedule with _ | err
  swap
  · simp [savedHistories]
  dsimp only
  rw [savedHistories_append, savedHistories_append, (setActiveScheduleBody_status _ _ _ _).2]
  intro hmem
  have hh : h = (setActiveScheduleBody c appId schedule
      { AppId := appId, Timestamp := c.now, ScalingType := .schedule, OldInstances := -1,
        NewInstances := -1, Reason := getScheduledScalingReason schedule, Status := none,
        Error := "", Message := "" }).1 := by
    simpa [savedHistories] using hmem
  rw [hh]
  exact setActiveScheduleBody_old c appId schedule _ n hget

/-- Every entry `RemoveActiveSchedule` saves carries the count the platform reported. -/
theorem RemoveActiveSchedule_saved_old (c : Collaborators) (store : ScheduleStore)
    (appId : String) (scheduleId : String) (n : Int) (hget : c.getAppInstances appId = .ok n) :
    ∀ h ∈ savedHistories (RemoveActiveSchedule c store appId scheduleId).trace,
      h.OldInstances = n := by
  intro h
  unfold RemoveActiveSchedule dbGetActiveSchedule dbRemoveActiveSchedule
  rcases c.getActiveScheduleErr appId with _ | err
  swap
  · simp [savedHistories]
  dsimp only
  split_ifs
  · simp [savedHistories]
  rcases c.removeActiveScheduleErr appId with _ | err
  swap
  · simp [savedHistories]
  dsimp only
  rw [savedHistories_append, savedHistories_append, (removeActiveScheduleBody_status _ _ _).2]
  intro hmem
  have hh : h = (removeActiveScheduleBody c appId
      { AppId := appId, Timestamp := c.now, ScalingType := .schedule, OldInstances := -1,
        NewInstances := -1, Reason := "schedule ends", Status := none,
        Error := "", Message := "" }).1 := by
    simpa [savedHistories] using hmem
  rw [hh]
  exact removeActiveScheduleBody_old c appId _ n hget

/-- Once `Scale` reaches the clamp step, every entry it saves carries the
clamped count. -/
theorem Scale_saved_new (c : Collaborators) (store : ScheduleStore) (appId : String)
    (trigger : Trigger) (current proposed lo hi : Int)
    (hget : c.getAppInstances appId = .ok current)
    (hcool : c.canScaleApp appId = .ok true)
    (hcompute : ComputeNewInstances current trigger.Adjustment = (proposed, none))
    (hfetch : c.getActiveScheduleErr appId = none)
    (hbounds : effectiveBounds c store appId = some (lo, hi)) :
    ∀ h ∈ savedHistories (Scale c store appId trigger).trace,
      h.NewInstances = clampCount lo hi proposed := by
  intro h
  rw [Scale_run_clamp c store appId trigger current proposed lo hi hget hcool hcompute hfetch
    hbounds]
  split_ifs
  · dsimp only
    rw [savedHistories_append, savedHistories_boundsFetches]
    intro hmem
    rw [show h = _ from by simpa [savedHistories] using hmem]
  · rcases c.setAppInstances appId (clampCount lo hi proposed) with _ | err
    · dsimp only
      rw [savedHistories_append, savedHistories_boundsFetches]
      intro hmem
      rw [show h = _ from by simpa [savedHistories] using hmem]
    · dsimp only
      rw [savedHistories_append, savedHistories_boundsFetches]
      intro hmem
      rw [show h = _ from by simpa [savedHistories] using hmem]

/-- Once `SetActiveSchedule` reaches the clamp step, every entry it saves
carries the clamped count. -/
theorem SetActiveSchedule_saved_new (c : Collaborators) (store : ScheduleStore)
    (appId : String) (schedule : ActiveSchedule) (current : Int)
    (hfetch : c.getActiveScheduleErr appId = none)
    (hother : ∀ cur, store appId = some cur → cur.ScheduleId ≠ schedule.ScheduleId)
    (hwrite : c.setActiveScheduleErr appId schedule = none)
    (hget : c.getAppInstances appId = .ok current) :
    ∀ h ∈ savedHistories (SetActiveSchedule c store appId schedule).trace,
      h.NewInstances = clampCount (scheduleStartMin schedule) schedule.InstanceMax current := by
  intro h
  rw [SetActiveSchedule_run_clamp c store appId schedule current hfetch hother hwrite hget]
  split_ifs
  · intro hmem
    rw [show h = _ from by simpa [savedHistories] using hmem]
  · rcases c.setAppInstances appId
        (clampCount (scheduleStartMin schedule) schedule.InstanceMax current) with _ | err
    · intro hmem
      rw [show h = _ from by simpa [savedHistories] using hmem]
    · intro hmem
      rw [show h = _ from by simpa [savedHistories] using hmem]

/-- Once `RemoveActiveSchedule` reaches the clamp step, every entry it saves
carries the clamped count. -/
theorem RemoveActiveSchedule_saved_new (c : Collaborators) (store : ScheduleStore)
    (appId : String) (scheduleId : String) (cur : ActiveSchedule) (current : Int)
    (policy : ScalingPolicy)
    (hfetch : c.getActiveScheduleErr appId = none)
    (hstored : store appId = some cur)
    (hid : cur.ScheduleId = scheduleId)
    (hremove : c.removeActiveScheduleErr appId = none)
    (hget : c.getAppInstances appId = .ok current)
    (hpolicy : c.getAppPolicy appId = .ok (some policy)) :
    ∀ h ∈ savedHistories (RemoveActiveSchedule c store appId scheduleId).trace,
      h.NewInstances = clampCount policy.InstanceMin policy.InstanceMax current := by
  intro h
  rw [RemoveActiveSchedule_run c store appId scheduleId cur current hfetch hstored hid hremove
    hget, hpolicy]
  dsimp only
  split_ifs
  · intro hmem
    rw [show h = _ from by simpa [savedHistories] using hmem]
  · rcases c.setAppInstances appId
        (clampCount policy.InstanceMin policy.InstanceMax current) with _ | err
    · intro hmem
      rw [show h = _ from by simpa [savedHistories] using hmem]
    · intro hmem
      rw [show h = _ from by simpa [savedHistories] using hmem]

/-- C16 as stated fails, in both halves. First input: the platform reports -1
instances without error, the app is out of cooldown, the adjustment `"+1"`
proposes 0 and the policy is `[0, 10]`; the platform is set to 0 and the saved
entry has status succeeded with `oldInstances = -1`, although the get-instances
call succeeded. Second input: three instances, adjustment `"-4"` and the policy
`[-1, 10]`; the clamp step assigns -1, the platform is set to -1 and the saved
entry has status succeeded with `newInstances = -1`. -/
theorem history_sentinel_counterexample :
    (fixedCollaborators (-1) true (some ⟨0, 10⟩)).getAppInstances "app" = .ok (-1)
      ∧ (savedHistories (Scale (fixedCollaborators (-1) true (some ⟨0, 10⟩)) emptyStore "app"
          (sampleTrigger "+1")).trace).map
            (fun h => (h.Status, h.OldInstances, h.NewInstances))
          = [(some .succeeded, -1, 0)]
      ∧ (Scale (fixedCollaborators (-1) true (some ⟨0, 10⟩)) emptyStore "app"
          (sampleTrigger "+1")).result = .returned (0, none)
      ∧ (savedHistories (Scale (fixedCollaborators 3 true (some ⟨-1, 10⟩)) emptyStore "app"
          (sampleTrigger "-4")).trace).map
            (fun h => (h.Status, h.OldInstances, h.NewInstances))
          = [(some .succeeded, 3, -1)]
      ∧ platformSets (Scale (fixedCollaborators 3 true (some ⟨-1, 10⟩)) emptyStore "app"
          (sampleTrigger "-4")).trace = [-1]
      ∧ (Scale (fixedCollaborators 3 true (some ⟨-1, 10⟩)) emptyStore "app"
          (sampleTrigger "-4")).result = .returned (-1, none) :=
  ⟨rfl, by decide, by decide, by decide, by decide, by decide⟩

/-- C16 (amended): in every history entry saved by `Scale`, `SetActiveSchedule`
or `RemoveActiveSchedule`, `oldInstances` is -1 only if the get-instances call
failed or the platform itself reported -1; and `newInstances` is -1 only if the
decision did not reach its clamp step or the clamped count is itself -1 (that
is: whenever the collaborators' answers lead the decision to the clamp step,
the clamped count is -1). -/
theorem history_sentinel_counts (c : Collaborators) (store : ScheduleStore) (appId : String)
    (trigger : Trigger) (schedule : ActiveSchedule) (scheduleId : String) :
    (∀ h ∈ savedHistories (Scale c store appId trigger).trace,
        (h.OldInstances = -1 →
            (∃ err, c.getAppInstances appId = .error err) ∨ c.getAppInstances appId = .ok (-1))
          ∧ (h.NewInstances = -1 →
              ∀ current proposed lo hi,
                c.getAppInstances appId = .ok current →
                c.canScaleApp appId = .ok true →
                ComputeNewInstances current trigger.Adjustment = (proposed, none) →
                c.getActiveScheduleErr appId = none →
                effectiveBounds c store appId = some (lo, hi) →
                  clampCount lo hi proposed = -1))
      ∧ (∀ h ∈ savedHistories (SetActiveSchedule c store appId schedule).trace,
        (h.OldInstances = -1 →
            (∃ err, c.getAppInstances appId = .error err) ∨ c.getAppInstances appId = .ok (-1))
          ∧ (h.NewInstances = -1 →
              ∀ current,
                c.getActiveScheduleErr appId = none →
                (∀ cur, store appId = some cur → cur.ScheduleId ≠ schedule.ScheduleId) →
                c.setActiveScheduleErr appId schedule = none →
                c.getAppInstances appId = .ok current →
                  clampCount (max schedule.InstanceMinInitial schedule.InstanceMin)
                    schedule.InstanceMax current = -1))
      ∧ (∀ h ∈ savedHistories (RemoveActiveSchedule c store appId scheduleId).trace,
        (h.OldInstances = -1 →
            (∃ err, c.getAppInstances appId = .error err) ∨ c.getAppInstances appId = .ok (-1))
          ∧ (h.NewInstances = -1 →
              ∀ cur current policy,
                c.getActiveScheduleErr appId = none →
                store appId = some cur →
                cur.ScheduleId = scheduleId →
                c.removeActiveScheduleErr appId = none →
                c.getAppInstances appId = .ok current →
                c.getAppPolicy appId = .ok (some policy) →
                  clampCount policy.InstanceMin policy.InstanceMax current = -1)) := by
  have hold : ∀ (saved : List AppScalingHistory),
      (∀ n, c.getAppInstances appId = .ok n → ∀ h ∈ saved, h.OldInstances = n) →
      ∀ h ∈ saved, h.OldInstances = -1 →
        (∃ err, c.getAppInstances appId = .error err) ∨ c.getAppInstances appId = .ok (-1) := by
    intro saved hall h hmem hminus
    rcases hg : c.getAppInstances appId with err | n
    · exact Or.inl ⟨err, rfl⟩
    · right
      rw [← hall n hg h hmem, hminus]
  refine ⟨fun h hmem => ⟨hold _ (fun n hg => Scale_saved_old c store appId trigger n hg) h hmem,
      ?_⟩,
    fun h hmem => ⟨hold _ (fun n hg => SetActiveSchedule_saved_old c store appId schedule n hg)
      h hmem, ?_⟩,
    fun h hmem => ⟨hold _ (fun n hg =>
      RemoveActiveSchedule_saved_old c store appId scheduleId n hg) h hmem, ?_⟩⟩
  · intro hminus current proposed lo hi hget hcool hcompute hfetch hbounds
    rw [← Scale_saved_new c store appId trigger current proposed lo hi hget hcool hcompute hfetch
      hbounds h hmem, hminus]
  · intro hminus current hfetch hother hwrite hget
    have hnew := SetActiveSchedule_saved_new c store appId schedule current hfetch hother hwrite
      hget h hmem
    unfold scheduleStartMin at hnew
    rw [← hnew, hminus]
  · intro hminus cur current policy hfetch hstored hid hremove hget hpolicy
    rw [← RemoveActiveSchedule_saved_new c store appId scheduleId cur current policy hfetch
      hstored hid hremove hget hpolicy h hmem, hminus]

/-- C16 example: three instances, adjustment `"-5"` and the policy `[2, 10]`: the
one saved entry has `oldInstances = 3` and `newInstances = 2`, neither of them
the sentinel; and with a failing platform the saved entry keeps both at -1. -/
theorem history_sentinel_counts_example :
    (∀ h ∈ savedHistories (Scale (fixedCollaborators 3 true (some ⟨2, 10⟩)) emptyStore "app"
          (sampleTrigger "-5")).trace,
        (h.NewInstances = -1 → clampCount 2 10 (-2) = -1))
      ∧ (savedHistories (Scale (fixedCollaborators 3 true (some ⟨2, 10⟩)) emptyStore "app"
          (sampleTrigger "-5")).trace).map (fun h => (h.OldInstances, h.NewInstances))
          = [(3, 2)]
      ∧ (savedHistories (Scale failingPlatform emptyStore "app"
          (sampleTrigger "-5")).trace).map (fun h => (h.OldInstances, h.NewInstances))
          = [(-1, -1)] :=
  ⟨fun h hmem hminus =>
      ((history_sentinel_counts (fixedCollaborators 3 true (some ⟨2, 10⟩)) emptyStore "app"
        (sampleTrigger "-5") ⟨"s", 0, 0, 0⟩ "s").1 h hmem).2 hminus 3 (-2) 2 10 rfl rfl
        (by decide) rfl rfl,
    by decide, by decide⟩

/-! ## C19: `Scale` and an absent policy -/

/-- C19 fails on the code: `Scale` ends in a panic, returning no pair, exactly
when the platform reports a count, the app is out of cooldown, the adjustment
parses, the schedule fetch succeeds with no schedule stored, and the policy
store answers "no policy" (nil, no error): line 121 then reads
`policy.InstanceMin` of the nil policy. On the sample input (four instances,
adjustment `"+1"`, no schedule, no policy) the run asks the policy store and
panics without a result, whereas `RemoveActiveSchedule` with the same
collaborators checks for the nil policy and returns nil. -/
theorem Scale_panics_iff_nil_policy (c : Collaborators) (store : ScheduleStore)
    (appId : String) (trigger : Trigger) :
    ((∃ why, (Scale c store appId trigger).result = .panicked why) ↔
        ∃ current proposed,
          c.getAppInstances appId = .ok current
            ∧ c.canScaleApp appId = .ok true
            ∧ ComputeNewInstances current trigger.Adjustment = (proposed, none)
            ∧ c.getActiveScheduleErr appId = none
            ∧ store appId = none
            ∧ c.getAppPolicy appId = .ok none)
      ∧ (∀ r, (Scale (fixedCollaborators 4 true none) emptyStore "app"
            (sampleTrigger "+1")).result ≠ .returned r)
      ∧ (Scale (fixedCollaborators 4 true none) emptyStore "app" (sampleTrigger "+1")).trace
          = [.lock "app", .clockNow, .getAppInstances "app", .canScaleApp "app",
             .getActiveSchedule "app", .getAppPolicy "app",
             .saveScalingHistory
              { AppId := "app", Timestamp := 1000, ScalingType := .dynamic, OldInstances := 4,
                NewInstances := -1, Reason := getDynamicScalingReason (sampleTrigger "+1"),
                Status := none, Error := "", Message := "" },
             .unlock "app"]
      ∧ (RemoveActiveSchedule (fixedCollaborators 4 true none) (singleStore ⟨"s", 1, 5, 2⟩)
            "app" "s").result = .returned none := by
  refine ⟨?_, ?_, rfl, rfl⟩
  swap
  · intro r h
    have h2 : Completion.panicked "invalid memory address or nil pointer dereference"
        = Completion.returned r := h
    cases h2
  unfold Scale scaleBody dbGetActiveSchedule
  dsimp only
  rcases c.getAppInstances appId with err | instances
  · simp
  dsimp only
  rcases c.canScaleApp appId with err | (_ | _)
  · simp
  · simp
  dsimp only
  rcases hcn : ComputeNewInstances instances trigger.Adjustment with ⟨k, _ | err⟩
  swap
  · simp [hcn]
  dsimp only
  rcases c.getActiveScheduleErr appId with _ | err
  swap
  · simp
  dsimp only
  rcases store appId with _ | sch
  · dsimp only
    rcases c.getAppPolicy appId with err | (_ | policy)
    · simp
    · simp [hcn]
    · dsimp only
      obtain ⟨_, ⟨r, hr⟩⟩ := scaleApply_status c appId trigger c.now
        { AppId := appId, Timestamp := c.now, ScalingType := .dynamic, OldInstances := instances,
          NewInstances := -1, Reason := getDynamicScalingReason trigger, Status := none,
          Error := "", Message := "" } instances k policy.InstanceMin policy.InstanceMax
        [.getAppInstances appId, .canScaleApp appId, .getActiveSchedule appId,
          .getAppPolicy appId]
      rw [hr]
      simp
  · dsimp only
    obtain ⟨_, ⟨r, hr⟩⟩ := scaleApply_status c appId trigger c.now
      { AppId := appId, Timestamp := c.now, ScalingType := .dynamic, OldInstances := instances,
        NewInstances := -1, Reason := getDynamicScalingReason trigger, Status := none,
        Error := "", Message := "" } instances k sch.InstanceMin sch.InstanceMax
      [.getAppInstances appId, .canScaleApp appId, .getActiveSchedule appId]
    rw [hr]
    simp

/-! ## C20: `Config.Validate` -/

theorem firstViolated_eq_none (checks : List (Bool × String)) :
    firstViolated checks = none ↔ ∀ k ∈ checks, k.1 = false := by
  induction checks with
  | nil => simp [firstViolated]
  | cons k rest ih =>
    obtain ⟨violated, err⟩ := k
    cases violated <;> simp [firstViolated, ih]

theorem firstViolated_cons_decide (p : Prop) [Decidable p] (err : String)
    (rest : List (Bool × String)) :
    firstViolated ((decide p, err) :: rest) = if p then some err else firstViolated rest := by
  by_cases h : p <;> simp [firstViolated, h]

/-- C20: `Config.Validate` returns nil exactly when the five string settings
(policy DB url, app-metric DB url, scaling engine url, metric collector url,
consul cluster config) are non-empty and the nine numeric settings (aggregator
execute interval, policy poller interval, metric poller count, app-monitor
channel size, evaluation manager interval, evaluator count, trigger-array
channel size, lock retry interval, lock TTL) are greater than 0; in every case
what it returns is the error of the first violated check in that order (nil
when none is violated), and the configuration is left as it was. -/
theorem Validate_first_violated {TLSCerts : Type} (c : Config TLSCerts) :
    (c.Validate.2 = none ↔
        (c.DB.PolicyDBUrl ≠ "" ∧ c.DB.AppMetricDBUrl ≠ ""
          ∧ c.ScalingEngine.ScalingEngineUrl ≠ "" ∧ c.MetricCollector.MetricCollectorUrl ≠ ""
          ∧ c.Lock.ConsulClusterConfig ≠ "")
        ∧ (c.Aggregator.AggregatorExecuteInterval > 0 ∧ c.Aggregator.PolicyPollerInterval > 0
          ∧ c.Aggregator.MetricPollerCount > 0 ∧ c.Aggregator.AppMonitorChannelSize > 0
          ∧ c.Evaluator.EvaluationManagerInterval > 0 ∧ c.Evaluator.EvaluatorCount > 0
          ∧ c.Evaluator.TriggerArrayChannelSize > 0 ∧ c.Lock.LockRetryInterval > 0
          ∧ c.Lock.LockTTL > 0))
      ∧ c.Validate.2 = firstViolated (orderedChecks c)
      ∧ c.Validate.1 = c := by
  have hrun : c.Validate = (c, firstViolated (orderedChecks c)) := by
    unfold Config.Validate orderedChecks
    simp only [firstViolated_cons_decide, not_lt, gt_iff_lt]
    simp only [firstViolated]
    by_cases h1 : c.DB.PolicyDBUrl = ""
    · simp only [if_pos h1]
    simp only [if_neg h1]
    by_cases h2 : c.DB.AppMetricDBUrl = ""
    · simp only [if_pos h2]
    simp only [if_neg h2]
    by_cases h3 : c.ScalingEngine.ScalingEngineUrl = ""
    · simp only [if_pos h3]
    simp only [if_neg h3]
    by_cases h4 : c.MetricCollector.MetricCollectorUrl = ""
    · simp only [if_pos h4]
    simp only [if_neg h4]
    by_cases h5 : c.Lock.ConsulClusterConfig = ""
    · simp only [if_pos h5]
    simp only [if_neg h5]
    by_cases h6 : c.Aggregator.AggregatorExecuteInterval ≤ 0
    · simp only [if_pos h6]
    simp only [if_neg h6]
    by_cases h7 : c.Aggregator.PolicyPollerInterval ≤ 0
    · simp only [if_pos h7]
    simp only [if_neg h7]
    by_cases h8 : c.Aggregator.MetricPollerCount ≤ 0
    · simp only [if_pos h8]
    simp only [if_neg h8]
    by_cases h9 : c.Aggregator.AppMonitorChannelSize ≤ 0
    · simp only [if_pos h9]
    simp only [if_neg h9]
    by_cases h10 : c.Evaluator.EvaluationManagerInterval ≤ 0
    · simp only [if_pos h10]
    simp only [if_neg h10]
    by_cases h11 : c.Evaluator.EvaluatorCount ≤ 0
    · simp only [if_pos h11]
    simp only [if_neg h11]
    by_cases h12 : c.Evaluator.TriggerArrayChannelSize ≤ 0
    · simp only [if_pos h12]
    simp only [if_neg h12]
    by_cases h13 : c.Lock.LockRetryInterval ≤ 0
    · simp only [if_pos h13]
    simp only [if_neg h13]
    by_cases h14 : c.Lock.LockTTL ≤ 0
    · simp only [if_pos h14]
    simp only [if_neg h14]
  refine ⟨?_, ?_, ?_⟩
  · rw [hrun]
    dsimp only
    rw [firstViolated_eq_none]
    simp only [orderedChecks, List.forall_mem_cons, decide_eq_false_iff_not, not_not,
      List.not_mem_nil, ne_eq]
    tauto
  · rw [hrun]
  · rw [hrun]

/-- C20 examples: the sample configuration passes, and with an empty metric
collector url and an evaluator count of 0 the error is that of the metric
collector url, the earlier of the two violated checks. -/
theorem Validate_first_violated_examples :
    sampleConfig.Validate.2 = none
      ∧ spoiledConfig.Validate.2 = some "Configuration error: Metric collector url is empty"
      ∧ spoiledConfig.Validate.1 = spoiledConfig :=
  ⟨(Validate_first_violated sampleConfig).1.mpr (by decide),
    (Validate_first_violated spoiledConfig).2.1.trans (by decide),
    (Validate_first_violated spoiledConfig).2.2⟩

/-! ## C15: decisions for one application exclude each other -/

theorem callsOf_cons_self (who : Bool) (call : Call) (rest : List (Bool × Call)) :
    callsOf who ((who, call) :: rest) = call :: callsOf who rest := by
  simp [callsOf]

theorem callsOf_cons_other (who : Bool) (call : Call) (rest : List (Bool × Call)) :
    callsOf who ((!who, call) :: rest) = callsOf who rest := by
  cases who <;> simp [callsOf]

theorem callsOf_not_cons_self (who : Bool) (call : Call) (rest : List (Bool × Call)) :
    callsOf (!who) ((who, call) :: rest) = callsOf (!who) rest := by
  cases who <;> simp [callsOf]

theorem mutexStep_of_not_locking (appId : String) (holder : Option Bool) (who : Bool)
    (call : Call) (h : isLocking call = false) :
    mutexStep appId holder (who, call) = some holder := by
  cases call <;> simp_all [mutexStep, isLocking]

/-- While one invocation holds the stripe, the schedule continues with the rest
of that invocation up to its release; the other invocation, whose next call is
its lock, makes no call before that. -/
theorem held_until_release (appId : String) (who : Bool) (schedule : List (Bool × Call)) :
    ∀ (inner others : List Call),
      mutexAllows appId (some who) schedule = true →
      callsOf who schedule = inner ++ [.unlock appId] →
      inner.all (fun call => !isLocking call) = true →
      callsOf (!who) schedule = others →
      (others = [] ∨ ∃ rest, others = .lock appId :: rest) →
      ∃ after, schedule = tagged who (inner ++ [.unlock appId]) ++ after
        ∧ callsOf who after = [] ∧ callsOf (!who) after = others := by
  induction schedule with
  | nil =>
    intro inner others _ hcalls
    simp [callsOf] at hcalls
  | cons event rest ih =>
    intro inner others hallows hcalls hinner hothers hnext
    obtain ⟨w, call⟩ := event
    by_cases hw : w = who
    · subst hw
      rw [callsOf_cons_self] at hcalls
      rw [callsOf_not_cons_self] at hothers
      cases inner with
      | nil =>
        simp only [List.nil_append, List.cons.injEq] at hcalls
        obtain ⟨hcall, hrest⟩ := hcalls
        subst hcall
        exact ⟨rest, by simp [tagged], hrest, hothers⟩
      | cons c inner1 =>
        simp only [List.cons_append, List.cons.injEq] at hcalls
        obtain ⟨hcall, hrest⟩ := hcalls
        subst hcall
        simp only [List.all_cons, Bool.and_eq_true, Bool.not_eq_true'] at hinner
        have hstep := mutexStep_of_not_locking appId (some w) w call hinner.1
        have hallows1 : mutexAllows appId (some w) rest = true := by
          simpa [mutexAllows, hstep] using hallows
        obtain ⟨after, h1, h2, h3⟩ := ih inner1 others hallows1 hrest
          (by simpa using hinner.2) hothers hnext
        exact ⟨after, by simp [tagged, h1], h2, h3⟩
    · have hw2 : w = !who := by
        cases w <;> cases who <;> simp_all
      subst hw2
      exfalso
      rw [callsOf_cons_self] at hothers
      rcases hnext with hnil | ⟨r, hr⟩
      · rw [hnil] at hothers
        cases hothers
      · rw [hr] at hothers
        simp only [List.cons.injEq] at hothers
        obtain ⟨hcall, _⟩ := hothers
        subst hcall
        cases who <;> simp [mutexAllows, mutexStep] at hallows

/-- A schedule in which one invocation makes no call is the trace of the other. -/
theorem schedule_of_one (who : Bool) (schedule : List (Bool × Call))
    (h : callsOf who schedule = []) :
    schedule = tagged (!who) (callsOf (!who) schedule) := by
  induction schedule with
  | nil => rfl
  | cons event rest ih =>
    obtain ⟨w, call⟩ := event
    by_cases hw : w = who
    · subst hw
      rw [callsOf_cons_self] at h
      cases h
    · have hw2 : w = !who := by
        cases w <;> cases who <;> simp_all
      subst hw2
      have h1 : callsOf who rest = [] := by
        have := callsOf_cons_other who call rest
        rw [this] at h
        exact h
      rw [callsOf_cons_self]
      simp only [tagged, List.map_cons, List.cons.injEq, true_and]
      exact ih h1

/-- Two traces that each open with the lock of `appId`, close with its unlock
and do no locking in between can only be scheduled one after the other under
the mutex discipline. -/
theorem serial_of_mutex (appId : String) (trace inner : Bool → List Call)
    (schedule : List (Bool × Call))
    (hshape : ∀ who, trace who = .lock appId :: inner who ++ [.unlock appId]
      ∧ (inner who).all (fun call => !isLocking call) = true)
    (hcalls : ∀ who, callsOf who schedule = trace who)
    (hallows : mutexAllows appId none schedule = true) :
    ∃ who, schedule = tagged who (trace who) ++ tagged (!who) (trace (!who)) := by
  cases schedule with
  | nil =>
    have := hcalls false
    rw [(hshape false).1] at this
    simp [callsOf] at this
  | cons event rest =>
    obtain ⟨w, call⟩ := event
    have h1 := hcalls w
    rw [callsOf_cons_self, (hshape w).1] at h1
    simp only [List.cons_append, List.cons.injEq] at h1
    obtain ⟨hcall, hrest⟩ := h1
    subst hcall
    have h2 := hcalls (!w)
    rw [callsOf_not_cons_self] at h2
    have hallows1 : mutexAllows appId (some w) rest = true := by
      simpa [mutexAllows, mutexStep] using hallows
    obtain ⟨after, e1, e2, e3⟩ := held_until_release appId w rest (inner w) (trace (!w))
      hallows1 hrest (hshape w).2 h2 (Or.inr ⟨_, (hshape (!w)).1⟩)
    have e4 := schedule_of_one w after e2
    rw [e3] at e4
    refine ⟨w, ?_⟩
    rw [(hshape w).1, e1, e4]
    simp [tagged]


theorem scaleApply_lockFree (c : Collaborators) (appId : String) (trigger : Trigger) (now : Int)
    (history : AppScalingHistory) (instances newInstances lo hi : Int) (calls : List Call)
    (h : calls.all (fun call => !isLocking call) = true) :
    (scaleApply c appId trigger now history instances newInstances lo hi calls).2.2.all
      (fun call => !isLocking call) = true := by
  unfold scaleApply
  dsimp only
  split_ifs <;> (try split) <;> simp_all [isLocking, List.all_append]

theorem scaleBody_lockFree (c : Collaborators) (store : ScheduleStore) (appId : String)
    (trigger : Trigger) (now : Int) (history : AppScalingHistory) :
    (scaleBody c store appId trigger now history).2.2.all (fun call => !isLocking call)
      = true := by
  unfold scaleBody
  repeat' split
  all_goals first
    | (apply scaleApply_lockFree; simp [isLocking])
    | simp [isLocking]

theorem setActiveScheduleBody_lockFree (c : Collaborators) (appId : String)
    (schedule : ActiveSchedule) (history : AppScalingHistory) :
    (setActiveScheduleBody c appId schedule history).2.2.all (fun call => !isLocking call)
      = true := by
  unfold setActiveScheduleBody
  rcases c.getAppInstances appId with err | instances
  · simp [isLocking]
  dsimp only
  split_ifs <;> (try split) <;> simp [isLocking]

theorem removeActiveScheduleBody_lockFree (c : Collaborators) (appId : String)
    (history : AppScalingHistory) :
    (removeActiveScheduleBody c appId history).2.2.all (fun call => !isLocking call)
      = true := by
  unfold removeActiveScheduleBody
  rcases c.getAppInstances appId with err | instances
  · simp [isLocking]
  dsimp only
  rcases c.getAppPolicy appId with err | (_ | policy)
  · simp [isLocking]
  · simp [isLocking]
  dsimp only
  split_ifs <;> (try split) <;> simp [isLocking]

/-- Every invocation of an entry point takes the lock of its application before
any other call, releases it after all other calls (the history write
included), and does no locking in between. -/
theorem Decision_trace_shape (decision : Decision) (c : Collaborators) (store : ScheduleStore)
    (appId : String) :
    ∃ inner, decision.trace c store appId = .lock appId :: inner ++ [.unlock appId]
      ∧ inner.all (fun call => !isLocking call) = true := by
  cases decision with
  | scale trigger =>
    refine ⟨[.clockNow] ++ (scaleBody c store appId trigger c.now
      { AppId := appId, Timestamp := c.now, ScalingType := .dynamic, OldInstances := -1,
        NewInstances := -1, Reason := getDynamicScalingReason trigger, Status := none,
        Error := "", Message := "" }).2.2 ++ [.saveScalingHistory (scaleBody c store appId
          trigger c.now
      { AppId := appId, Timestamp := c.now, ScalingType := .dynamic, OldInstances := -1,
        NewInstances := -1, Reason := getDynamicScalingReason trigger, Status := none,
        Error := "", Message := "" }).1], ?_, ?_⟩
    · simp [Decision.trace, Scale]
    · rw [List.all_append, List.all_append, scaleBody_lockFree]
      rfl
  | setActiveSchedule schedule =>
    unfold Decision.trace SetActiveSchedule dbGetActiveSchedule dbSetActiveSchedule
    rcases c.getActiveScheduleErr appId with _ | err
    swap
    · exact ⟨[.getActiveSchedule appId], rfl, rfl⟩
    dsimp only
    split_ifs
    · exact ⟨[.getActiveSchedule appId], rfl, rfl⟩
    rcases c.setActiveScheduleErr appId schedule with _ | err
    swap
    · exact ⟨[.getActiveSchedule appId, .setActiveSchedule appId schedule], rfl, rfl⟩
    dsimp only
    refine ⟨[.getActiveSchedule appId, .setActiveSchedule appId schedule, .clockNow]
      ++ (setActiveScheduleBody c appId schedule
        { AppId := appId, Timestamp := c.now, ScalingType := .schedule, OldInstances := -1,
          NewInstances := -1, Reason := getScheduledScalingReason schedule, Status := none,
          Error := "", Message := "" }).2.2
      ++ [.saveScalingHistory (setActiveScheduleBody c appId schedule
        { AppId := appId, Timestamp := c.now, ScalingType := .schedule, OldInstances := -1,
          NewInstances := -1, Reason := getScheduledScalingReason schedule, Status := none,
          Error := "", Message := "" }).1], ?_, ?_⟩
    · simp
    · rw [List.all_append, List.all_append, setActiveScheduleBody_lockFree]
      rfl
  | removeActiveSchedule scheduleId =>
    unfold Decision.trace RemoveActiveSchedule dbGetActiveSchedule dbRemoveActiveSchedule
    rcases c.getActiveScheduleErr appId with _ | err
    swap
    · exact ⟨[.getActiveSchedule appId], rfl, rfl⟩
    dsimp only
    split_ifs
    · exact ⟨[.getActiveSchedule appId], rfl, rfl⟩
    rcases c.removeActiveScheduleErr appId with _ | err
    swap
    · exact ⟨[.getActiveSchedule appId, .removeActiveSchedule appId], rfl, rfl⟩
    dsimp only
    refine ⟨[.getActiveSchedule appId, .removeActiveSchedule appId, .clockNow]
      ++ (removeActiveScheduleBody c appId
        { AppId := appId, Timestamp := c.now, ScalingType := .schedule, OldInstances := -1,
          NewInstances := -1, Reason := "schedule ends", Status := none,
          Error := "", Message := "" }).2.2
      ++ [.saveScalingHistory (removeActiveScheduleBody c appId
        { AppId := appId, Timestamp := c.now, ScalingType := .schedule, OldInstances := -1,
          NewInstances := -1, Reason := "schedule ends", Status := none,
          Error := "", Message := "" }).1], ?_, ?_⟩
    · simp
    · rw [List.all_append, List.all_append, removeActiveScheduleBody_lockFree]
      rfl

/-- C15: take two concurrent invocations of `Scale`, `SetActiveSchedule` or
`RemoveActiveSchedule` for the same `appId` (whatever their collaborators
answer and whatever table each finds) and any schedule of their calls that
respects the mutex of the application's stripe. Each invocation holds the lock
from before its first collaborator call until after its history write (its
trace is the lock, calls without locking, the unlock), and the schedule is one
whole trace followed by the other: all calls of one invocation, the deferred
history write included, happen before any call of the other. -/
theorem decisions_mutually_exclusive (c1 c2 : Collaborators) (store1 store2 : ScheduleStore)
    (appId : String) (first second : Decision) (schedule : List (Bool × Call))
    (hfirst : callsOf false schedule = first.trace c1 store1 appId)
    (hsecond : callsOf true schedule = second.trace c2 store2 appId)
    (hmutex : mutexAllows appId none schedule = true) :
    (schedule = tagged false (first.trace c1 store1 appId)
          ++ tagged true (second.trace c2 store2 appId)
        ∨ schedule = tagged true (second.trace c2 store2 appId)
          ++ tagged false (first.trace c1 store1 appId))
      ∧ (∃ inner, first.trace c1 store1 appId = .lock appId :: inner ++ [.unlock appId]
          ∧ inner.all (fun call => !isLocking call) = true)
      ∧ (∃ inner, second.trace c2 store2 appId = .lock appId :: inner ++ [.unlock appId]
          ∧ inner.all (fun call => !isLocking call) = true) := by
  obtain ⟨inner1, hs1, hl1⟩ := Decision_trace_shape first c1 store1 appId
  obtain ⟨inner2, hs2, hl2⟩ := Decision_trace_shape second c2 store2 appId
  refine ⟨?_, ⟨inner1, hs1, hl1⟩, ⟨inner2, hs2, hl2⟩⟩
  obtain ⟨who, hwho⟩ := serial_of_mutex appId
    (fun who => if who then second.trace c2 store2 appId else first.trace c1 store1 appId)
    (fun who => if who then inner2 else inner1) schedule
    (by
      intro who
      cases who
      · exact ⟨hs1, hl1⟩
      · exact ⟨hs2, hl2⟩)
    (by
      intro who
      cases who
      · exact hfirst
      · exact hsecond)
    hmutex
  cases who
  · left
    simpa using hwho
  · right
    simpa using hwho

/-- C15 witness: a `Scale` and a `SetActiveSchedule` for `"app"`. The schedule
that runs the first and then the second respects the mutex and is one of the
two serial schedules; a schedule in which the second invocation takes the lock
right after the first did is not allowed by the mutex. -/
theorem decisions_mutually_exclusive_witness :
    mutexAllows "app" none
        (tagged false ((Decision.scale (sampleTrigger "+1")).trace
            (fixedCollaborators 4 true (some ⟨1, 10⟩)) emptyStore "app")
          ++ tagged true ((Decision.setActiveSchedule ⟨"s", 3, 10, 5⟩).trace
            (fixedCollaborators 5 true (some ⟨1, 10⟩)) emptyStore "app")) = true
      ∧ ((tagged false ((Decision.scale (sampleTrigger "+1")).trace
            (fixedCollaborators 4 true (some ⟨1, 10⟩)) emptyStore "app")
          ++ tagged true ((Decision.setActiveSchedule ⟨"s", 3, 10, 5⟩).trace
            (fixedCollaborators 5 true (some ⟨1, 10⟩)) emptyStore "app")
          = tagged false ((Decision.scale (sampleTrigger "+1")).trace
            (fixedCollaborators 4 true (some ⟨1, 10⟩)) emptyStore "app")
          ++ tagged true ((Decision.setActiveSchedule ⟨"s", 3, 10, 5⟩).trace
            (fixedCollaborators 5 true (some ⟨1, 10⟩)) emptyStore "app"))
        ∨ (tagged false ((Decision.scale (sampleTrigger "+1")).trace
            (fixedCollaborators 4 true (some ⟨1, 10⟩)) emptyStore "app")
          ++ tagged true ((Decision.setActiveSchedule ⟨"s", 3, 10, 5⟩).trace
            (fixedCollaborators 5 true (some ⟨1, 10⟩)) emptyStore "app")
          = tagged true ((Decision.setActiveSchedule ⟨"s", 3, 10, 5⟩).trace
            (fixedCollaborators 5 true (some ⟨1, 10⟩)) emptyStore "app")
          ++ tagged false ((Decision.scale (sampleTrigger "+1")).trace
            (fixedCollaborators 4 true (some ⟨1, 10⟩)) emptyStore "app")))
      ∧ mutexAllows "app" none
          [(false, .lock "app"), (true, .lock "app"), (false, .clockNow),
            (false, .unlock "app"), (true, .unlock "app")] = false :=
  ⟨rfl,
    (decisions_mutually_exclusive (fixedCollaborators 4 true (some ⟨1, 10⟩))
      (fixedCollaborators 5 true (some ⟨1, 10⟩)) emptyStore emptyStore "app"
      (.scale (sampleTrigger "+1")) (.setActiveSchedule ⟨"s", 3, 10, 5⟩)
      (tagged false ((Decision.scale (sampleTrigger "+1")).trace
          (fixedCollaborators 4 true (some ⟨1, 10⟩)) emptyStore "app")
        ++ tagged true ((Decision.setActiveSchedule ⟨"s", 3, 10, 5⟩).trace
          (fixedCollaborators 5 true (some ⟨1, 10⟩)) emptyStore "app"))
      rfl rfl rfl).1,
    rfl⟩

end Autoscaler
